import Mathlib

/-!
# Rigid bodies of `nothing`: a shallow embedding of `src/game/level/rigid_bodies.c`

The store `struct RigidBodies` is a structure of arrays indexed by a body id.
Each C array is embedded as a total map `Nat → α`; a freshly `calloc`ed array
is the constant-zero map.  Only the slots below `capacity` exist in the C
program.  `float` values are embedded as rationals, so arithmetic is exact and
every value is finite: rounding, infinities and NaN are outside the embedding.
A failing `trace_assert` aborts the program and is embedded as
`Except.error Err.assertion`.
-/

set_option autoImplicit false

namespace RigidBodies

/-! ## Vectors and rectangles -/

/-- Two dimensional vector `Vec` with `float` components. -/
structure Vec where
  x : ℚ
  y : ℚ
deriving DecidableEq

/-- Axis aligned rectangle `Rect`: position and size. -/
structure Rect where
  x : ℚ
  y : ℚ
  w : ℚ
  h : ℚ
deriving DecidableEq

/-- Modelled from the spec: the constructor `vec(x, y)` of the vector header,
which is not among the sources. -/
def vec (x y : ℚ) : Vec := ⟨x, y⟩

/-- Modelled from the spec: `vec_sum` of the vector header (not among the
sources), the component-wise sum. -/
def vec_sum (v1 v2 : Vec) : Vec := vec (v1.x + v2.x) (v1.y + v2.y)

/-- Modelled from the spec: `vec_scala_mult` of the vector header (not among
the sources), the product of a vector with a scalar. -/
def vec_scala_mult (v : Vec) (scalar : ℚ) : Vec := vec (v.x * scalar) (v.y * scalar)

/-- Modelled from the spec: `vec_entry_mult` of the vector header (not among
the sources), the component-wise product. -/
def vec_entry_mult (v1 v2 : Vec) : Vec := vec (v1.x * v2.x) (v1.y * v2.y)

/-- The rectangle functions used by the solver live in the rectangle header,
which is not among the sources; they are parameters of the embedding.
`rect_impulse` receives both rectangles by pointer: it returns the two
rectangles as it leaves them together with the orientation vector. -/
structure Geometry where
  rects_overlap : Rect → Rect → Bool
  rect_impulse : Rect → Rect → Rect × Rect × Vec

/-- The four sides of a rectangle (`RECT_SIDE_N = 4` flags). -/
inductive RectSide where
  | left
  | right
  | top
  | bottom
deriving DecidableEq

/-- The platform collaborator (`const Platforms *`), declared in
`platforms.h` which is not among the sources: `touches_rect_sides` fills the
per-side flags for a rectangle, `snap_rect` receives the rectangle by pointer
and returns it as left behind together with the snap vector. -/
structure Platforms where
  touches_rect_sides : Rect → RectSide → Bool
  snap_rect : Rect → Rect × Vec

/-! ## The pair set -/

/-- Modelled from the spec: `HashSet` of `hashset.h`, which is not among the
sources; the deduplicated collection of index pairs `size_t pair[2]`, kept
here in insertion order. -/
abbrev HashSet := List (Nat × Nat)

/-- Modelled from the spec: `hashset_clear` empties the set. -/
def hashset_clear (_h : HashSet) : HashSet := []

/-- Modelled from the spec: `hashset_insert` adds a pair unless it is already
a member. -/
def hashset_insert (h : HashSet) (pair : Nat × Nat) : HashSet :=
  if pair ∈ h then h else h ++ [pair]

/-- Modelled from the spec: `hashset_values` enumerates the members. -/
def hashset_values (h : HashSet) : List (Nat × Nat) := h

/-- Modelled from the spec: `hashset_count` is the number of members. -/
def hashset_count (h : HashSet) : Nat := h.length

/-! ## The store -/

/-- Outcome of a call that does not return normally. -/
inductive Err where
  | assertion
  | out_of_bounds
deriving DecidableEq

end RigidBodies

/-- The store `struct RigidBodies` (the lifetime field `lt` is left out). -/
structure RigidBodies where
  capacity : Nat
  count : Nat
  bodies : Nat → RigidBodies.Rect
  velocities : Nat → RigidBodies.Vec
  movements : Nat → RigidBodies.Vec
  grounded : Nat → Bool
  forces : Nat → RigidBodies.Vec
  deleted : Nat → Bool
  collided : RigidBodies.HashSet
  disabled : Nat → Bool

namespace RigidBodies

/-- `create_rigid_bodies` on the path where every allocation succeeds (on a
failed allocation the function returns `NULL` and there is no store). -/
def create_rigid_bodies (capacity : Nat) : RigidBodies :=
  { capacity := capacity
    count := 0
    bodies := fun _ => ⟨0, 0, 0, 0⟩
    velocities := fun _ => ⟨0, 0⟩
    movements := fun _ => ⟨0, 0⟩
    grounded := fun _ => false
    forces := fun _ => ⟨0, 0⟩
    deleted := fun _ => false
    collided := []
    disabled := fun _ => false }

/-- `rigid_bodies_apply_force`. -/
def rigid_bodies_apply_force (s : RigidBodies) (id : Nat) (force : Vec) :
    Except Err RigidBodies :=
  if ¬ id < s.count then .error .assertion
  else if s.deleted id || s.disabled id then .ok s
  else .ok { s with forces := Function.update s.forces id (vec_sum (s.forces id) force) }

/-- One execution of the body of the innermost loop of
`rigid_bodies_collide_with_itself` (lines 121 to 148) for the pair `i1`, `i2`.
The second component is the collision flag of the current scan. -/
def collide_pair (G : Geometry) (i1 i2 : Nat) (st : RigidBodies × Bool) :
    RigidBodies × Bool :=
  let s := st.1
  if s.deleted i2 || s.disabled i1 then st
  else if !G.rects_overlap (s.bodies i1) (s.bodies i2) then st
  else
    let collided := hashset_insert s.collided (i1, i2)
    let imp := G.rect_impulse (s.bodies i1) (s.bodies i2)
    let orient := imp.2.2
    let bodies := Function.update (Function.update s.bodies i1 imp.1) i2 imp.2.1
    let grounded :=
      if orient.x > orient.y then
        if (bodies i1).y < (bodies i2).y then Function.update s.grounded i1 true
        else Function.update s.grounded i2 true
      else s.grounded
    let v1 := Function.update s.velocities i1
      (vec ((s.velocities i1).x * orient.x) ((s.velocities i1).y * orient.y))
    let v2 := Function.update v1 i2 (vec ((v1 i2).x * orient.x) ((v1 i2).y * orient.y))
    let m1 := Function.update s.movements i1
      (vec ((s.movements i1).x * orient.x) ((s.movements i1).y * orient.y))
    let m2 := Function.update m1 i2 (vec ((m1 i2).x * orient.x) ((m1 i2).y * orient.y))
    ({ s with collided := collided, bodies := bodies, grounded := grounded,
              velocities := v2, movements := m2 }, true)

/-- The loop over `i2` (lines 120 to 150) for a fixed `i1`, preceded by the
test of line 116. -/
def scan_row (G : Geometry) (i1 : Nat) (st : RigidBodies × Bool) : RigidBodies × Bool :=
  if st.1.deleted i1 || st.1.disabled i1 then st
  else (List.range' (i1 + 1) (st.1.count - (i1 + 1))).foldl
    (fun acc i2 => collide_pair G i1 i2 acc) st

/-- One full pairwise scan (lines 114 to 151): the flag is reset, then `i1`
runs over `0 .. count - 2`. -/
def scan (G : Geometry) (s : RigidBodies) : RigidBodies × Bool :=
  (List.range (s.count - 1)).foldl (fun acc i1 => scan_row G i1 acc) (s, false)

/-- The bounded loop of line 113: at most `fuel` scans, repeated while the
previous scan set the collision flag.  The second component counts the scans
that were run. -/
def scan_loop (G : Geometry) : Nat → RigidBodies → RigidBodies × Nat
  | 0, s => (s, 0)
  | fuel + 1, s =>
    let r := scan G s
    if r.2 then
      let t := scan_loop G fuel r.1
      (t.1, t.2 + 1)
    else (r.1, 1)

/-- The body of the loop of lines 156 to 164 for one recorded pair. -/
def react_pair (s : RigidBodies) (p : Nat × Nat) : Except Err RigidBodies := do
  let s1 ← rigid_bodies_apply_force s p.1 (vec_sum (s.velocities p.2) (s.movements p.2))
  rigid_bodies_apply_force s1 p.2 (vec_sum (s1.velocities p.1) (s1.movements p.1))

/-- The reactive forces (lines 154 to 164). -/
def react (s : RigidBodies) : Except Err RigidBodies :=
  (hashset_values s.collided).foldlM react_pair s

/-- The body of `rigid_bodies_collide_with_itself` (lines 104 to 164): the early
return for an empty store, `hashset_clear`, the scan loop of lines 113 to 149 and the
reactive forces of lines 151 to 164.  Next to the store the result holds the value
that the loop variable `i` of line 113 has when the loop ends, which is the number of
scans that ran (0 on the early return, where the loop is never reached). -/
def collide_with_itself_run (G : Geometry) (s : RigidBodies) :
    Except Err (RigidBodies × Nat) :=
  if s.count = 0 then .ok (s, 0)
  else do
    let s0 := { s with collided := hashset_clear s.collided }
    let r := scan_loop G 1000 s0
    let s2 ← react r.1
    pure (s2, r.2)

/-- `rigid_bodies_collide_with_itself`: the store left by the body above; the integer
is the returned code, 0 on both `return` statements (lines 105 and 166). -/
def rigid_bodies_collide_with_itself (G : Geometry) (s : RigidBodies) :
    Except Err (RigidBodies × Int) := do
  let r ← collide_with_itself_run G s
  pure (r.1, 0)

/-- `rigid_bodies_damper`. -/
def rigid_bodies_damper (s : RigidBodies) (id : Nat) (v : Vec) : Except Err RigidBodies :=
  if ¬ id < s.count then .error .assertion
  else if s.deleted id || s.disabled id then .ok s
  else rigid_bodies_apply_force s id
    (vec ((s.velocities id).x * v.x) ((s.velocities id).y * v.y))

/-- The body of the loop of `rigid_bodies_collide_with_platforms`
(lines 179 to 194) for the body `i`. -/
def platform_body (P : Platforms) (s : RigidBodies) (i : Nat) : Except Err RigidBodies :=
  if s.deleted i || s.disabled i then .ok s
  else
    let sides := P.touches_rect_sides (s.bodies i)
    let grounded := if sides .bottom then Function.update s.grounded i true else s.grounded
    let snap := P.snap_rect (s.bodies i)
    let v := snap.2
    let s1 : RigidBodies :=
      { s with grounded := grounded
               bodies := Function.update s.bodies i snap.1
               velocities := Function.update s.velocities i (vec_entry_mult (s.velocities i) v)
               movements := Function.update s.movements i (vec_entry_mult (s.movements i) v) }
    rigid_bodies_damper s1 i (vec_entry_mult v (vec (-16) 0))

/-- `rigid_bodies_collide_with_platforms`; the integer is the returned code. -/
def rigid_bodies_collide_with_platforms (P : Platforms) (s : RigidBodies) :
    Except Err (RigidBodies × Int) := do
  let s1 ← (List.range s.count).foldlM (platform_body P) s
  pure (s1, 0)

/-- `rigid_bodies_collide`: the `memset` clears the first `count` grounded
flags, then the two passes run. -/
def rigid_bodies_collide (G : Geometry) (P : Platforms) (s : RigidBodies) :
    Except Err (RigidBodies × Int) := do
  let s0 := { s with grounded := fun i => if i < s.count then false else s.grounded i }
  let r1 ← rigid_bodies_collide_with_itself G s0
  if r1.2 < 0 then pure (r1.1, -1)
  else
    let r2 ← rigid_bodies_collide_with_platforms P r1.1
    if r2.2 < 0 then pure (r2.1, -1)
    else pure (r2.1, 0)

/-- `rigid_bodies_update`; the integer is the returned code.  The function
has no assertion on `id`. -/
def rigid_bodies_update (s : RigidBodies) (id : Nat) (delta_time : ℚ) : RigidBodies × Int :=
  if s.deleted id || s.disabled id then (s, 0)
  else
    let velocities := Function.update s.velocities id
      (vec_sum (s.velocities id) (vec_scala_mult (s.forces id) delta_time))
    let position := vec (s.bodies id).x (s.bodies id).y
    let position := vec_sum position
      (vec_scala_mult (vec_sum (velocities id) (s.movements id)) delta_time)
    let bodies := Function.update s.bodies id
      { s.bodies id with x := position.x, y := position.y }
    ({ s with velocities := velocities, bodies := bodies,
              forces := Function.update s.forces id (vec 0 0) }, 0)

/-- `rigid_bodies_add`: returns the store and the new id. -/
def rigid_bodies_add (s : RigidBodies) (rect : Rect) : Except Err (RigidBodies × Nat) :=
  if ¬ s.count < s.capacity then .error .assertion
  else
    let id := s.count
    .ok ({ s with count := s.count + 1, bodies := Function.update s.bodies id rect }, id)

/-- `rigid_bodies_remove`: the assertion compares `id` with `capacity`. -/
def rigid_bodies_remove (s : RigidBodies) (id : Nat) : Except Err RigidBodies :=
  if ¬ id < s.capacity then .error .assertion
  else .ok { s with deleted := Function.update s.deleted id true }

/-- `rigid_bodies_hitbox`. -/
def rigid_bodies_hitbox (s : RigidBodies) (id : Nat) : Except Err Rect :=
  if ¬ id < s.count then .error .assertion
  else .ok (s.bodies id)

/-- `rigid_bodies_move`. -/
def rigid_bodies_move (s : RigidBodies) (id : Nat) (movement : Vec) : Except Err RigidBodies :=
  if ¬ id < s.count then .error .assertion
  else if s.deleted id || s.disabled id then .ok s
  else .ok { s with movements := Function.update s.movements id movement }

/-- `rigid_bodies_touches_ground`. -/
def rigid_bodies_touches_ground (s : RigidBodies) (id : Nat) : Except Err Bool :=
  if ¬ id < s.count then .error .assertion
  else .ok (s.grounded id)

/-- `rigid_bodies_apply_omniforce`. -/
def rigid_bodies_apply_omniforce (s : RigidBodies) (force : Vec) : Except Err RigidBodies :=
  (List.range s.count).foldlM (fun acc i => rigid_bodies_apply_force acc i force) s

/-- `rigid_bodies_transform_velocity`.  The header of `mat3x3` and
`point_mat3x3_product` is not among the sources: the matrix argument is
embedded as the map `trans_mat` that `point_mat3x3_product` applies to a
point. -/
def rigid_bodies_transform_velocity (s : RigidBodies) (id : Nat) (trans_mat : Vec → Vec) :
    Except Err RigidBodies :=
  if ¬ id < s.count then .error .assertion
  else if s.deleted id || s.disabled id then .ok s
  else .ok { s with velocities := Function.update s.velocities id (trans_mat (s.velocities id)) }

/-- `rigid_bodies_teleport_to`. -/
def rigid_bodies_teleport_to (s : RigidBodies) (id : Nat) (position : Vec) :
    Except Err RigidBodies :=
  if ¬ id < s.count then .error .assertion
  else if s.deleted id || s.disabled id then .ok s
  else .ok { s with bodies := Function.update s.bodies id
                      { s.bodies id with x := position.x, y := position.y } }

/-- `rigid_bodies_disable`. -/
def rigid_bodies_disable (s : RigidBodies) (id : Nat) (disabled : Bool) :
    Except Err RigidBodies :=
  if ¬ id < s.count then .error .assertion
  else .ok { s with disabled := Function.update s.disabled id disabled }

/-! ## Public operations and reachable stores -/

/-- A call of one public operation of `rigid_bodies.h` that takes the store.
`rigid_bodies_render` only reads the store and draws through the camera, and
`destroy_rigid_bodies` ends the store; neither is listed. -/
inductive Op where
  | add (rect : Rect)
  | remove (id : Nat)
  | hitbox (id : Nat)
  | move (id : Nat) (movement : Vec)
  | touches_ground (id : Nat)
  | apply_omniforce (force : Vec)
  | apply_force (id : Nat) (force : Vec)
  | transform_velocity (id : Nat) (trans_mat : Vec → Vec)
  | teleport_to (id : Nat) (position : Vec)
  | damper (id : Nat) (v : Vec)
  | disable (id : Nat) (disabled : Bool)
  | update (id : Nat) (delta_time : ℚ)
  | collide (P : Platforms)

/-- The store left by one public call.  `rigid_bodies_update` checks nothing
about `id`; a call whose `id` is outside the allocated arrays has no defined
behaviour in C and is reported as `Err.out_of_bounds`. -/
def step (G : Geometry) (s : RigidBodies) : Op → Except Err RigidBodies
  | .add rect => (rigid_bodies_add s rect).map Prod.fst
  | .remove id => rigid_bodies_remove s id
  | .hitbox id => (rigid_bodies_hitbox s id).map fun _ => s
  | .move id movement => rigid_bodies_move s id movement
  | .touches_ground id => (rigid_bodies_touches_ground s id).map fun _ => s
  | .apply_omniforce force => rigid_bodies_apply_omniforce s force
  | .apply_force id force => rigid_bodies_apply_force s id force
  | .transform_velocity id trans_mat => rigid_bodies_transform_velocity s id trans_mat
  | .teleport_to id position => rigid_bodies_teleport_to s id position
  | .damper id v => rigid_bodies_damper s id v
  | .disable id disabled => rigid_bodies_disable s id disabled
  | .update id delta_time =>
    if id < s.capacity then .ok (rigid_bodies_update s id delta_time).1
    else .error .out_of_bounds
  | .collide P => (rigid_bodies_collide G P s).map Prod.fst

/-- The stores reachable from `create_rigid_bodies` by public calls that
return. -/
inductive Reachable (G : Geometry) : RigidBodies → Prop where
  | create (capacity : Nat) : Reachable G (create_rigid_bodies capacity)
  | step (s s' : RigidBodies) (op : Op) :
      Reachable G s → step G s op = .ok s' → Reachable G s'

/-- Runs a sequence of public calls, stopping at the first that does not
return. -/
def run (G : Geometry) : RigidBodies → List Op → Except Err RigidBodies
  | s, [] => .ok s
  | s, op :: ops =>
    match step G s op with
    | .ok s' => run G s' ops
    | .error e => .error e

/-- The parts of the store that the self-collision scan never writes: the
sizes, the deleted and disabled flags and the forces of `s'` are those of
`s`. -/
def ScanFrame (s s' : RigidBodies) : Prop :=
  s'.capacity = s.capacity ∧ s'.count = s.count ∧ s'.deleted = s.deleted ∧
  s'.disabled = s.disabled ∧ s'.forces = s.forces

/-- The parts of the store that no collision pass writes: the sizes and the
deleted and disabled flags of `s'` are those of `s`. -/
def Shape (s s' : RigidBodies) : Prop :=
  s'.capacity = s.capacity ∧ s'.count = s.count ∧ s'.deleted = s.deleted ∧
  s'.disabled = s.disabled

/-- Every recorded pair holds two body indices, the lower one first. -/
def PairsOk (s : RigidBodies) : Prop :=
  ∀ p ∈ s.collided, p.1 < p.2 ∧ p.2 < s.count

/-- The store `s'` differs from `s` in its forces at most. -/
def ForcesOnly (s s' : RigidBodies) : Prop :=
  s' = { s with forces := s'.forces }

/-- The store on which the scan loop starts when `rigid_bodies_collide` is
called on `s`: the `memset` has cleared the grounded flags and
`hashset_clear` the pair set. -/
def scan_entry (s : RigidBodies) : RigidBodies :=
  { s with grounded := fun i => if i < s.count then false else s.grounded i
           collided := hashset_clear s.collided }

/-! ## History of the self-collision pass

The functions below rerun the scan loop and record, next to the store, which
overlapping pairs were processed.  The record is never read by the loop; the
theorems `scan_log_fst` and `scan_loop_log_fst` show that the store computed
next to it is the one of `scan` and `scan_loop`. -/

/-- One processed overlapping pair: the indices in the order of the loops
and the orientation vector returned by `rect_impulse`. -/
structure Event where
  i1 : Nat
  i2 : Nat
  orient : Vec

/-- The event of one execution of the innermost loop body: empty when the
pair is skipped at line 121 or 125. -/
def pair_event (G : Geometry) (i1 i2 : Nat) (s : RigidBodies) : List Event :=
  if s.deleted i2 || s.disabled i1 then []
  else if !G.rects_overlap (s.bodies i1) (s.bodies i2) then []
  else [⟨i1, i2, (G.rect_impulse (s.bodies i1) (s.bodies i2)).2.2⟩]

/-- The function `collide_pair` together with its event. -/
def collide_pair_log (G : Geometry) (i1 i2 : Nat) (st : (RigidBodies × Bool) × List Event) :
    (RigidBodies × Bool) × List Event :=
  (collide_pair G i1 i2 st.1, st.2 ++ pair_event G i1 i2 st.1.1)

/-- The function `scan_row` together with its events. -/
def scan_row_log (G : Geometry) (i1 : Nat) (st : (RigidBodies × Bool) × List Event) :
    (RigidBodies × Bool) × List Event :=
  if st.1.1.deleted i1 || st.1.1.disabled i1 then st
  else (List.range' (i1 + 1) (st.1.1.count - (i1 + 1))).foldl
    (fun acc i2 => collide_pair_log G i1 i2 acc) st

/-- The function `scan` together with the events of the scan. -/
def scan_log (G : Geometry) (s : RigidBodies) : (RigidBodies × Bool) × List Event :=
  (List.range (s.count - 1)).foldl (fun acc i1 => scan_row_log G i1 acc) ((s, false), [])

/-- The function `scan_loop` together with the events of each scan, one list
per scan in the order the scans ran. -/
def scan_loop_log (G : Geometry) : Nat → RigidBodies → RigidBodies × List (List Event)
  | 0, s => (s, [])
  | fuel + 1, s =>
    let r := scan_log G s
    if r.1.2 then
      let t := scan_loop_log G fuel r.1.1
      (t.1, r.2 :: t.2)
    else (r.1.1, [r.2])

/-- The store after the `memset` at the head of `rigid_bodies_collide`. -/
def memset_grounded (s : RigidBodies) : RigidBodies :=
  { s with grounded := fun i => if i < s.count then false else s.grounded i }

/-- The events, scan by scan, of `rigid_bodies_collide_with_itself` called on
a store `s` that holds a body: the scan loop starts after `hashset_clear`. -/
def self_history (G : Geometry) (s : RigidBodies) : List (List Event) :=
  (scan_loop_log G 1000 { s with collided := hashset_clear s.collided }).2

/-- The store at the end of the scan loop of
`rigid_bodies_collide_with_itself` called on a store `s` that holds a body. -/
def after_scans (G : Geometry) (s : RigidBodies) : RigidBodies :=
  (scan_loop G 1000 { s with collided := hashset_clear s.collided }).1

/-- The velocity plus movement that the loop of lines 156 to 164 applies to
the body `id` for the recorded pair `p`: the one of the other body of the
pair, and nothing when `id` is not in the pair. -/
def pair_push (s : RigidBodies) (id : Nat) (p : Nat × Nat) : Vec :=
  vec_sum
    (if p.1 = id then vec_sum (s.velocities p.2) (s.movements p.2) else vec 0 0)
    (if p.2 = id then vec_sum (s.velocities p.1) (s.movements p.1) else vec 0 0)

/-- The number of scans of the history in which the pair `a`, `b` was
processed as an overlapping pair. -/
def detections (h : List (List Event)) (a b : Nat) : Nat :=
  (h.filter (fun evs => evs.any (fun e => decide (e.i1 = a ∧ e.i2 = b)))).length

/-- Among the events `evs` there is one of a pair that holds `id` and whose
orientation vector satisfies `orient.x > orient.y`. -/
def Grounds (evs : List Event) (id : Nat) : Prop :=
  ∃ e ∈ evs, (e.i1 = id ∨ e.i2 = id) ∧ e.orient.x > e.orient.y

/-- The slot `id` of `s'` holds what the slot `id` of `s` holds, the flags
for deletion and disabling apart. -/
def SameBody (s s' : RigidBodies) (id : Nat) : Prop :=
  s'.bodies id = s.bodies id ∧ s'.velocities id = s.velocities id ∧
  s'.movements id = s.movements id ∧ s'.grounded id = s.grounded id ∧
  s'.forces id = s.forces id

/-- The slot `id` is not a body that takes part in a collision pass: it is
not in use, or the body is deleted. -/
def Untouchable (s : RigidBodies) (id : Nat) : Prop :=
  s.count ≤ id ∨ s.deleted id = true

/-- The slots that are not in use hold the zeros of `calloc` in every array
but `bodies` and `deleted`. -/
def UnusedZero (s : RigidBodies) : Prop :=
  ∀ id, s.count ≤ id →
    s.velocities id = vec 0 0 ∧ s.movements id = vec 0 0 ∧ s.forces id = vec 0 0 ∧
    s.grounded id = false ∧ s.disabled id = false

/-- The store after `n` scans: the scan iterated `n` times, whatever the
collision flags are. -/
def scan_iter (G : Geometry) : Nat → RigidBodies → RigidBodies
  | 0, s => s
  | n + 1, s => scan_iter G n (scan G s).1

/-- What the body of the platform loop does to the slot `id` when it runs
for `id`: nothing for a deleted or disabled body; otherwise the rectangle is
the snapped one, velocity and movement are masked by the snap vector, the
grounded flag is set on a bottom touch and the damper force, computed from
the masked velocity, is added. -/
def PlatformEffect (P : Platforms) (s s' : RigidBodies) (id : Nat) : Prop :=
  if s.deleted id || s.disabled id then SameBody s s' id
  else
    s'.bodies id = (P.snap_rect (s.bodies id)).1 ∧
    s'.velocities id = vec_entry_mult (s.velocities id) (P.snap_rect (s.bodies id)).2 ∧
    s'.movements id = vec_entry_mult (s.movements id) (P.snap_rect (s.bodies id)).2 ∧
    s'.grounded id = (P.touches_rect_sides (s.bodies id) .bottom || s.grounded id) ∧
    s'.forces id = vec_sum (s.forces id)
      (vec
        ((vec_entry_mult (s.velocities id) (P.snap_rect (s.bodies id)).2).x
          * (vec_entry_mult (P.snap_rect (s.bodies id)).2 (vec (-16) 0)).x)
        ((vec_entry_mult (s.velocities id) (P.snap_rect (s.bodies id)).2).y
          * (vec_entry_mult (P.snap_rect (s.bodies id)).2 (vec (-16) 0)).y))

/-- The stores `s` and `t` hold the same number of bodies and agree on every
slot below `count`; nothing is said about the slots from `count` on. -/
def AgreeBelow (s t : RigidBodies) : Prop :=
  t.count = s.count ∧ ∀ i, i < s.count →
    t.bodies i = s.bodies i ∧ t.velocities i = s.velocities i ∧
    t.movements i = s.movements i ∧ t.grounded i = s.grounded i ∧
    t.forces i = s.forces i ∧ t.deleted i = s.deleted i ∧ t.disabled i = s.disabled i

/-- Two states of a scan that agree below `count`, in the pair set and in
the collision flag. -/
def ScanAgree (a b : RigidBodies × Bool) : Prop :=
  AgreeBelow a.1 b.1 ∧ b.1.collided = a.1.collided ∧ b.2 = a.2

/-- The state of a scan of `s` before the row of `i1`: the rows of
`0 .. i1 - 1` have run. -/
def rows_before (G : Geometry) (s : RigidBodies) (i1 : Nat) :
    (RigidBodies × Bool) × List Event :=
  (List.range i1).foldl (fun acc j => scan_row_log G j acc) ((s, false), [])

/-- The state in which a scan of `s` reaches the pair `i1`, `i2`, when the
row of `i1` is not skipped: the rows before `i1` and the pairs
`(i1, i1 + 1) .. (i1, i2 - 1)` have run. -/
def visit (G : Geometry) (s : RigidBodies) (i1 i2 : Nat) :
    (RigidBodies × Bool) × List Event :=
  (List.range' (i1 + 1) (i2 - (i1 + 1))).foldl (fun acc j => collide_pair_log G i1 j acc)
    (rows_before G s i1)

/-! ## Sample collaborators for closed examples -/

/-- A sample geometry: two rectangles overlap when their interiors meet, and
the impulse moves one rectangle out of the other along the axis of least
penetration, returning `(0, 1)` for a horizontal and `(1, 0)` for a vertical
separation. -/
def sampleGeometry : Geometry where
  rects_overlap a b :=
    decide (a.x < b.x + b.w ∧ b.x < a.x + a.w ∧ a.y < b.y + b.h ∧ b.y < a.y + a.h)
  rect_impulse a b :=
    let dx := min (a.x + a.w) (b.x + b.w) - max a.x b.x
    let dy := min (a.y + a.h) (b.y + b.h) - max a.y b.y
    if dx < dy then
      if a.x < b.x then (a, { b with x := a.x + a.w }, vec 0 1)
      else ({ a with x := b.x + b.w }, b, vec 0 1)
    else
      if a.y < b.y then (a, { b with y := a.y + a.h }, vec 1 0)
      else ({ a with y := b.y + b.h }, b, vec 1 0)

/-- A sample level without platforms: nothing is touched and the snap vector
is `(1, 1)`. -/
def emptyPlatforms : Platforms where
  touches_rect_sides _ _ := false
  snap_rect r := (r, vec 1 1)

/-- A store holding one live body that moves with velocity `(1, 0)`; its
forces and its movement are zero. -/
def movingStore : RigidBodies :=
  { create_rigid_bodies 1 with count := 1, velocities := fun _ => vec 1 0 }

/-- The calls add a body, push it and then remove it. -/
def pushedThenRemoved : List Op :=
  [.add ⟨0, 0, 10, 10⟩, .apply_force 0 (vec 1 0), .remove 0]

/-- Two bodies with the same rectangle; body 0 is live, body 1 is disabled
(not deleted) and has velocity `(3, 4)` and movement `(5, 6)`. -/
def disabledOverlap : RigidBodies :=
  { create_rigid_bodies 2 with
    count := 2
    bodies := fun _ => ⟨0, 0, 10, 10⟩
    velocities := Function.update (fun _ => vec 0 0) 1 (vec 3 4)
    movements := Function.update (fun _ => vec 0 0) 1 (vec 5 6)
    disabled := Function.update (fun _ => false) 1 true }

/-- A sample geometry whose impulse moves the second rectangle to the right
by 6 and returns `(0, 1)`: two rectangles of width 10 at the same place are
apart after the second impulse only. -/
def slowGeometry : Geometry where
  rects_overlap a b :=
    decide (a.x < b.x + b.w ∧ b.x < a.x + a.w ∧ a.y < b.y + b.h ∧ b.y < a.y + a.h)
  rect_impulse a b := (a, { b with x := b.x + 6 }, vec 0 1)

/-- Two live bodies with the same rectangle; body 0 has velocity `(1, 2)`,
body 1 has velocity `(3, 4)` and movement `(5, 6)`. -/
def twoLive : RigidBodies :=
  { create_rigid_bodies 2 with
    count := 2
    bodies := fun _ => ⟨0, 0, 10, 10⟩
    velocities := Function.update (fun _ => vec 1 2) 1 (vec 3 4)
    movements := Function.update (fun _ => vec 0 0) 1 (vec 5 6) }

/-- Two live bodies far apart whose grounded flags are set from an earlier
frame. -/
def apartStore : RigidBodies :=
  { create_rigid_bodies 2 with
    count := 2
    bodies := Function.update (fun _ => ⟨0, 0, 10, 10⟩) 1 ⟨100, 0, 10, 10⟩
    grounded := fun _ => true }

/-- The store left by `rigid_bodies_remove` with id 0 on a fresh store of
capacity 1, where no body has been added yet. -/
def removedFirst : RigidBodies :=
  { create_rigid_bodies 1 with deleted := Function.update (fun _ => false) 0 true }

/-- The store left by `pushedThenRemoved` on a fresh store of capacity 1. -/
def pushedStore : RigidBodies :=
  match run sampleGeometry (create_rigid_bodies 1) pushedThenRemoved with
  | .ok s => s
  | .error _ => create_rigid_bodies 1

/-- A sample geometry under which any two rectangles overlap and the impulse
moves nothing: no scan resolves an overlap. -/
def stuckGeometry : Geometry where
  rects_overlap _ _ := true
  rect_impulse a b := (a, b, vec 1 1)

/-- A sample level with a floor whose top is at `y = 100`: a rectangle that
reaches the floor touches it with its bottom side, is put on the floor and
keeps its horizontal motion only. -/
def floorPlatforms : Platforms where
  touches_rect_sides r side := decide (side = .bottom ∧ 100 ≤ r.y + r.h)
  snap_rect r := if 100 ≤ r.y + r.h then ({ r with y := 100 - r.h }, vec 1 0) else (r, vec 1 1)

/-- One live body that has sunk into the floor of `floorPlatforms`, with
velocity `(2, 3)`. -/
def sunkStore : RigidBodies :=
  { create_rigid_bodies 1 with
    count := 1
    bodies := fun _ => ⟨0, 95, 10, 10⟩
    velocities := fun _ => vec 2 3 }

/-- A sample geometry whose impulse leaves both rectangles where they are and
returns the orientation `(1, 0)`. -/
def tieGeometry : Geometry where
  rects_overlap a b :=
    decide (a.x < b.x + b.w ∧ b.x < a.x + a.w ∧ a.y < b.y + b.h ∧ b.y < a.y + a.h)
  rect_impulse a b := (a, b, vec 1 0)

end RigidBodies

namespace RigidBodies

/-- The self-collision pass written out: the early return, then the scan loop with
its bound of 1000 and the reactive forces, with the loop variable dropped. -/
theorem collide_with_itself_unfold (G : Geometry) (s : RigidBodies) :
    rigid_bodies_collide_with_itself G s =
      (if s.count = 0 then .ok (s, 0)
       else do
         let s0 := { s with collided := hashset_clear s.collided }
         let s1 := (scan_loop G 1000 s0).1
         let s2 ← react s1
         pure (s2, 0)) := by
  unfold rigid_bodies_collide_with_itself collide_with_itself_run
  split
  · rfl
  · simp only [bind, Except.bind, pure, Except.pure]
    cases react (scan_loop G 1000 { s with collided := hashset_clear s.collided }).1 <;> rfl

/-! ## Integration step -/

/-- C1: for a body that is neither deleted nor disabled, `rigid_bodies_update`
adds `forces * dt` to the velocity, adds `(new velocity + movement) * dt` to
the position, clears the forces and keeps the movement and the size of the
rectangle; with zero velocity and zero movement the new velocity is `F * dt`
and the new position is `position + F * dt * dt`. -/
theorem update_live (s : RigidBodies) (id : Nat) (dt : ℚ) (_hid : id < s.count)
    (hdel : s.deleted id = false) (hdis : s.disabled id = false) :
    ((rigid_bodies_update s id dt).1.velocities id
        = vec ((s.velocities id).x + (s.forces id).x * dt)
              ((s.velocities id).y + (s.forces id).y * dt)) ∧
    ((rigid_bodies_update s id dt).1.bodies id).x
        = (s.bodies id).x
          + (((rigid_bodies_update s id dt).1.velocities id).x + (s.movements id).x) * dt ∧
    ((rigid_bodies_update s id dt).1.bodies id).y
        = (s.bodies id).y
          + (((rigid_bodies_update s id dt).1.velocities id).y + (s.movements id).y) * dt ∧
    (rigid_bodies_update s id dt).1.forces id = vec 0 0 ∧
    (rigid_bodies_update s id dt).1.movements id = s.movements id ∧
    ((rigid_bodies_update s id dt).1.bodies id).w = (s.bodies id).w ∧
    ((rigid_bodies_update s id dt).1.bodies id).h = (s.bodies id).h ∧
    (s.velocities id = vec 0 0 → s.movements id = vec 0 0 →
      (rigid_bodies_update s id dt).1.velocities id
          = vec ((s.forces id).x * dt) ((s.forces id).y * dt) ∧
      ((rigid_bodies_update s id dt).1.bodies id).x
          = (s.bodies id).x + (s.forces id).x * dt * dt ∧
      ((rigid_bodies_update s id dt).1.bodies id).y
          = (s.bodies id).y + (s.forces id).y * dt * dt) := by
  have hv : (rigid_bodies_update s id dt).1.velocities id
      = vec ((s.velocities id).x + (s.forces id).x * dt)
            ((s.velocities id).y + (s.forces id).y * dt) := by
    simp [rigid_bodies_update, hdel, hdis, vec_sum, vec_scala_mult, vec]
  have hx : ((rigid_bodies_update s id dt).1.bodies id).x
      = (s.bodies id).x
        + (((s.velocities id).x + (s.forces id).x * dt) + (s.movements id).x) * dt := by
    simp [rigid_bodies_update, hdel, hdis, vec_sum, vec_scala_mult, vec]
  have hy : ((rigid_bodies_update s id dt).1.bodies id).y
      = (s.bodies id).y
        + (((s.velocities id).y + (s.forces id).y * dt) + (s.movements id).y) * dt := by
    simp [rigid_bodies_update, hdel, hdis, vec_sum, vec_scala_mult, vec]
  refine ⟨hv, ?_, ?_, ?_, ?_, ?_, ?_, ?_⟩
  · rw [hx, hv]; rfl
  · rw [hy, hv]; rfl
  · simp [rigid_bodies_update, hdel, hdis]
  · simp [rigid_bodies_update, hdel, hdis]
  · simp [rigid_bodies_update, hdel, hdis]
  · simp [rigid_bodies_update, hdel, hdis]
  · intro h0 m0
    have h0x : (s.velocities id).x = 0 := by rw [h0]; rfl
    have h0y : (s.velocities id).y = 0 := by rw [h0]; rfl
    have m0x : (s.movements id).x = 0 := by rw [m0]; rfl
    have m0y : (s.movements id).y = 0 := by rw [m0]; rfl
    refine ⟨?_, ?_, ?_⟩
    · rw [hv, h0x, h0y]; simp
    · rw [hx, h0x, m0x]; ring
    · rw [hy, h0y, m0y]; ring

/-- Witness of `update_live`: a body pushed by the force `(3, 0)` for
`dt = 1/2`. -/
theorem update_live_witness :
    ((rigid_bodies_update
        { create_rigid_bodies 1 with count := 1, forces := fun _ => vec 3 0 } 0 (1/2)).1.velocities 0
      = vec ((0 : ℚ) + 3 * (1/2)) (0 + 0 * (1/2))) :=
  (update_live { create_rigid_bodies 1 with count := 1, forces := fun _ => vec 3 0 } 0 (1/2)
    (by decide) rfl rfl).1

/-- Counterexample to C2: the body of `movingStore` has zero forces and zero
movement, yet `rigid_bodies_update` with `dt = 1` moves it from `x = 0` to
`x = 1`, because its velocity is `(1, 0)`. -/
theorem update_moves_without_forces :
    0 < movingStore.count ∧ movingStore.forces 0 = vec 0 0 ∧
    movingStore.movements 0 = vec 0 0 ∧
    ((rigid_bodies_update movingStore 0 1).1.bodies 0).x = 1 ∧
    (movingStore.bodies 0).x = 0 ∧
    ((rigid_bodies_update movingStore 0 1).1.bodies 0).x ≠ (movingStore.bodies 0).x := by
  have h1 : ((rigid_bodies_update movingStore 0 1).1.bodies 0).x = 1 := by
    simp [rigid_bodies_update, movingStore, create_rigid_bodies, vec_sum, vec_scala_mult, vec]
  have h0 : (movingStore.bodies 0).x = 0 := rfl
  refine ⟨by decide, rfl, rfl, h1, h0, ?_⟩
  rw [h1, h0]; norm_num

/-- C2 (amended): with float arithmetic treated as exact, for a body whose
forces, movement and velocity are all zero, `rigid_bodies_update` leaves the
rectangle, hence the position, unchanged for every finite `dt`.  The time step is
a rational here, as every `float` of the embedding: an infinite or NaN `dt`, for
which the C products `0 * dt` are NaN, is outside this statement. -/
theorem update_at_rest (s : RigidBodies) (id : Nat) (dt : ℚ)
    (hf : s.forces id = vec 0 0) (hm : s.movements id = vec 0 0)
    (hv : s.velocities id = vec 0 0) :
    ((rigid_bodies_update s id dt).1.bodies id).x = (s.bodies id).x ∧
    ((rigid_bodies_update s id dt).1.bodies id).y = (s.bodies id).y := by
  unfold rigid_bodies_update
  split
  · exact ⟨rfl, rfl⟩
  · simp [hf, hm, hv, vec_sum, vec_scala_mult, vec]

/-- Witness of `update_at_rest`: a fresh body after `dt = 1/60`. -/
theorem update_at_rest_witness :
    ((rigid_bodies_update { create_rigid_bodies 1 with count := 1 } 0 (1/60)).1.bodies 0).x
      = ((({ create_rigid_bodies 1 with count := 1 } : RigidBodies).bodies) 0).x ∧
    ((rigid_bodies_update { create_rigid_bodies 1 with count := 1 } 0 (1/60)).1.bodies 0).y
      = ((({ create_rigid_bodies 1 with count := 1 } : RigidBodies).bodies) 0).y :=
  update_at_rest { create_rigid_bodies 1 with count := 1 } 0 (1/60) rfl rfl rfl

/-! ## Reachable stores -/

theorem reachable_run (G : Geometry) (ops : List Op) :
    ∀ s s', Reachable G s → run G s ops = .ok s' → Reachable G s' := by
  induction ops with
  | nil =>
    intro s s' hs h
    simp only [run, Except.ok.injEq] at h
    exact h ▸ hs
  | cons op ops ih =>
    intro s s' hs h
    simp only [run] at h
    cases hstep : step G s op with
    | error e => rw [hstep] at h; cases h
    | ok t =>
      rw [hstep] at h
      exact ih t s' (Reachable.step s t op hs hstep) h

theorem run_pushedThenRemoved :
    run sampleGeometry (create_rigid_bodies 1) pushedThenRemoved = .ok pushedStore := rfl

/-- Counterexample to C3: `pushedStore` is reached by adding a body, applying
the force `(1, 0)` to it and removing it; `rigid_bodies_update` then returns
with `forces[0] = (1, 0)`. -/
theorem update_keeps_forces_of_removed :
    Reachable sampleGeometry pushedStore ∧ 0 < pushedStore.count ∧
    (rigid_bodies_update pushedStore 0 1).1.forces 0 = vec (0 + 1) (0 + 0) ∧
    (rigid_bodies_update pushedStore 0 1).1.forces 0 ≠ vec 0 0 := by
  have hr : Reachable sampleGeometry pushedStore :=
    reachable_run sampleGeometry pushedThenRemoved _ _ (Reachable.create 1)
      run_pushedThenRemoved
  have hf : (rigid_bodies_update pushedStore 0 1).1.forces 0 = vec (0 + 1) (0 + 0) := rfl
  refine ⟨hr, by decide, hf, ?_⟩
  rw [hf]
  simp [vec]

/-- C3 (amended): after `rigid_bodies_update` the forces of a body that is
neither deleted nor disabled are `(0, 0)`; the forces of a deleted or disabled
body are the ones it had before the call. -/
theorem update_forces (s : RigidBodies) (id : Nat) (dt : ℚ) :
    (s.deleted id = false → s.disabled id = false →
      (rigid_bodies_update s id dt).1.forces id = vec 0 0) ∧
    (s.deleted id = true ∨ s.disabled id = true →
      (rigid_bodies_update s id dt).1.forces id = s.forces id) := by
  constructor
  · intro hdel hdis
    simp [rigid_bodies_update, hdel, hdis]
  · intro h
    have hc : (s.deleted id || s.disabled id) = true := by
      rcases h with h | h <;> simp [h]
    simp [rigid_bodies_update, hc]

/-- Witness of `update_forces`: the removed body of `pushedStore` keeps its
forces. -/
theorem update_forces_witness :
    (rigid_bodies_update pushedStore 0 1).1.forces 0 = pushedStore.forces 0 :=
  (update_forces pushedStore 0 1).2 (Or.inl rfl)

/-! ## Deleted and disabled bodies -/

/-- C4: on a body `id < count` whose deleted or disabled flag is set,
`rigid_bodies_apply_force`, `rigid_bodies_move`,
`rigid_bodies_transform_velocity`, `rigid_bodies_teleport_to`,
`rigid_bodies_damper` and `rigid_bodies_update` return the store they were
given. -/
theorem noop_on_deleted_or_disabled (s : RigidBodies) (id : Nat) (hid : id < s.count)
    (h : s.deleted id = true ∨ s.disabled id = true)
    (force movement position v : Vec) (trans_mat : Vec → Vec) (dt : ℚ) :
    rigid_bodies_apply_force s id force = .ok s ∧
    rigid_bodies_move s id movement = .ok s ∧
    rigid_bodies_transform_velocity s id trans_mat = .ok s ∧
    rigid_bodies_teleport_to s id position = .ok s ∧
    rigid_bodies_damper s id v = .ok s ∧
    rigid_bodies_update s id dt = (s, 0) := by
  have hc : (s.deleted id || s.disabled id) = true := by
    rcases h with h | h <;> simp [h]
  refine ⟨?_, ?_, ?_, ?_, ?_, ?_⟩
  · simp [rigid_bodies_apply_force, hid, hc]
  · simp [rigid_bodies_move, hid, hc]
  · simp [rigid_bodies_transform_velocity, hid, hc]
  · simp [rigid_bodies_teleport_to, hid, hc]
  · simp [rigid_bodies_damper, hid, hc]
  · simp [rigid_bodies_update, hc]

/-- Witness of `noop_on_deleted_or_disabled`: the removed body of
`pushedStore`. -/
theorem noop_on_deleted_or_disabled_witness :
    rigid_bodies_apply_force pushedStore 0 (vec 1 1) = .ok pushedStore ∧
    rigid_bodies_move pushedStore 0 (vec 2 0) = .ok pushedStore ∧
    rigid_bodies_transform_velocity pushedStore 0 id = .ok pushedStore ∧
    rigid_bodies_teleport_to pushedStore 0 (vec 5 5) = .ok pushedStore ∧
    rigid_bodies_damper pushedStore 0 (vec 1 0) = .ok pushedStore ∧
    rigid_bodies_update pushedStore 0 (1/60) = (pushedStore, 0) :=
  noop_on_deleted_or_disabled pushedStore 0 (by decide) (Or.inl rfl)
    (vec 1 1) (vec 2 0) (vec 5 5) (vec 1 0) id (1/60)

/-! ## Adding and removing -/

/-- C5, evaluated at the failing input: on a fresh store of capacity 1,
`rigid_bodies_remove` with id 0 passes its assertion (`0 < capacity`) although
no body exists, and the body that `rigid_bodies_add` then creates with id 0
has `deleted = true`. -/
theorem add_after_remove_is_deleted :
    rigid_bodies_remove (create_rigid_bodies 1) 0 = .ok removedFirst ∧
    Reachable sampleGeometry removedFirst ∧
    removedFirst.count < removedFirst.capacity ∧
    (rigid_bodies_add removedFirst ⟨0, 0, 10, 10⟩).map (fun r => r.2) = .ok 0 ∧
    (rigid_bodies_add removedFirst ⟨0, 0, 10, 10⟩).map (fun r => r.1.deleted r.2) = .ok true := by
  have h1 : rigid_bodies_remove (create_rigid_bodies 1) 0 = .ok removedFirst := rfl
  exact ⟨h1, Reachable.step _ _ (.remove 0) (Reachable.create 1) h1, by decide, rfl, rfl⟩

/-- C7, evaluated at the failing input: on a fresh store of capacity 1
(`count = 0`) and `id = 0`, `rigid_bodies_remove` returns normally after
writing `deleted[0]` and `rigid_bodies_update` returns code 0, while the
other operations that take an id fail their assertion. -/
theorem remove_and_update_accept_unused_id :
    ¬ (0 < (create_rigid_bodies 1).count) ∧
    rigid_bodies_remove (create_rigid_bodies 1) 0 = .ok removedFirst ∧
    removedFirst.deleted 0 = true ∧
    (rigid_bodies_update (create_rigid_bodies 1) 0 1).2 = 0 ∧
    step sampleGeometry (create_rigid_bodies 1) (.update 0 1)
      = .ok (rigid_bodies_update (create_rigid_bodies 1) 0 1).1 ∧
    rigid_bodies_hitbox (create_rigid_bodies 1) 0 = .error .assertion ∧
    rigid_bodies_move (create_rigid_bodies 1) 0 (vec 1 0) = .error .assertion ∧
    rigid_bodies_touches_ground (create_rigid_bodies 1) 0 = .error .assertion ∧
    rigid_bodies_apply_force (create_rigid_bodies 1) 0 (vec 1 0) = .error .assertion ∧
    rigid_bodies_transform_velocity (create_rigid_bodies 1) 0 id = .error .assertion ∧
    rigid_bodies_teleport_to (create_rigid_bodies 1) 0 (vec 1 0) = .error .assertion ∧
    rigid_bodies_damper (create_rigid_bodies 1) 0 (vec 1 0) = .error .assertion ∧
    rigid_bodies_disable (create_rigid_bodies 1) 0 true = .error .assertion := by
  refine ⟨by decide, rfl, rfl, rfl, rfl, rfl, rfl, rfl, rfl, rfl, rfl, rfl, rfl⟩

/-! ## Loops: what a pass leaves alone -/

theorem foldl_preserves {α β : Type} (P : α → Prop) (f : α → β → α) (l : List β)
    (h : ∀ a b, b ∈ l → P a → P (f a b)) : ∀ a, P a → P (l.foldl f a) := by
  induction l with
  | nil => intro a ha; exact ha
  | cons b l ih =>
    intro a ha
    simp only [List.foldl_cons]
    exact ih (fun a c hc => h a c (List.mem_cons_of_mem _ hc)) _
      (h a b (List.mem_cons_self _ _) ha)

theorem foldlM_preserves {α β ε : Type} (P : α → Prop) (f : α → β → Except ε α)
    (l : List β) (h : ∀ a b a', b ∈ l → P a → f a b = .ok a' → P a') :
    ∀ a a', P a → l.foldlM f a = .ok a' → P a' := by
  induction l with
  | nil =>
    intro a a' ha hr
    simp only [List.foldlM, pure, Except.pure, Except.ok.injEq] at hr
    exact hr ▸ ha
  | cons b l ih =>
    intro a a' ha hr
    simp only [List.foldlM_cons, bind, Except.bind] at hr
    cases hf : f a b with
    | error e => rw [hf] at hr; cases hr
    | ok t =>
      rw [hf] at hr
      exact ih (fun a c a' hc => h a c a' (List.mem_cons_of_mem _ hc)) t a'
        (h a b t (List.mem_cons_self _ _) ha hf) hr

theorem foldlM_returns {α β ε : Type} (P : α → Prop) (f : α → β → Except ε α)
    (l : List β) (h : ∀ a b, b ∈ l → P a → ∃ a', f a b = .ok a' ∧ P a') :
    ∀ a, P a → ∃ a', l.foldlM f a = .ok a' ∧ P a' := by
  induction l with
  | nil => intro a ha; exact ⟨a, rfl, ha⟩
  | cons b l ih =>
    intro a ha
    obtain ⟨t, ht, hPt⟩ := h a b (List.mem_cons_self _ _) ha
    obtain ⟨a', ha', hPa'⟩ := ih (fun a c hc => h a c (List.mem_cons_of_mem _ hc)) t hPt
    refine ⟨a', ?_, hPa'⟩
    simp only [List.foldlM_cons, bind, Except.bind, ht]
    exact ha'

theorem scanFrame_refl (s : RigidBodies) : ScanFrame s s := ⟨rfl, rfl, rfl, rfl, rfl⟩

theorem scanFrame_trans {s t u : RigidBodies} (h1 : ScanFrame s t) (h2 : ScanFrame t u) :
    ScanFrame s u := by
  obtain ⟨a1, a2, a3, a4, a5⟩ := h1
  obtain ⟨b1, b2, b3, b4, b5⟩ := h2
  exact ⟨b1.trans a1, b2.trans a2, b3.trans a3, b4.trans a4, b5.trans a5⟩

theorem shape_refl (s : RigidBodies) : Shape s s := ⟨rfl, rfl, rfl, rfl⟩

theorem shape_trans {s t u : RigidBodies} (h1 : Shape s t) (h2 : Shape t u) : Shape s u := by
  obtain ⟨a1, a2, a3, a4⟩ := h1
  obtain ⟨b1, b2, b3, b4⟩ := h2
  exact ⟨b1.trans a1, b2.trans a2, b3.trans a3, b4.trans a4⟩

theorem scanFrame_shape {s t : RigidBodies} (h : ScanFrame s t) : Shape s t :=
  ⟨h.1, h.2.1, h.2.2.1, h.2.2.2.1⟩

theorem collide_pair_frame (G : Geometry) (i1 i2 : Nat) (st : RigidBodies × Bool) :
    ScanFrame st.1 (collide_pair G i1 i2 st).1 := by
  unfold collide_pair
  simp only
  split
  · exact scanFrame_refl _
  · split
    · exact scanFrame_refl _
    · exact ⟨rfl, rfl, rfl, rfl, rfl⟩

theorem scan_row_frame (G : Geometry) (i1 : Nat) (st : RigidBodies × Bool) :
    ScanFrame st.1 (scan_row G i1 st).1 := by
  unfold scan_row
  split
  · exact scanFrame_refl _
  · exact foldl_preserves (fun acc => ScanFrame st.1 acc.1) _ _
      (fun a b _ ha => scanFrame_trans ha (collide_pair_frame G i1 b a)) st (scanFrame_refl _)

theorem scan_frame (G : Geometry) (s : RigidBodies) : ScanFrame s (scan G s).1 := by
  unfold scan
  exact foldl_preserves (fun acc => ScanFrame s acc.1) _ _
    (fun a b _ ha => scanFrame_trans ha (scan_row_frame G b a)) (s, false) (scanFrame_refl _)

theorem scan_loop_frame (G : Geometry) (fuel : Nat) :
    ∀ s, ScanFrame s (scan_loop G fuel s).1 := by
  induction fuel with
  | zero => intro s; exact scanFrame_refl _
  | succ n ih =>
    intro s
    simp only [scan_loop]
    split
    · exact scanFrame_trans (scan_frame G s) (ih _)
    · exact scan_frame G s

theorem apply_force_eq (s : RigidBodies) (id : Nat) (force : Vec) (h : id < s.count) :
    rigid_bodies_apply_force s id force
      = .ok { s with forces :=
                if s.deleted id || s.disabled id then s.forces
                else Function.update s.forces id (vec_sum (s.forces id) force) } := by
  unfold rigid_bodies_apply_force
  rw [if_neg (not_not.mpr h)]
  split <;> rfl

theorem apply_force_shape (s s' : RigidBodies) (id : Nat) (force : Vec)
    (h : rigid_bodies_apply_force s id force = .ok s') : Shape s s' := by
  unfold rigid_bodies_apply_force at h
  split at h
  · cases h
  · split at h
    · cases h; exact shape_refl _
    · cases h; exact ⟨rfl, rfl, rfl, rfl⟩

theorem react_pair_shape (s s' : RigidBodies) (p : Nat × Nat)
    (h : react_pair s p = .ok s') : Shape s s' := by
  unfold react_pair at h
  simp only [bind, Except.bind] at h
  cases h1 : rigid_bodies_apply_force s p.1 (vec_sum (s.velocities p.2) (s.movements p.2)) with
  | error e => rw [h1] at h; cases h
  | ok t =>
    rw [h1] at h
    exact shape_trans (apply_force_shape _ _ _ _ h1) (apply_force_shape _ _ _ _ h)

theorem react_shape (s s' : RigidBodies) (h : react s = .ok s') : Shape s s' := by
  unfold react at h
  exact foldlM_preserves (fun a => Shape s a) react_pair _
    (fun a b a' _ ha hf => shape_trans ha (react_pair_shape a a' b hf)) s s' (shape_refl _) h

theorem collide_with_itself_shape (G : Geometry) (s : RigidBodies) (r : RigidBodies × Int)
    (h : rigid_bodies_collide_with_itself G s = .ok r) : Shape s r.1 ∧ r.2 = 0 := by
  rw [collide_with_itself_unfold] at h
  split at h
  · cases h; exact ⟨shape_refl _, rfl⟩
  · simp only [bind, Except.bind, pure, Except.pure] at h
    cases hr : react (scan_loop G 1000 { s with collided := hashset_clear s.collided }).1 with
    | error e => rw [hr] at h; cases h
    | ok t =>
      rw [hr] at h
      cases h
      have h1 : Shape s { s with collided := hashset_clear s.collided } := ⟨rfl, rfl, rfl, rfl⟩
      exact ⟨shape_trans (shape_trans h1 (scanFrame_shape (scan_loop_frame G 1000 _))) (react_shape _ _ hr), rfl⟩

theorem damper_shape (s s' : RigidBodies) (id : Nat) (v : Vec)
    (h : rigid_bodies_damper s id v = .ok s') : Shape s s' := by
  unfold rigid_bodies_damper at h
  split at h
  · cases h
  · split at h
    · cases h; exact shape_refl _
    · exact apply_force_shape _ _ _ _ h

theorem platform_body_shape (P : Platforms) (s s' : RigidBodies) (i : Nat)
    (h : platform_body P s i = .ok s') : Shape s s' := by
  unfold platform_body at h
  split at h
  · cases h; exact shape_refl _
  · have h2 := damper_shape _ _ _ _ h
    exact shape_trans ⟨rfl, rfl, rfl, rfl⟩ h2

theorem collide_with_platforms_shape (P : Platforms) (s : RigidBodies) (r : RigidBodies × Int)
    (h : rigid_bodies_collide_with_platforms P s = .ok r) : Shape s r.1 ∧ r.2 = 0 := by
  unfold rigid_bodies_collide_with_platforms at h
  simp only [bind, Except.bind, pure, Except.pure] at h
  cases hr : List.foldlM (platform_body P) s (List.range s.count) with
  | error e => rw [hr] at h; cases h
  | ok t =>
    rw [hr] at h
    cases h
    exact ⟨foldlM_preserves (fun a => Shape s a) (platform_body P) _
      (fun a b a' _ ha hf => shape_trans ha (platform_body_shape P a a' b hf)) s t (shape_refl _) hr,
      rfl⟩

theorem collide_shape (G : Geometry) (P : Platforms) (s : RigidBodies) (r : RigidBodies × Int)
    (h : rigid_bodies_collide G P s = .ok r) : Shape s r.1 := by
  unfold rigid_bodies_collide at h
  simp only [bind, Except.bind, pure, Except.pure] at h
  cases h1 : rigid_bodies_collide_with_itself G
      { s with grounded := fun i => if i < s.count then false else s.grounded i } with
  | error e => rw [h1] at h; cases h
  | ok r1 =>
    rw [h1] at h
    obtain ⟨hs1, hc1⟩ := collide_with_itself_shape G _ r1 h1
    have h0 : Shape s { s with grounded := fun i => if i < s.count then false else s.grounded i } :=
      ⟨rfl, rfl, rfl, rfl⟩
    simp only [hc1, lt_self_iff_false, if_false] at h
    cases h2 : rigid_bodies_collide_with_platforms P r1.1 with
    | error e => rw [h2] at h; cases h
    | ok r2 =>
      rw [h2] at h
      obtain ⟨hs2, hc2⟩ := collide_with_platforms_shape P _ r2 h2
      simp only [hc2, lt_self_iff_false, if_false] at h
      cases h
      exact shape_trans (shape_trans h0 hs1) hs2

theorem apply_omniforce_shape (s s' : RigidBodies) (force : Vec)
    (h : rigid_bodies_apply_omniforce s force = .ok s') : Shape s s' := by
  unfold rigid_bodies_apply_omniforce at h
  exact foldlM_preserves (fun a => Shape s a)
    (fun acc i => rigid_bodies_apply_force acc i force) _
    (fun a b a' _ ha hf => shape_trans ha (apply_force_shape a a' b force hf)) s s' (shape_refl _) h

/-- Every public call but `rigid_bodies_add` leaves `count` and `capacity`
as they were. -/
theorem step_count (G : Geometry) (s s' : RigidBodies) (op : Op)
    (hop : ∀ rect, op ≠ .add rect) (h : step G s op = .ok s') :
    s'.count = s.count ∧ s'.capacity = s.capacity := by
  cases op with
  | add rect => exact absurd rfl (hop rect)
  | remove id =>
    simp only [step, rigid_bodies_remove] at h
    split at h
    · cases h
    · cases h; exact ⟨rfl, rfl⟩
  | hitbox id =>
    simp only [step, rigid_bodies_hitbox] at h
    split at h
    · cases h
    · cases h; exact ⟨rfl, rfl⟩
  | move id movement =>
    simp only [step, rigid_bodies_move] at h
    split at h
    · cases h
    · split at h <;> (cases h; exact ⟨rfl, rfl⟩)
  | touches_ground id =>
    simp only [step, rigid_bodies_touches_ground] at h
    split at h
    · cases h
    · cases h; exact ⟨rfl, rfl⟩
  | apply_omniforce force =>
    have := apply_omniforce_shape s s' force h
    exact ⟨this.2.1, this.1⟩
  | apply_force id force =>
    have := apply_force_shape s s' id force h
    exact ⟨this.2.1, this.1⟩
  | transform_velocity id trans_mat =>
    simp only [step, rigid_bodies_transform_velocity] at h
    split at h
    · cases h
    · split at h <;> (cases h; exact ⟨rfl, rfl⟩)
  | teleport_to id position =>
    simp only [step, rigid_bodies_teleport_to] at h
    split at h
    · cases h
    · split at h <;> (cases h; exact ⟨rfl, rfl⟩)
  | damper id v =>
    have := damper_shape s s' id v h
    exact ⟨this.2.1, this.1⟩
  | disable id disabled =>
    simp only [step, rigid_bodies_disable] at h
    split at h
    · cases h
    · cases h; exact ⟨rfl, rfl⟩
  | update id delta_time =>
    simp only [step] at h
    split at h
    · cases h
      unfold rigid_bodies_update
      split <;> exact ⟨rfl, rfl⟩
    · cases h
  | collide P =>
    simp only [step] at h
    cases hc : rigid_bodies_collide G P s with
    | error e => rw [hc] at h; cases h
    | ok r =>
      rw [hc] at h
      cases h
      have := collide_shape G P s r hc
      exact ⟨this.2.1, this.1⟩

theorem reachable_count_le (G : Geometry) (s : RigidBodies) (h : Reachable G s) :
    s.count ≤ s.capacity := by
  induction h with
  | create capacity => exact Nat.zero_le _
  | step s s' op _ hstep ih =>
    by_cases hop : ∀ rect, op ≠ .add rect
    · obtain ⟨h1, h2⟩ := step_count G s s' op hop hstep
      omega
    · push_neg at hop
      obtain ⟨rect, rfl⟩ := hop
      simp only [step, rigid_bodies_add] at hstep
      split at hstep
      · cases hstep
      · cases hstep
        simp only
        omega

/-! ## Adding: ids and the capacity -/

/-- C6: with `count < capacity`, `rigid_bodies_add` returns the old `count`
as id, increments `count`, makes the hitbox of the new id the given rectangle
and leaves every earlier body as it was; with `count = capacity` it fails its
assertion; `count ≤ capacity` holds in every reachable store and no other
public call changes `count`. -/
theorem add_spec (G : Geometry) (s : RigidBodies) (rect : Rect) :
    (s.count < s.capacity →
      ∃ s', rigid_bodies_add s rect = .ok (s', s.count) ∧
        s'.count = s.count + 1 ∧ s'.capacity = s.capacity ∧
        rigid_bodies_hitbox s' s.count = .ok rect ∧
        ∀ id, id < s.count →
          s'.bodies id = s.bodies id ∧ s'.velocities id = s.velocities id ∧
          s'.movements id = s.movements id ∧ s'.forces id = s.forces id ∧
          s'.grounded id = s.grounded id ∧ s'.deleted id = s.deleted id ∧
          s'.disabled id = s.disabled id) ∧
    (s.count = s.capacity → rigid_bodies_add s rect = .error .assertion) ∧
    (Reachable G s → s.count ≤ s.capacity) ∧
    (∀ op s', (∀ r, op ≠ .add r) → step G s op = .ok s' → s'.count = s.count) := by
  refine ⟨?_, ?_, reachable_count_le G s, ?_⟩
  · intro h
    refine ⟨{ s with count := s.count + 1, bodies := Function.update s.bodies s.count rect },
      ?_, rfl, rfl, ?_, ?_⟩
    · simp [rigid_bodies_add, h]
    · simp [rigid_bodies_hitbox]
    · intro id hid
      refine ⟨?_, rfl, rfl, rfl, rfl, rfl, rfl⟩
      simp [Function.update, Nat.ne_of_lt hid]
  · intro h
    simp [rigid_bodies_add, h]
  · intro op s' hop h
    exact (step_count G s s' op hop h).1

/-- Witness of `add_spec`: adding to a fresh store of capacity 1 returns
id 0, and a second add fails its assertion. -/
theorem add_spec_witness :
    (∃ s', rigid_bodies_add (create_rigid_bodies 1) ⟨0, 0, 10, 10⟩ = .ok (s', 0) ∧
      s'.count = 1 ∧ rigid_bodies_hitbox s' 0 = .ok ⟨0, 0, 10, 10⟩) ∧
    rigid_bodies_add { create_rigid_bodies 1 with count := 1 } ⟨0, 0, 10, 10⟩
      = .error .assertion := by
  refine ⟨?_, (add_spec sampleGeometry { create_rigid_bodies 1 with count := 1 }
    ⟨0, 0, 10, 10⟩).2.1 rfl⟩
  obtain ⟨s', h1, h2, _, h4, _⟩ :=
    (add_spec sampleGeometry (create_rigid_bodies 1) ⟨0, 0, 10, 10⟩).1 (by decide)
  exact ⟨s', h1, h2, h4⟩

/-! ## The passes return -/

theorem forcesOnly_refl (s : RigidBodies) : ForcesOnly s s := rfl

theorem forcesOnly_trans {s t u : RigidBodies} (h1 : ForcesOnly s t) (h2 : ForcesOnly t u) :
    ForcesOnly s u := by
  unfold ForcesOnly at *
  rw [h2, h1]

theorem apply_force_forcesOnly (s s' : RigidBodies) (id : Nat) (force : Vec)
    (h : rigid_bodies_apply_force s id force = .ok s') : ForcesOnly s s' := by
  unfold rigid_bodies_apply_force at h
  split at h
  · cases h
  · split at h <;> (cases h; rfl)

theorem react_pair_forcesOnly (s s' : RigidBodies) (p : Nat × Nat)
    (h : react_pair s p = .ok s') : ForcesOnly s s' := by
  unfold react_pair at h
  simp only [bind, Except.bind] at h
  cases h1 : rigid_bodies_apply_force s p.1 (vec_sum (s.velocities p.2) (s.movements p.2)) with
  | error e => rw [h1] at h; cases h
  | ok t =>
    rw [h1] at h
    exact forcesOnly_trans (apply_force_forcesOnly _ _ _ _ h1) (apply_force_forcesOnly _ _ _ _ h)

theorem react_forcesOnly (s s' : RigidBodies) (h : react s = .ok s') : ForcesOnly s s' := by
  unfold react at h
  exact foldlM_preserves (fun a => ForcesOnly s a) react_pair _
    (fun a b a' _ ha hf => forcesOnly_trans ha (react_pair_forcesOnly a a' b hf)) s s'
    (forcesOnly_refl _) h

theorem react_pair_returns (s : RigidBodies) (p : Nat × Nat) (h1 : p.1 < s.count)
    (h2 : p.2 < s.count) : ∃ s', react_pair s p = .ok s' := by
  unfold react_pair
  rw [apply_force_eq s p.1 _ h1]
  simp only [bind, Except.bind]
  exact ⟨_, apply_force_eq _ _ _ h2⟩

theorem react_returns (s : RigidBodies) (h : PairsOk s) : ∃ s', react s = .ok s' := by
  unfold react hashset_values
  have key := foldlM_returns (fun a : RigidBodies => a.count = s.count) react_pair s.collided
    (fun a b hb ha => by
      have hb' := h b hb
      obtain ⟨a', ha'⟩ := react_pair_returns a b (by omega) (by omega)
      exact ⟨a', ha', (react_pair_shape a a' b ha').2.1.trans ha⟩) s rfl
  obtain ⟨s', hs', _⟩ := key
  exact ⟨s', hs'⟩

theorem hashset_insert_mem (h : HashSet) (p q : Nat × Nat) :
    q ∈ hashset_insert h p ↔ q ∈ h ∨ q = p := by
  unfold hashset_insert
  split
  · constructor
    · intro hq; exact Or.inl hq
    · rintro (hq | rfl)
      · exact hq
      · assumption
  · simp

theorem collide_pair_collided (G : Geometry) (i1 i2 : Nat) (st : RigidBodies × Bool)
    (q : Nat × Nat) (hq : q ∈ (collide_pair G i1 i2 st).1.collided) :
    q ∈ st.1.collided ∨ q = (i1, i2) := by
  unfold collide_pair at hq
  simp only at hq
  split at hq
  · exact Or.inl hq
  · split at hq
    · exact Or.inl hq
    · exact (hashset_insert_mem _ _ _).mp hq

theorem scan_row_pairsOk (G : Geometry) (i1 : Nat) (st : RigidBodies × Bool)
    (h : PairsOk st.1) : PairsOk (scan_row G i1 st).1 := by
  unfold scan_row
  split
  · exact h
  · refine foldl_preserves (fun acc => PairsOk acc.1 ∧ acc.1.count = st.1.count) _ _ ?_ st
      ⟨h, rfl⟩ |>.1
    intro a b hb ha
    have hc := (collide_pair_frame G i1 b a).2.1
    refine ⟨?_, hc.trans ha.2⟩
    intro q hq
    rw [hc]
    rcases collide_pair_collided G i1 b a q hq with hq | rfl
    · exact ha.1 q hq
    · rw [List.mem_range'_1] at hb
      simp only
      rw [ha.2]
      omega

theorem scan_pairsOk (G : Geometry) (s : RigidBodies) (h : PairsOk s) :
    PairsOk (scan G s).1 := by
  unfold scan
  exact foldl_preserves (fun acc => PairsOk acc.1) _ _
    (fun a b _ ha => scan_row_pairsOk G b a ha) (s, false) h

theorem scan_loop_pairsOk (G : Geometry) (fuel : Nat) :
    ∀ s, PairsOk s → PairsOk (scan_loop G fuel s).1 := by
  induction fuel with
  | zero => intro s h; exact h
  | succ n ih =>
    intro s h
    simp only [scan_loop]
    split
    · exact ih _ (scan_pairsOk G s h)
    · exact scan_pairsOk G s h

/-- The self-collision pass always returns, with code 0. -/
theorem collide_with_itself_returns (G : Geometry) (s : RigidBodies) :
    ∃ s', rigid_bodies_collide_with_itself G s = .ok (s', 0) := by
  rw [collide_with_itself_unfold]
  split
  · exact ⟨s, rfl⟩
  · have hp : PairsOk { s with collided := hashset_clear s.collided } := by
      intro p hp
      simp [hashset_clear] at hp
    obtain ⟨s', hs'⟩ := react_returns _ (scan_loop_pairsOk G 1000 _ hp)
    refine ⟨s', ?_⟩
    simp only [bind, Except.bind, hs', pure, Except.pure]

/-- On a store with a body the pass is the scan loop bounded by 1000 followed by
the reactive forces; the body of the pass also yields the loop counter. -/
theorem collide_with_itself_run_eq (G : Geometry) (s : RigidBodies) (hc : s.count ≠ 0) :
    ∃ s', react (scan_loop G 1000 { s with collided := hashset_clear s.collided }).1 = .ok s' ∧
      collide_with_itself_run G s
        = .ok (s', (scan_loop G 1000 { s with collided := hashset_clear s.collided }).2) ∧
      rigid_bodies_collide_with_itself G s = .ok (s', 0) := by
  have hp : PairsOk { s with collided := hashset_clear s.collided } := by
    intro p hp
    simp [hashset_clear] at hp
  obtain ⟨s', hs'⟩ := react_returns _ (scan_loop_pairsOk G 1000 _ hp)
  have hrun : collide_with_itself_run G s
      = .ok (s', (scan_loop G 1000 { s with collided := hashset_clear s.collided }).2) := by
    unfold collide_with_itself_run
    rw [if_neg hc]
    simp only [bind, Except.bind, hs', pure, Except.pure]
  refine ⟨s', hs', hrun, ?_⟩
  unfold rigid_bodies_collide_with_itself
  rw [hrun]
  rfl

/-- On an empty store the body of the pass returns at once: no scan, same store. -/
theorem collide_with_itself_run_empty (G : Geometry) (s : RigidBodies) (hc : s.count = 0) :
    collide_with_itself_run G s = .ok (s, 0) ∧
    rigid_bodies_collide_with_itself G s = .ok (s, 0) := by
  have hrun : collide_with_itself_run G s = .ok (s, 0) := by
    unfold collide_with_itself_run
    rw [if_pos hc]
  refine ⟨hrun, ?_⟩
  unfold rigid_bodies_collide_with_itself
  rw [hrun]
  rfl

theorem damper_returns (s : RigidBodies) (id : Nat) (v : Vec) (h : id < s.count) :
    ∃ s', rigid_bodies_damper s id v = .ok s' := by
  unfold rigid_bodies_damper
  rw [if_neg (not_not.mpr h)]
  split
  · exact ⟨s, rfl⟩
  · exact ⟨_, apply_force_eq _ _ _ h⟩

theorem platform_body_returns (P : Platforms) (s : RigidBodies) (i : Nat) (h : i < s.count) :
    ∃ s', platform_body P s i = .ok s' := by
  unfold platform_body
  split
  · exact ⟨s, rfl⟩
  · exact damper_returns _ i _ h

/-- The platform pass always returns, with code 0. -/
theorem collide_with_platforms_returns (P : Platforms) (s : RigidBodies) :
    ∃ s', rigid_bodies_collide_with_platforms P s = .ok (s', 0) := by
  unfold rigid_bodies_collide_with_platforms
  have key := foldlM_returns (fun a : RigidBodies => a.count = s.count) (platform_body P)
    (List.range s.count)
    (fun a b hb ha => by
      rw [List.mem_range] at hb
      obtain ⟨a', ha'⟩ := platform_body_returns P a b (by omega)
      exact ⟨a', ha', (platform_body_shape P a a' b ha').2.1.trans ha⟩) s rfl
  obtain ⟨s', hs', _⟩ := key
  refine ⟨s', ?_⟩
  simp only [bind, Except.bind, hs', pure, Except.pure]

/-- The store after the `memset` of `rigid_bodies_collide`. -/
theorem collide_eq (G : Geometry) (P : Platforms) (s : RigidBodies) :
    ∃ s1 s2,
      rigid_bodies_collide_with_itself G
        { s with grounded := fun i => if i < s.count then false else s.grounded i }
        = .ok (s1, 0) ∧
      rigid_bodies_collide_with_platforms P s1 = .ok (s2, 0) ∧
      rigid_bodies_collide G P s = .ok (s2, 0) := by
  obtain ⟨s1, h1⟩ := collide_with_itself_returns G
    { s with grounded := fun i => if i < s.count then false else s.grounded i }
  obtain ⟨s2, h2⟩ := collide_with_platforms_returns P s1
  refine ⟨s1, s2, h1, h2, ?_⟩
  unfold rigid_bodies_collide
  simp only [bind, Except.bind, h1, h2, pure, Except.pure, lt_self_iff_false, if_false]

/-! ## Stores with two bodies -/

theorem scan_two (G : Geometry) (s : RigidBodies) (hc : s.count = 2)
    (hdel : s.deleted 0 = false) (hdis : s.disabled 0 = false) :
    scan G s = collide_pair G 0 1 (s, false) := by
  unfold scan scan_row
  simp [hc, hdel, hdis, List.range_succ, List.range'_succ]

theorem scan_loop_stop (G : Geometry) (fuel : Nat) (s : RigidBodies)
    (h : (scan G s).2 = false) : scan_loop G (fuel + 1) s = ((scan G s).1, 1) := by
  simp [scan_loop, h]

theorem scan_loop_next (G : Geometry) (fuel : Nat) (s : RigidBodies)
    (h : (scan G s).2 = true) :
    scan_loop G (fuel + 1) s
      = ((scan_loop G fuel (scan G s).1).1, (scan_loop G fuel (scan G s).1).2 + 1) := by
  simp [scan_loop, h]

/-! ## The platform pass and skipped bodies -/

theorem apply_force_other (s s' : RigidBodies) (id : Nat) (force : Vec)
    (h : rigid_bodies_apply_force s id force = .ok s') (j : Nat) (hj : j ≠ id) :
    s'.forces j = s.forces j := by
  unfold rigid_bodies_apply_force at h
  split at h
  · cases h
  · split at h
    · cases h; rfl
    · cases h
      simp [Function.update, hj]

theorem damper_forcesOnly (s s' : RigidBodies) (id : Nat) (v : Vec)
    (h : rigid_bodies_damper s id v = .ok s') :
    ForcesOnly s s' ∧ ∀ j, j ≠ id → s'.forces j = s.forces j := by
  unfold rigid_bodies_damper at h
  split at h
  · cases h
  · split at h
    · cases h; exact ⟨rfl, fun _ _ => rfl⟩
    · exact ⟨apply_force_forcesOnly _ _ _ _ h, apply_force_other _ _ _ _ h⟩

theorem platform_body_skips (P : Platforms) (s s' : RigidBodies) (i : Nat)
    (h : platform_body P s i = .ok s') (j : Nat)
    (hj : (s.deleted j || s.disabled j) = true) :
    s'.velocities j = s.velocities j ∧ s'.movements j = s.movements j ∧
    s'.grounded j = s.grounded j ∧ s'.forces j = s.forces j ∧ s'.bodies j = s.bodies j := by
  unfold platform_body at h
  split at h
  · cases h; exact ⟨rfl, rfl, rfl, rfl, rfl⟩
  · rename_i hi
    have hne : j ≠ i := by
      rintro rfl
      exact hi hj
    obtain ⟨hfo, hoth⟩ := damper_forcesOnly _ _ _ _ h
    rw [hfo]
    refine ⟨?_, ?_, ?_, ?_, ?_⟩
    · simp [Function.update, hne]
    · simp [Function.update, hne]
    · simp only
      split <;> simp [Function.update, hne]
    · exact hoth j hne
    · simp [Function.update, hne]

theorem collide_with_platforms_skips (P : Platforms) (s : RigidBodies) (r : RigidBodies × Int)
    (h : rigid_bodies_collide_with_platforms P s = .ok r) (j : Nat)
    (hj : (s.deleted j || s.disabled j) = true) :
    r.1.velocities j = s.velocities j ∧ r.1.movements j = s.movements j ∧
    r.1.grounded j = s.grounded j ∧ r.1.forces j = s.forces j ∧ r.1.bodies j = s.bodies j := by
  unfold rigid_bodies_collide_with_platforms at h
  simp only [bind, Except.bind, pure, Except.pure] at h
  cases hr : List.foldlM (platform_body P) s (List.range s.count) with
  | error e => rw [hr] at h; cases h
  | ok t =>
    rw [hr] at h
    cases h
    have key := foldlM_preserves
      (fun a : RigidBodies => Shape s a ∧
        (a.velocities j = s.velocities j ∧ a.movements j = s.movements j ∧
         a.grounded j = s.grounded j ∧ a.forces j = s.forces j ∧ a.bodies j = s.bodies j))
      (platform_body P) (List.range s.count)
      (fun a b a' _ ha hf => by
        have hsh := platform_body_shape P a a' b hf
        have hj' : (a.deleted j || a.disabled j) = true := by
          rw [ha.1.2.2.1, ha.1.2.2.2]; exact hj
        obtain ⟨k1, k2, k3, k4, k5⟩ := platform_body_skips P a a' b hf j hj'
        obtain ⟨l0, l1, l2, l3, l4, l5⟩ := ha
        exact ⟨shape_trans l0 hsh, k1.trans l1, k2.trans l2, k3.trans l3, k4.trans l4,
          k5.trans l5⟩)
      s t ⟨shape_refl _, rfl, rfl, rfl, rfl, rfl⟩ hr
    exact key.2

/-- The three stages of `rigid_bodies_collide` on a store with at least one
body: the scan loop from `scan_entry`, the reactive forces, the platform
pass. -/
theorem collide_stages (G : Geometry) (P : Platforms) (s : RigidBodies) (hc : s.count ≠ 0) :
    ∃ s1 s2,
      react (scan_loop G 1000 (scan_entry s)).1 = .ok s1 ∧
      rigid_bodies_collide_with_platforms P s1 = .ok (s2, 0) ∧
      rigid_bodies_collide G P s = .ok (s2, 0) := by
  obtain ⟨s1, s2, h1, h2, h3⟩ := collide_eq G P s
  refine ⟨s1, s2, ?_, h2, h3⟩
  rw [collide_with_itself_unfold] at h1
  rw [if_neg hc] at h1
  simp only [bind, Except.bind, pure, Except.pure] at h1
  simp only [scan_entry]
  generalize react (scan_loop G 1000 _).1 = x at h1 ⊢
  cases x with
  | error e => cases h1
  | ok t => cases h1; rfl

/-! ## Evaluation on the two overlapping bodies of `disabledOverlap` -/

theorem disabledOverlap_scan_loop :
    (scan_loop sampleGeometry 1000 (scan_entry disabledOverlap)).1.velocities 1 = vec 3 0 ∧
    (scan_loop sampleGeometry 1000 (scan_entry disabledOverlap)).1.movements 1 = vec 5 0 ∧
    (scan_loop sampleGeometry 1000 (scan_entry disabledOverlap)).1.grounded 1 = true := by
  have e1 := scan_two sampleGeometry (scan_entry disabledOverlap) rfl rfl rfl
  have f1 : (scan sampleGeometry (scan_entry disabledOverlap)).2 = true := by
    rw [e1]
    norm_num [collide_pair, scan_entry, disabledOverlap, create_rigid_bodies, sampleGeometry,
      vec, Function.update]
  rw [show (1000 : Nat) = 999 + 1 from rfl, scan_loop_next _ _ _ f1]
  have hfr := scan_frame sampleGeometry (scan_entry disabledOverlap)
  have e2 := scan_two sampleGeometry _ hfr.2.1 (by rw [hfr.2.2.1]; rfl)
    (by rw [hfr.2.2.2.1]; rfl)
  have f2 : (scan sampleGeometry (scan sampleGeometry (scan_entry disabledOverlap)).1).2
      = false := by
    rw [e2, e1]
    norm_num [collide_pair, scan_entry, disabledOverlap, create_rigid_bodies, sampleGeometry,
      vec, Function.update]
  rw [show (999 : Nat) = 998 + 1 from rfl, scan_loop_stop _ _ _ f2]
  simp only
  rw [e2, e1]
  refine ⟨?_, ?_, ?_⟩ <;>
    norm_num [collide_pair, scan_entry, disabledOverlap, create_rigid_bodies, sampleGeometry,
      vec, Function.update]

/-- C8, evaluated at the failing input: in `disabledOverlap` body 1 is
disabled, not deleted, and shares its rectangle with the live body 0;
`rigid_bodies_collide` changes its velocity from `(3, 4)` to `(3, 0)`, its
movement from `(5, 6)` to `(5, 0)` and marks it grounded. -/
theorem collide_changes_disabled_body :
    1 < disabledOverlap.count ∧ disabledOverlap.disabled 1 = true ∧
    disabledOverlap.deleted 1 = false ∧
    disabledOverlap.velocities 1 = vec 3 4 ∧ disabledOverlap.movements 1 = vec 5 6 ∧
    (rigid_bodies_collide sampleGeometry emptyPlatforms disabledOverlap).map
      (fun r => (r.1.velocities 1, r.1.movements 1, r.1.grounded 1))
      = .ok (vec 3 0, vec 5 0, true) := by
  refine ⟨by decide, rfl, rfl, rfl, rfl, ?_⟩
  obtain ⟨s1, s2, h1, h2, h3⟩ :=
    collide_stages sampleGeometry emptyPlatforms disabledOverlap (by decide)
  have hfo := react_forcesOnly _ _ h1
  have hsh := shape_trans
    (scanFrame_shape (scan_loop_frame sampleGeometry 1000 (scan_entry disabledOverlap)))
    (react_shape _ _ h1)
  have hskip : (s1.deleted 1 || s1.disabled 1) = true := by
    rw [hsh.2.2.1, hsh.2.2.2]; rfl
  obtain ⟨k1, k2, k3, _, _⟩ := collide_with_platforms_skips emptyPlatforms s1 _ h2 1 hskip
  obtain ⟨e1, e2, e3⟩ := disabledOverlap_scan_loop
  have g1 : s2.velocities 1 = vec 3 0 := by
    rw [k1, hfo]; exact e1
  have g2 : s2.movements 1 = vec 5 0 := by
    rw [k2, hfo]; exact e2
  have g3 : s2.grounded 1 = true := by
    rw [k3, hfo]; exact e3
  rw [h3]
  simp only [Except.map, g1, g2, g3]

/-! ## The history agrees with the loops -/

theorem foldl_fst {α β γ : Type} (f : α → β → α) (F : α × γ → β → α × γ)
    (hF : ∀ a b, (F a b).1 = f a.1 b) (l : List β) :
    ∀ a, (l.foldl F a).1 = l.foldl f a.1 := by
  induction l with
  | nil => intro a; rfl
  | cons b l ih =>
    intro a
    simp only [List.foldl_cons]
    rw [ih, hF]

theorem scan_row_log_fst (G : Geometry) (i1 : Nat) (st : (RigidBodies × Bool) × List Event) :
    (scan_row_log G i1 st).1 = scan_row G i1 st.1 := by
  unfold scan_row_log scan_row
  split
  · rfl
  · exact foldl_fst (fun acc i2 => collide_pair G i1 i2 acc) _ (fun _ _ => rfl) _ st

theorem scan_log_fst (G : Geometry) (s : RigidBodies) : (scan_log G s).1 = scan G s := by
  unfold scan_log scan
  exact foldl_fst (fun acc i1 => scan_row G i1 acc) _ (fun a b => scan_row_log_fst G b a) _ _

theorem scan_loop_log_fst (G : Geometry) (fuel : Nat) :
    ∀ s, (scan_loop_log G fuel s).1 = (scan_loop G fuel s).1 ∧
      (scan_loop_log G fuel s).2.length = (scan_loop G fuel s).2 := by
  induction fuel with
  | zero => intro s; exact ⟨rfl, rfl⟩
  | succ n ih =>
    intro s
    simp only [scan_loop_log, scan_loop, scan_log_fst]
    split
    · exact ⟨(ih _).1, by simp [(ih _).2]⟩
    · exact ⟨rfl, rfl⟩

/-! ## What the history says about the grounded flags and the pair set -/

theorem grounds_append_left {evs : List Event} {id : Nat} (h : Grounds evs id)
    (more : List Event) : Grounds (evs ++ more) id := by
  obtain ⟨e, he, hp⟩ := h
  exact ⟨e, List.mem_append_left _ he, hp⟩

theorem grounds_append_right {more : List Event} {id : Nat} (h : Grounds more id)
    (evs : List Event) : Grounds (evs ++ more) id := by
  obtain ⟨e, he, hp⟩ := h
  exact ⟨e, List.mem_append_right _ he, hp⟩

theorem collide_pair_grounded (G : Geometry) (i1 i2 : Nat) (st : RigidBodies × Bool)
    (id : Nat) (h : (collide_pair G i1 i2 st).1.grounded id = true) :
    st.1.grounded id = true ∨ Grounds (pair_event G i1 i2 st.1) id := by
  unfold collide_pair at h
  unfold pair_event
  simp only at h
  split at h
  · exact Or.inl h
  · split at h
    · exact Or.inl h
    · rename_i h1 h2
      rw [if_neg h1, if_neg h2]
      simp only at h
      by_cases ho : (G.rect_impulse (st.1.bodies i1) (st.1.bodies i2)).2.2.x
          > (G.rect_impulse (st.1.bodies i1) (st.1.bodies i2)).2.2.y
      · rw [if_pos ho] at h
        by_cases hid : id = i1 ∨ id = i2
        · right
          refine ⟨_, List.mem_singleton_self _, ?_, ho⟩
          rcases hid with rfl | rfl
          · exact Or.inl rfl
          · exact Or.inr rfl
        · push_neg at hid
          left
          split at h
          · rwa [Function.update_noteq hid.1] at h
          · rwa [Function.update_noteq hid.2] at h
      · rw [if_neg ho] at h
        exact Or.inl h

theorem scan_row_log_grounded (G : Geometry) (i1 : Nat) (g0 : Nat → Bool)
    (st : (RigidBodies × Bool) × List Event)
    (h : ∀ id, st.1.1.grounded id = true → g0 id = true ∨ Grounds st.2 id) :
    ∀ id, (scan_row_log G i1 st).1.1.grounded id = true →
      g0 id = true ∨ Grounds (scan_row_log G i1 st).2 id := by
  unfold scan_row_log
  split
  · exact h
  · refine foldl_preserves
      (fun acc : (RigidBodies × Bool) × List Event =>
        ∀ id, acc.1.1.grounded id = true → g0 id = true ∨ Grounds acc.2 id) _ _ ?_ st h
    intro a b _ ha id hid
    rcases collide_pair_grounded G i1 b a.1 id hid with h1 | h1
    · rcases ha id h1 with h2 | h2
      · exact Or.inl h2
      · exact Or.inr (grounds_append_left h2 _)
    · exact Or.inr (grounds_append_right h1 _)

theorem scan_log_grounded (G : Geometry) (s : RigidBodies) (id : Nat)
    (h : (scan_log G s).1.1.grounded id = true) :
    s.grounded id = true ∨ Grounds (scan_log G s).2 id := by
  unfold scan_log at h ⊢
  refine foldl_preserves
    (fun acc : (RigidBodies × Bool) × List Event =>
      ∀ id, acc.1.1.grounded id = true → s.grounded id = true ∨ Grounds acc.2 id) _ _ ?_
    ((s, false), []) (fun id hid => Or.inl hid) id h
  intro a b _ ha
  exact scan_row_log_grounded G b s.grounded a ha

theorem scan_loop_log_grounded (G : Geometry) (fuel : Nat) :
    ∀ s id, (scan_loop_log G fuel s).1.grounded id = true →
      s.grounded id = true ∨ ∃ evs ∈ (scan_loop_log G fuel s).2, Grounds evs id := by
  induction fuel with
  | zero => intro s id h; exact Or.inl h
  | succ n ih =>
    intro s id h
    simp only [scan_loop_log] at h ⊢
    split at h
    · rename_i hflag
      rw [if_pos hflag]
      rcases ih _ id h with h1 | ⟨evs, hevs, hg⟩
      · rcases scan_log_grounded G s id h1 with h2 | h2
        · exact Or.inl h2
        · exact Or.inr ⟨_, List.mem_cons_self _ _, h2⟩
      · exact Or.inr ⟨evs, List.mem_cons_of_mem _ hevs, hg⟩
    · rename_i hflag
      rw [if_neg hflag]
      rcases scan_log_grounded G s id h with h2 | h2
      · exact Or.inl h2
      · exact Or.inr ⟨_, List.mem_singleton_self _, h2⟩

theorem collide_pair_keeps (G : Geometry) (i1 i2 : Nat) (st : RigidBodies × Bool)
    (q : Nat × Nat) (hq : q ∈ st.1.collided) : q ∈ (collide_pair G i1 i2 st).1.collided := by
  unfold collide_pair
  simp only
  split
  · exact hq
  · split
    · exact hq
    · exact (hashset_insert_mem _ _ _).mpr (Or.inl hq)

theorem pair_event_recorded (G : Geometry) (i1 i2 : Nat) (st : RigidBodies × Bool)
    (e : Event) (he : e ∈ pair_event G i1 i2 st.1) :
    (e.i1, e.i2) ∈ (collide_pair G i1 i2 st).1.collided := by
  unfold pair_event at he
  unfold collide_pair
  simp only
  split at he
  · cases he
  · split at he
    · cases he
    · rename_i h1 h2
      rw [if_neg h1, if_neg h2]
      rw [List.mem_singleton] at he
      subst he
      exact (hashset_insert_mem _ _ _).mpr (Or.inr rfl)

theorem scan_row_log_recorded (G : Geometry) (i1 : Nat) (c0 : HashSet)
    (st : (RigidBodies × Bool) × List Event)
    (h : (∀ q ∈ c0, q ∈ st.1.1.collided) ∧ ∀ e ∈ st.2, (e.i1, e.i2) ∈ st.1.1.collided) :
    (∀ q ∈ c0, q ∈ (scan_row_log G i1 st).1.1.collided) ∧
    ∀ e ∈ (scan_row_log G i1 st).2, (e.i1, e.i2) ∈ (scan_row_log G i1 st).1.1.collided := by
  unfold scan_row_log
  split
  · exact h
  · refine foldl_preserves
      (fun acc : (RigidBodies × Bool) × List Event =>
        (∀ q ∈ c0, q ∈ acc.1.1.collided) ∧ ∀ e ∈ acc.2, (e.i1, e.i2) ∈ acc.1.1.collided)
      _ _ ?_ st h
    intro a b _ ha
    refine ⟨fun q hq => collide_pair_keeps G i1 b a.1 q (ha.1 q hq), ?_⟩
    intro e he
    simp only [collide_pair_log, List.mem_append] at he ⊢
    rcases he with he | he
    · exact collide_pair_keeps G i1 b a.1 _ (ha.2 e he)
    · exact pair_event_recorded G i1 b a.1 e he

theorem scan_log_recorded (G : Geometry) (s : RigidBodies) :
    (∀ q ∈ s.collided, q ∈ (scan_log G s).1.1.collided) ∧
    ∀ e ∈ (scan_log G s).2, (e.i1, e.i2) ∈ (scan_log G s).1.1.collided := by
  unfold scan_log
  refine foldl_preserves
    (fun acc : (RigidBodies × Bool) × List Event =>
      (∀ q ∈ s.collided, q ∈ acc.1.1.collided) ∧
        ∀ e ∈ acc.2, (e.i1, e.i2) ∈ acc.1.1.collided) _ _ ?_
    ((s, false), []) ⟨fun q hq => hq, fun e he => by cases he⟩
  intro a b _ ha
  exact scan_row_log_recorded G b s.collided a ha

theorem scan_loop_log_recorded (G : Geometry) (fuel : Nat) :
    ∀ s, (∀ q ∈ s.collided, q ∈ (scan_loop_log G fuel s).1.collided) ∧
      ∀ evs ∈ (scan_loop_log G fuel s).2, ∀ e ∈ evs,
        (e.i1, e.i2) ∈ (scan_loop_log G fuel s).1.collided := by
  induction fuel with
  | zero => intro s; exact ⟨fun q hq => hq, fun evs hevs => by cases hevs⟩
  | succ n ih =>
    intro s
    obtain ⟨k1, k2⟩ := scan_log_recorded G s
    simp only [scan_loop_log]
    split
    · obtain ⟨j1, j2⟩ := ih (scan_log G s).1.1
      refine ⟨fun q hq => j1 q (k1 q hq), ?_⟩
      intro evs hevs e he
      rcases List.mem_cons.mp hevs with rfl | hevs
      · exact j1 _ (k2 e he)
      · exact j2 evs hevs e he
    · refine ⟨k1, ?_⟩
      intro evs hevs e he
      rw [List.mem_singleton] at hevs
      subst hevs
      exact k2 e he

theorem hashset_insert_nodup (h : HashSet) (p : Nat × Nat) (hn : h.Nodup) :
    (hashset_insert h p).Nodup := by
  unfold hashset_insert
  split
  · exact hn
  · rename_i hp
    rw [List.nodup_append]
    refine ⟨hn, List.nodup_singleton _, ?_⟩
    intro a ha hb
    rw [List.mem_singleton] at hb
    subst hb
    exact hp ha

theorem collide_pair_nodup (G : Geometry) (i1 i2 : Nat) (st : RigidBodies × Bool)
    (h : st.1.collided.Nodup) : (collide_pair G i1 i2 st).1.collided.Nodup := by
  unfold collide_pair
  simp only
  split
  · exact h
  · split
    · exact h
    · exact hashset_insert_nodup _ _ h

theorem scan_nodup (G : Geometry) (s : RigidBodies) (h : s.collided.Nodup) :
    (scan G s).1.collided.Nodup := by
  unfold scan
  refine foldl_preserves (fun acc : RigidBodies × Bool => acc.1.collided.Nodup) _ _ ?_ (s, false) h
  intro a b _ ha
  unfold scan_row
  split
  · exact ha
  · exact foldl_preserves (fun acc : RigidBodies × Bool => acc.1.collided.Nodup) _ _
      (fun a' c _ ha' => collide_pair_nodup G b c a' ha') a ha

theorem scan_loop_nodup (G : Geometry) (fuel : Nat) :
    ∀ s, s.collided.Nodup → (scan_loop G fuel s).1.collided.Nodup := by
  induction fuel with
  | zero => intro s h; exact h
  | succ n ih =>
    intro s h
    simp only [scan_loop]
    split
    · exact ih _ (scan_nodup G s h)
    · exact scan_nodup G s h

/-! ## Grounded flags after `rigid_bodies_collide` -/

theorem platform_body_effect (P : Platforms) (s s' : RigidBodies) (i : Nat)
    (h : platform_body P s i = .ok s') :
    (∀ j, j ≠ i → s'.bodies j = s.bodies j) ∧
    ∀ id, s'.grounded id = true →
      s.grounded id = true ∨ (id = i ∧ P.touches_rect_sides (s.bodies i) .bottom = true) := by
  unfold platform_body at h
  split at h
  · cases h; exact ⟨fun _ _ => rfl, fun _ hid => Or.inl hid⟩
  · obtain ⟨hfo, _⟩ := damper_forcesOnly _ _ _ _ h
    rw [hfo]
    refine ⟨fun j hj => by simp [Function.update, hj], ?_⟩
    intro id hid
    simp only at hid
    by_cases hb : P.touches_rect_sides (s.bodies i) .bottom = true
    · rw [if_pos hb] at hid
      by_cases hi : id = i
      · exact Or.inr ⟨hi, hb⟩
      · rw [Function.update_noteq hi] at hid
        exact Or.inl hid
    · rw [if_neg hb] at hid
      exact Or.inl hid

theorem platform_fold_grounded (P : Platforms) (s0 : RigidBodies) (l : List Nat) :
    l.Nodup → ∀ a a', (∀ j ∈ l, a.bodies j = s0.bodies j) →
      l.foldlM (platform_body P) a = .ok a' →
      ∀ id, a'.grounded id = true →
        a.grounded id = true ∨
          (id ∈ l ∧ P.touches_rect_sides (s0.bodies id) .bottom = true) := by
  induction l with
  | nil =>
    intro _ a a' _ hr id hid
    simp only [List.foldlM, pure, Except.pure, Except.ok.injEq] at hr
    subst hr
    exact Or.inl hid
  | cons b l ih =>
    intro hnd a a' hb hr id hid
    rw [List.nodup_cons] at hnd
    simp only [List.foldlM_cons, bind, Except.bind] at hr
    cases hf : platform_body P a b with
    | error e => rw [hf] at hr; cases hr
    | ok t =>
      rw [hf] at hr
      obtain ⟨e1, e2⟩ := platform_body_effect P a t b hf
      have hb' : ∀ j ∈ l, t.bodies j = s0.bodies j := by
        intro j hj
        have hne : j ≠ b := by
          rintro rfl
          exact hnd.1 hj
        rw [e1 j hne]
        exact hb j (List.mem_cons_of_mem _ hj)
      rcases ih hnd.2 t a' hb' hr id hid with h1 | ⟨h1, h2⟩
      · rcases e2 id h1 with h3 | ⟨h3, h4⟩
        · exact Or.inl h3
        · refine Or.inr ⟨h3 ▸ List.mem_cons_self _ _, ?_⟩
          rw [h3, ← hb b (List.mem_cons_self _ _)]
          exact h4
      · exact Or.inr ⟨List.mem_cons_of_mem _ h1, h2⟩

theorem collide_with_platforms_grounded (P : Platforms) (s : RigidBodies)
    (r : RigidBodies × Int) (h : rigid_bodies_collide_with_platforms P s = .ok r) (id : Nat)
    (hid : r.1.grounded id = true) :
    s.grounded id = true ∨ P.touches_rect_sides (s.bodies id) .bottom = true := by
  unfold rigid_bodies_collide_with_platforms at h
  simp only [bind, Except.bind, pure, Except.pure] at h
  cases hr : List.foldlM (platform_body P) s (List.range s.count) with
  | error e => rw [hr] at h; cases h
  | ok t =>
    rw [hr] at h
    cases h
    rcases platform_fold_grounded P s (List.range s.count) (List.nodup_range _) s t
      (fun _ _ => rfl) hr id hid with h1 | ⟨_, h2⟩
    · exact Or.inl h1
    · exact Or.inr h2

theorem collide_pair_no_overlap (G : Geometry) (i1 i2 : Nat)
    (st : (RigidBodies × Bool) × List Event)
    (h : G.rects_overlap (st.1.1.bodies i1) (st.1.1.bodies i2) = false) :
    collide_pair_log G i1 i2 st = st := by
  unfold collide_pair_log collide_pair pair_event
  simp only [h, Bool.not_false, if_true, ite_self, List.append_nil]

theorem scan_log_no_overlap (G : Geometry) (s : RigidBodies)
    (h : ∀ i1 i2, i1 < i2 → i2 < s.count →
      G.rects_overlap (s.bodies i1) (s.bodies i2) = false) :
    scan_log G s = ((s, false), []) := by
  unfold scan_log
  refine foldl_preserves
    (fun acc : (RigidBodies × Bool) × List Event => acc = ((s, false), [])) _ _ ?_ _ rfl
  intro a b _ ha
  subst ha
  unfold scan_row_log
  split
  · rfl
  · refine foldl_preserves
      (fun acc : (RigidBodies × Bool) × List Event => acc = ((s, false), [])) _ _ ?_ _ rfl
    intro a c hc ha
    subst ha
    rw [List.mem_range'_1] at hc
    exact collide_pair_no_overlap G b c _ (h b c (by omega) (by simp only at hc; omega))

theorem scan_loop_log_no_overlap (G : Geometry) (fuel : Nat) (s : RigidBodies)
    (h : ∀ i1 i2, i1 < i2 → i2 < s.count →
      G.rects_overlap (s.bodies i1) (s.bodies i2) = false) :
    scan_loop_log G (fuel + 1) s = (s, [[]]) := by
  simp [scan_loop_log, scan_log_no_overlap G s h]

/-- C10: `rigid_bodies_collide` returns with code 0, and in the store it
leaves a body `id < count` is grounded only if a scan of this call processed
an overlapping pair that holds `id` with `orient.x > orient.y`, or the
platforms reported a touch of the bottom side for the rectangle of `id`,
whatever the grounded flags were before the call; if no two bodies overlap
and the platforms report no bottom touch, no body is grounded. -/
theorem collide_grounded (G : Geometry) (P : Platforms) (s : RigidBodies) :
    ∃ r, rigid_bodies_collide G P s = .ok (r, 0) ∧
      (∀ id, id < s.count → r.grounded id = true →
        (∃ evs ∈ self_history G (memset_grounded s), Grounds evs id) ∨
        P.touches_rect_sides ((after_scans G (memset_grounded s)).bodies id) .bottom
          = true) ∧
      ((∀ i1 i2, i1 < i2 → i2 < s.count →
          G.rects_overlap (s.bodies i1) (s.bodies i2) = false) →
        (∀ rect, P.touches_rect_sides rect .bottom = false) →
        ∀ id, id < s.count → r.grounded id = false) := by
  have main : ∃ r, rigid_bodies_collide G P s = .ok (r, 0) ∧
      (∀ id, id < s.count → r.grounded id = true →
        (∃ evs ∈ self_history G (memset_grounded s), Grounds evs id) ∨
        P.touches_rect_sides ((after_scans G (memset_grounded s)).bodies id) .bottom
          = true) := by
    by_cases hc : s.count = 0
    · obtain ⟨_, s2, _, _, h3⟩ := collide_eq G P s
      exact ⟨s2, h3, fun id hid => by omega⟩
    · obtain ⟨s1, s2, h1, h2, h3⟩ := collide_stages G P s hc
      refine ⟨s2, h3, ?_⟩
      intro id hid hg
      have hfo := react_forcesOnly _ _ h1
      rcases collide_with_platforms_grounded P s1 _ h2 id hg with h4 | h4
      · left
        rw [hfo] at h4
        simp only at h4
        rw [← (scan_loop_log_fst G 1000 (scan_entry s)).1] at h4
        rcases scan_loop_log_grounded G 1000 (scan_entry s) id h4 with h5 | h5
        · simp [scan_entry, hid] at h5
        · exact h5
      · right
        rw [hfo] at h4
        exact h4
  obtain ⟨r, hr, hmain⟩ := main
  refine ⟨r, hr, hmain, ?_⟩
  intro hno hbot id hid
  have hno' : ∀ i1 i2, i1 < i2 → i2 < (scan_entry s).count →
      G.rects_overlap ((scan_entry s).bodies i1) ((scan_entry s).bodies i2) = false := hno
  have hlog : self_history G (memset_grounded s) = [[]] := by
    change (scan_loop_log G 1000 (scan_entry s)).2 = [[]]
    rw [show (1000 : Nat) = 999 + 1 from rfl, scan_loop_log_no_overlap G 999 _ hno']
  cases hg : r.grounded id with
  | false => rfl
  | true =>
    rcases hmain id hid hg with ⟨evs, hevs, e, he, _⟩ | h2
    · rw [hlog, List.mem_singleton] at hevs
      subst hevs
      cases he
    · rw [hbot] at h2
      cases h2

/-! ## Reactive forces -/

theorem apply_force_at (s s' : RigidBodies) (id : Nat) (force : Vec)
    (h : rigid_bodies_apply_force s id force = .ok s') (j : Nat)
    (hdel : s.deleted j = false) (hdis : s.disabled j = false) :
    s'.forces j = if id = j then vec_sum (s.forces j) force else s.forces j := by
  unfold rigid_bodies_apply_force at h
  split at h
  · cases h
  · by_cases hj : id = j
    · subst hj
      simp only [hdel, hdis, Bool.or_self, Bool.false_eq_true, if_false] at h
      cases h
      simp
    · rw [if_neg hj]
      exact apply_force_other s s' id force
        (by unfold rigid_bodies_apply_force; rw [if_neg (by assumption)]; exact h) j
        (fun e => hj e.symm)

theorem react_pair_at (s s' : RigidBodies) (p : Nat × Nat) (h : react_pair s p = .ok s')
    (id : Nat) (hdel : s.deleted id = false) (hdis : s.disabled id = false) :
    (s'.forces id).x = (s.forces id).x + (pair_push s id p).x ∧
    (s'.forces id).y = (s.forces id).y + (pair_push s id p).y := by
  unfold react_pair at h
  simp only [bind, Except.bind] at h
  cases h1 : rigid_bodies_apply_force s p.1 (vec_sum (s.velocities p.2) (s.movements p.2)) with
  | error e => rw [h1] at h; cases h
  | ok t =>
    rw [h1] at h
    have hsh := apply_force_shape _ _ _ _ h1
    have hfo := apply_force_forcesOnly _ _ _ _ h1
    have hv : t.velocities = s.velocities := by rw [hfo]
    have hm : t.movements = s.movements := by rw [hfo]
    have e1 := apply_force_at _ _ _ _ h1 id hdel hdis
    have e2 := apply_force_at _ _ _ _ h id (by rw [hsh.2.2.1]; exact hdel)
      (by rw [hsh.2.2.2]; exact hdis)
    rw [e2, e1, hv, hm]
    unfold pair_push
    by_cases c1 : p.1 = id <;> by_cases c2 : p.2 = id <;>
      simp [c1, c2, vec_sum, vec, add_assoc]

theorem react_fold_at (id : Nat) (l : List (Nat × Nat)) :
    ∀ a a', a.deleted id = false → a.disabled id = false →
      l.foldlM react_pair a = .ok a' →
      (a'.forces id).x = (a.forces id).x + (l.map fun p => (pair_push a id p).x).sum ∧
      (a'.forces id).y = (a.forces id).y + (l.map fun p => (pair_push a id p).y).sum := by
  induction l with
  | nil =>
    intro a a' _ _ hr
    simp only [List.foldlM, pure, Except.pure, Except.ok.injEq] at hr
    subst hr
    simp
  | cons p l ih =>
    intro a a' hdel hdis hr
    simp only [List.foldlM_cons, bind, Except.bind] at hr
    cases hf : react_pair a p with
    | error e => rw [hf] at hr; cases hr
    | ok t =>
      rw [hf] at hr
      have hsh := react_pair_shape a t p hf
      have hfo := react_pair_forcesOnly a t p hf
      have hpush : ∀ q, pair_push t id q = pair_push a id q := by
        intro q
        unfold pair_push
        rw [hfo]
      obtain ⟨k1, k2⟩ := react_pair_at a t p hf id hdel hdis
      obtain ⟨j1, j2⟩ := ih t a' (by rw [hsh.2.2.1]; exact hdel)
        (by rw [hsh.2.2.2]; exact hdis) hr
      simp only [hpush] at j1 j2
      simp only [List.map_cons, List.sum_cons]
      rw [j1, j2, k1, k2]
      constructor <;> ring

theorem sum_split_pair (f : Nat × Nat → ℚ) (l : List (Nat × Nat)) (p : Nat × Nat) :
    l.Nodup → p ∈ l →
      (l.map f).sum = f p + ((l.filter fun q => decide (q ≠ p)).map f).sum := by
  induction l with
  | nil => intro _ hp; cases hp
  | cons q l ih =>
    intro hn hp
    rw [List.nodup_cons] at hn
    by_cases hq : q = p
    · subst hq
      have hfil : (l.filter fun r => decide (r ≠ q)) = l := by
        rw [List.filter_eq_self]
        intro r hr
        simp only [ne_eq, decide_not, Bool.not_eq_true', decide_eq_false_iff_not]
        rintro rfl
        exact hn.1 hr
      have hd : decide (q ≠ q) = false := by simp
      rw [List.filter_cons, hd]
      simp only [Bool.false_eq_true, if_false]
      rw [hfil]
      simp
    · have hp' : p ∈ l := by
        rcases List.mem_cons.mp hp with h | h
        · exact absurd h.symm hq
        · exact h
      have := ih hn.2 hp'
      simp only [List.map_cons, List.sum_cons, List.filter_cons, ne_eq, hq, not_false_eq_true,
        decide_True, if_true]
      rw [this]
      ring

theorem detections_pos (h : List (List Event)) (a b : Nat) (hk : 1 ≤ detections h a b) :
    ∃ evs ∈ h, ∃ e ∈ evs, e.i1 = a ∧ e.i2 = b := by
  unfold detections at hk
  have hne : (h.filter fun evs => evs.any fun e => decide (e.i1 = a ∧ e.i2 = b)) ≠ [] := by
    intro h0
    rw [h0] at hk
    simp at hk
  obtain ⟨evs, hevs⟩ := List.exists_mem_of_ne_nil _ hne
  rw [List.mem_filter, List.any_eq_true] at hevs
  obtain ⟨hmem, e, he, hd⟩ := hevs
  exact ⟨evs, hmem, e, he, of_decide_eq_true hd⟩

theorem self_history_empty_store (G : Geometry) (s : RigidBodies) (hc : s.count = 0)
    (a b : Nat) : detections (self_history G s) a b = 0 := by
  unfold self_history
  rw [show (1000 : Nat) = 999 + 1 from rfl,
    scan_loop_log_no_overlap G 999 _ (fun i1 i2 _ h2 => by simp only [hc] at h2; omega)]
  simp [detections]

theorem pair_push_first (s : RigidBodies) (a b : Nat) (h : a < b) :
    pair_push s a (a, b) = vec ((s.velocities b).x + (s.movements b).x + 0)
      ((s.velocities b).y + (s.movements b).y + 0) := by
  unfold pair_push
  have hne : ¬ b = a := by omega
  simp [hne, vec_sum, vec]

theorem pair_push_second (s : RigidBodies) (a b : Nat) (h : a < b) :
    pair_push s b (a, b) = vec (0 + ((s.velocities a).x + (s.movements a).x))
      (0 + ((s.velocities a).y + (s.movements a).y)) := by
  unfold pair_push
  have hne : ¬ a = b := by omega
  simp [hne, vec_sum, vec]

/-- The self-collision pass on a store with a body: the store it returns
comes from the store after the scan loop by the reactive forces alone, and
the force of a live body grows by the pushes of all recorded pairs. -/
theorem collide_with_itself_forces (G : Geometry) (s : RigidBodies) (hc : s.count ≠ 0) :
    ∃ s', rigid_bodies_collide_with_itself G s = .ok (s', 0) ∧
      ForcesOnly (after_scans G s) s' ∧
      ∀ id, s.deleted id = false → s.disabled id = false →
        (s'.forces id).x = (s.forces id).x
          + ((after_scans G s).collided.map fun p => (pair_push (after_scans G s) id p).x).sum ∧
        (s'.forces id).y = (s.forces id).y
          + ((after_scans G s).collided.map fun p => (pair_push (after_scans G s) id p).y).sum := by
  have hp : PairsOk { s with collided := hashset_clear s.collided } := by
    intro p hp
    simp [hashset_clear] at hp
  obtain ⟨t, ht⟩ := react_returns _ (scan_loop_pairsOk G 1000 _ hp)
  have hfr := scan_loop_frame G 1000 { s with collided := hashset_clear s.collided }
  refine ⟨t, ?_, react_forcesOnly _ _ ht, ?_⟩
  · rw [collide_with_itself_unfold]
    rw [if_neg hc]
    simp only [bind, Except.bind, ht, pure, Except.pure]
  · intro id hdel hdis
    have := react_fold_at id _ (after_scans G s) t
      (by unfold after_scans; rw [hfr.2.2.1]; exact hdel)
      (by unfold after_scans; rw [hfr.2.2.2.1]; exact hdis) ht
    have hf : (after_scans G s).forces = s.forces := hfr.2.2.2.2
    rw [hf] at this
    exact this

/-- C9: when the live bodies `A` and `B` were processed as an overlapping
pair in `k ≥ 1` scans of the self-collision pass, the pair is recorded once
in the pair set, and the pass adds to `forces[A]` one copy of
`velocity[B] + movement[B]` and to `forces[B]` one copy of
`velocity[A] + movement[A]` (values after the scan loop), next to the pushes
of the other recorded pairs; `k` does not occur in the result. -/
theorem reactive_forces_once (G : Geometry) (s : RigidBodies) (A B k : Nat)
    (hA1 : s.deleted A = false) (hA2 : s.disabled A = false)
    (hB1 : s.deleted B = false) (hB2 : s.disabled B = false)
    (hk : detections (self_history G s) A B = k) (hk1 : 1 ≤ k) :
    ∃ s', rigid_bodies_collide_with_itself G s = .ok (s', 0) ∧
      s'.velocities = (after_scans G s).velocities ∧
      s'.movements = (after_scans G s).movements ∧
      s'.collided = (after_scans G s).collided ∧
      s'.collided.Nodup ∧ (A, B) ∈ s'.collided ∧
      (s'.forces A).x = (s.forces A).x + ((s'.velocities B).x + (s'.movements B).x)
        + ((s'.collided.filter fun q => decide (q ≠ (A, B))).map
            fun p => (pair_push s' A p).x).sum ∧
      (s'.forces A).y = (s.forces A).y + ((s'.velocities B).y + (s'.movements B).y)
        + ((s'.collided.filter fun q => decide (q ≠ (A, B))).map
            fun p => (pair_push s' A p).y).sum ∧
      (s'.forces B).x = (s.forces B).x + ((s'.velocities A).x + (s'.movements A).x)
        + ((s'.collided.filter fun q => decide (q ≠ (A, B))).map
            fun p => (pair_push s' B p).x).sum ∧
      (s'.forces B).y = (s.forces B).y + ((s'.velocities A).y + (s'.movements A).y)
        + ((s'.collided.filter fun q => decide (q ≠ (A, B))).map
            fun p => (pair_push s' B p).y).sum := by
  have hc : s.count ≠ 0 := by
    intro h0
    rw [self_history_empty_store G s h0] at hk
    omega
  obtain ⟨s', hs', hfo, hforces⟩ := collide_with_itself_forces G s hc
  have hv : s'.velocities = (after_scans G s).velocities := by rw [hfo]
  have hm : s'.movements = (after_scans G s).movements := by rw [hfo]
  have hcol : s'.collided = (after_scans G s).collided := by rw [hfo]
  have hpush : ∀ id q, pair_push s' id q = pair_push (after_scans G s) id q := by
    intro id q
    unfold pair_push
    rw [hv, hm]
  have hnd : (after_scans G s).collided.Nodup :=
    scan_loop_nodup G 1000 _ (by simp [hashset_clear])
  have hmem : (A, B) ∈ (after_scans G s).collided := by
    obtain ⟨evs, hevs, e, he, h1, h2⟩ := detections_pos _ A B (hk ▸ hk1)
    have := (scan_loop_log_recorded G 1000
      { s with collided := hashset_clear s.collided }).2 evs hevs e he
    rw [h1, h2, (scan_loop_log_fst G 1000 _).1] at this
    exact this
  have hlt : A < B := by
    have hp : PairsOk { s with collided := hashset_clear s.collided } := by
      intro p hp
      simp [hashset_clear] at hp
    exact (scan_loop_pairsOk G 1000 _ hp (A, B) hmem).1
  obtain ⟨fAx, fAy⟩ := hforces A hA1 hA2
  obtain ⟨fBx, fBy⟩ := hforces B hB1 hB2
  refine ⟨s', hs', hv, hm, hcol, hcol ▸ hnd, hcol ▸ hmem, ?_, ?_, ?_, ?_⟩
  · rw [fAx, sum_split_pair _ _ (A, B) hnd hmem, pair_push_first _ A B hlt]
    simp only [hpush, hcol, hv, hm, vec]
    ring
  · rw [fAy, sum_split_pair _ _ (A, B) hnd hmem, pair_push_first _ A B hlt]
    simp only [hpush, hcol, hv, hm, vec]
    ring
  · rw [fBx, sum_split_pair _ _ (A, B) hnd hmem, pair_push_second _ A B hlt]
    simp only [hpush, hcol, hv, hm, vec]
    ring
  · rw [fBy, sum_split_pair _ _ (A, B) hnd hmem, pair_push_second _ A B hlt]
    simp only [hpush, hcol, hv, hm, vec]
    ring

/-! ## Evaluation on the two live bodies of `twoLive` -/

theorem scan_log_two (G : Geometry) (s : RigidBodies) (hc : s.count = 2)
    (hdel : s.deleted 0 = false) (hdis : s.disabled 0 = false) :
    scan_log G s = collide_pair_log G 0 1 ((s, false), []) := by
  unfold scan_log scan_row_log
  simp [hc, hdel, hdis, List.range_succ, List.range'_succ]

theorem scan_loop_log_stop (G : Geometry) (fuel : Nat) (s : RigidBodies)
    (h : (scan_log G s).1.2 = false) :
    scan_loop_log G (fuel + 1) s = ((scan_log G s).1.1, [(scan_log G s).2]) := by
  simp [scan_loop_log, h]

theorem scan_loop_log_next (G : Geometry) (fuel : Nat) (s : RigidBodies)
    (h : (scan_log G s).1.2 = true) :
    scan_loop_log G (fuel + 1) s
      = ((scan_loop_log G fuel (scan_log G s).1.1).1,
         (scan_log G s).2 :: (scan_loop_log G fuel (scan_log G s).1.1).2) := by
  simp [scan_loop_log, h]

theorem twoLive_run :
    (scan_loop_log slowGeometry 1000 { twoLive with collided := hashset_clear twoLive.collided }).2
      = [[⟨0, 1, vec 0 1⟩], [⟨0, 1, vec 0 1⟩], []] ∧
    (scan_loop_log slowGeometry 1000
      { twoLive with collided := hashset_clear twoLive.collided }).1.collided = [(0, 1)] ∧
    (scan_loop_log slowGeometry 1000
      { twoLive with collided := hashset_clear twoLive.collided }).1.velocities 1 = vec 0 4 ∧
    (scan_loop_log slowGeometry 1000
      { twoLive with collided := hashset_clear twoLive.collided }).1.movements 1 = vec 0 6 ∧
    (scan_loop_log slowGeometry 1000
      { twoLive with collided := hashset_clear twoLive.collided }).1.velocities 0 = vec 0 2 ∧
    (scan_loop_log slowGeometry 1000
      { twoLive with collided := hashset_clear twoLive.collided }).1.movements 0 = vec 0 0 := by
  have e1 := scan_log_two slowGeometry
    { twoLive with collided := hashset_clear twoLive.collided } rfl rfl rfl
  have f1 : (scan_log slowGeometry
      { twoLive with collided := hashset_clear twoLive.collided }).1.2 = true := by
    rw [e1]
    norm_num [collide_pair_log, collide_pair, twoLive, create_rigid_bodies, slowGeometry, vec,
      Function.update]
  rw [show (1000 : Nat) = 999 + 1 from rfl, scan_loop_log_next _ _ _ f1]
  have hfr1 := scan_frame slowGeometry { twoLive with collided := hashset_clear twoLive.collided }
  rw [← scan_log_fst] at hfr1
  have e2 := scan_log_two slowGeometry _ hfr1.2.1 (by rw [hfr1.2.2.1]; rfl)
    (by rw [hfr1.2.2.2.1]; rfl)
  have f2 : (scan_log slowGeometry (scan_log slowGeometry
      { twoLive with collided := hashset_clear twoLive.collided }).1.1).1.2 = true := by
    rw [e2, e1]
    norm_num [collide_pair_log, collide_pair, twoLive, create_rigid_bodies, slowGeometry, vec,
      Function.update]
  rw [show (999 : Nat) = 998 + 1 from rfl, scan_loop_log_next _ _ _ f2]
  have hfr2 := scan_frame slowGeometry (scan_log slowGeometry
      { twoLive with collided := hashset_clear twoLive.collided }).1.1
  rw [← scan_log_fst] at hfr2
  have hfr12 := scanFrame_trans hfr1 hfr2
  have e3 := scan_log_two slowGeometry _ hfr12.2.1 (by rw [hfr12.2.2.1]; rfl)
    (by rw [hfr12.2.2.2.1]; rfl)
  have f3 : (scan_log slowGeometry (scan_log slowGeometry (scan_log slowGeometry
      { twoLive with collided := hashset_clear twoLive.collided }).1.1).1.1).1.2 = false := by
    rw [e3, e2, e1]
    norm_num [collide_pair_log, collide_pair, twoLive, create_rigid_bodies, slowGeometry, vec,
      Function.update]
  rw [show (998 : Nat) = 997 + 1 from rfl, scan_loop_log_stop _ _ _ f3]
  simp only
  rw [e3, e2, e1]
  refine ⟨?_, ?_, ?_, ?_, ?_, ?_⟩ <;>
    norm_num [collide_pair_log, collide_pair, pair_event, twoLive, create_rigid_bodies,
      slowGeometry, vec, Function.update, hashset_insert, hashset_clear]

/-- Witness of `reactive_forces_once`: with `slowGeometry` the two bodies
of `twoLive` are processed as an overlapping pair in two scans; the pair set
holds the pair once, and the pass adds `(0, 4) + (0, 6)` to `forces[0]` and
`(0, 2) + (0, 0)` to `forces[1]` once. -/
theorem reactive_forces_once_witness :
    detections (self_history slowGeometry twoLive) 0 1 = 2 ∧
    ∃ s', rigid_bodies_collide_with_itself slowGeometry twoLive = .ok (s', 0) ∧
      s'.collided = [(0, 1)] ∧
      (s'.forces 0).x = 0 ∧ (s'.forces 0).y = 10 ∧
      (s'.forces 1).x = 0 ∧ (s'.forces 1).y = 2 := by
  obtain ⟨hh, hcol, hv1, hm1, hv0, hm0⟩ := twoLive_run
  have hk : detections (self_history slowGeometry twoLive) 0 1 = 2 := by
    unfold self_history
    rw [hh]
    simp [detections]
  rw [(scan_loop_log_fst slowGeometry 1000 _).1] at hcol hv1 hm1 hv0 hm0
  obtain ⟨s', hs', hv, hm, hc, _, _, fAx, fAy, fBx, fBy⟩ :=
    reactive_forces_once slowGeometry twoLive 0 1 2 rfl rfl rfl rfl hk (by decide)
  have hc' : s'.collided = [(0, 1)] := hc.trans hcol
  have w1 : s'.velocities 1 = vec 0 4 := by rw [hv]; exact hv1
  have w2 : s'.movements 1 = vec 0 6 := by rw [hm]; exact hm1
  have w3 : s'.velocities 0 = vec 0 2 := by rw [hv]; exact hv0
  have w4 : s'.movements 0 = vec 0 0 := by rw [hm]; exact hm0
  refine ⟨hk, s', hs', hc', ?_, ?_, ?_, ?_⟩
  · rw [fAx, hc', w1, w2]; norm_num [twoLive, create_rigid_bodies, vec]
  · rw [fAy, hc', w1, w2]; norm_num [twoLive, create_rigid_bodies, vec]
  · rw [fBx, hc', w3, w4]; norm_num [twoLive, create_rigid_bodies, vec]
  · rw [fBy, hc', w3, w4]; norm_num [twoLive, create_rigid_bodies, vec]

/-- Witness of `collide_grounded`: the two bodies of `apartStore` do not
overlap and there is no platform; both were flagged grounded before the call
and neither is after it. -/
theorem collide_grounded_witness :
    apartStore.grounded 0 = true ∧ apartStore.grounded 1 = true ∧
    ∃ r, rigid_bodies_collide sampleGeometry emptyPlatforms apartStore = .ok (r, 0) ∧
      r.grounded 0 = false ∧ r.grounded 1 = false := by
  obtain ⟨r, hr, _, h3⟩ := collide_grounded sampleGeometry emptyPlatforms apartStore
  have hno : ∀ i1 i2, i1 < i2 → i2 < apartStore.count →
      sampleGeometry.rects_overlap (apartStore.bodies i1) (apartStore.bodies i2) = false := by
    intro i1 i2 h1 h2
    have hc : apartStore.count = 2 := rfl
    have e2 : i2 = 1 := by omega
    have e1 : i1 = 0 := by omega
    subst e1 e2
    norm_num [apartStore, create_rigid_bodies, sampleGeometry, Function.update]
  exact ⟨rfl, rfl, r, hr, h3 hno (fun _ => rfl) 0 (by decide), h3 hno (fun _ => rfl) 1 (by decide)⟩

/-! ## Slots that the collision passes leave alone -/

theorem sameBody_refl (s : RigidBodies) (id : Nat) : SameBody s s id :=
  ⟨rfl, rfl, rfl, rfl, rfl⟩

theorem sameBody_trans {s t u : RigidBodies} {id : Nat} (h1 : SameBody s t id)
    (h2 : SameBody t u id) : SameBody s u id := by
  obtain ⟨a1, a2, a3, a4, a5⟩ := h1
  obtain ⟨b1, b2, b3, b4, b5⟩ := h2
  exact ⟨b1.trans a1, b2.trans a2, b3.trans a3, b4.trans a4, b5.trans a5⟩

theorem untouchable_of_shape {s t : RigidBodies} {id : Nat} (h : Shape s t)
    (hu : Untouchable s id) : Untouchable t id := by
  unfold Untouchable at *
  rw [h.2.1, h.2.2.1]
  exact hu

/-- The body of the innermost loop writes to the slots `i1` and `i2` only. -/
theorem collide_pair_other (G : Geometry) (i1 i2 : Nat) (st : RigidBodies × Bool) (id : Nat)
    (h1 : id ≠ i1) (h2 : id ≠ i2) : SameBody st.1 (collide_pair G i1 i2 st).1 id := by
  unfold collide_pair
  simp only
  split
  · exact sameBody_refl _ _
  · split
    · exact sameBody_refl _ _
    · refine ⟨?_, ?_, ?_, ?_, rfl⟩
      · simp [Function.update, h1, h2]
      · simp [Function.update, h1, h2]
      · simp [Function.update, h1, h2]
      · simp only
        split
        · split <;> simp [Function.update, h1, h2]
        · rfl

theorem collide_pair_deleted (G : Geometry) (i1 i2 : Nat) (st : RigidBodies × Bool)
    (h : st.1.deleted i2 = true) : collide_pair G i1 i2 st = st := by
  unfold collide_pair
  simp [h]

theorem scan_row_untouched (G : Geometry) (i1 : Nat) (st : RigidBodies × Bool) (id : Nat)
    (hu : Untouchable st.1 id) : SameBody st.1 (scan_row G i1 st).1 id := by
  unfold scan_row
  split
  · exact sameBody_refl _ _
  · rename_i hlive
    refine (foldl_preserves
      (fun acc : RigidBodies × Bool => ScanFrame st.1 acc.1 ∧ SameBody st.1 acc.1 id) _ _ ?_ st
      ⟨scanFrame_refl _, sameBody_refl _ _⟩).2
    intro a b hb ha
    have hfr := collide_pair_frame G i1 b a
    refine ⟨scanFrame_trans ha.1 hfr, ?_⟩
    rw [List.mem_range'_1] at hb
    rcases hu with hu | hu
    · exact sameBody_trans ha.2 (collide_pair_other G i1 b a id (by omega) (by omega))
    · by_cases hb2 : id = b
      · subst hb2
        rw [collide_pair_deleted G i1 id a (by rw [ha.1.2.2.1]; exact hu)]
        exact ha.2
      · have h1 : id ≠ i1 := by
          rintro rfl
          simp [hu] at hlive
        exact sameBody_trans ha.2 (collide_pair_other G i1 b a id h1 hb2)

theorem scan_untouched (G : Geometry) (s : RigidBodies) (id : Nat) (hu : Untouchable s id) :
    SameBody s (scan G s).1 id := by
  unfold scan
  refine (foldl_preserves
    (fun acc : RigidBodies × Bool => ScanFrame s acc.1 ∧ SameBody s acc.1 id) _ _ ?_ (s, false)
    ⟨scanFrame_refl _, sameBody_refl _ _⟩).2
  intro a b _ ha
  exact ⟨scanFrame_trans ha.1 (scan_row_frame G b a),
    sameBody_trans ha.2
      (scan_row_untouched G b a id (untouchable_of_shape (scanFrame_shape ha.1) hu))⟩

theorem scan_loop_untouched (G : Geometry) (fuel : Nat) :
    ∀ s id, Untouchable s id → SameBody s (scan_loop G fuel s).1 id := by
  induction fuel with
  | zero => intro s id _; exact sameBody_refl _ _
  | succ n ih =>
    intro s id hu
    simp only [scan_loop]
    split
    · exact sameBody_trans (scan_untouched G s id hu)
        (ih _ id (untouchable_of_shape (scanFrame_shape (scan_frame G s)) hu))
    · exact scan_untouched G s id hu

theorem apply_force_untouched (s s' : RigidBodies) (j : Nat) (force : Vec)
    (h : rigid_bodies_apply_force s j force = .ok s') (id : Nat)
    (hu : Untouchable s id ∨ s.disabled id = true) : SameBody s s' id := by
  have hfo := apply_force_forcesOnly s s' j force h
  have hf : s'.forces id = s.forces id := by
    unfold rigid_bodies_apply_force at h
    split at h
    · cases h
    · rename_i hj
      split at h
      · cases h; rfl
      · rename_i hlive
        cases h
        have hne : id ≠ j := by
          rintro rfl
          rcases hu with (hu | hu) | hu
          · omega
          · simp [hu] at hlive
          · simp [hu] at hlive
        simp [Function.update, hne]
  rw [hfo]
  exact ⟨rfl, rfl, rfl, rfl, hf⟩

theorem react_untouched (s s' : RigidBodies) (h : react s = .ok s') (id : Nat)
    (hu : Untouchable s id ∨ s.disabled id = true) : SameBody s s' id := by
  unfold react at h
  refine (foldlM_preserves (fun a : RigidBodies => Shape s a ∧ SameBody s a id) react_pair _ ?_
    s s' ⟨shape_refl _, sameBody_refl _ _⟩ h).2
  intro a p a' _ ha hf
  refine ⟨shape_trans ha.1 (react_pair_shape a a' p hf), sameBody_trans ha.2 ?_⟩
  have hu' : Untouchable a id ∨ a.disabled id = true := by
    rcases hu with hu | hu
    · exact Or.inl (untouchable_of_shape ha.1 hu)
    · exact Or.inr (by rw [ha.1.2.2.2]; exact hu)
  unfold react_pair at hf
  simp only [bind, Except.bind] at hf
  cases h1 : rigid_bodies_apply_force a p.1 (vec_sum (a.velocities p.2) (a.movements p.2)) with
  | error e => rw [h1] at hf; cases hf
  | ok t =>
    rw [h1] at hf
    have hsh := apply_force_shape _ _ _ _ h1
    have hu2 : Untouchable t id ∨ t.disabled id = true := by
      rcases hu' with hu' | hu'
      · exact Or.inl (untouchable_of_shape hsh hu')
      · exact Or.inr (by rw [hsh.2.2.2]; exact hu')
    exact sameBody_trans (apply_force_untouched _ _ _ _ h1 id hu')
      (apply_force_untouched _ _ _ _ hf id hu2)

theorem damper_lt (s s' : RigidBodies) (id : Nat) (v : Vec)
    (h : rigid_bodies_damper s id v = .ok s') : id < s.count := by
  unfold rigid_bodies_damper at h
  split at h
  · cases h
  · rename_i hi
    exact not_not.mp hi

theorem platform_body_untouched (P : Platforms) (s s' : RigidBodies) (i : Nat)
    (h : platform_body P s i = .ok s') (id : Nat)
    (hu : Untouchable s id ∨ s.disabled id = true) : SameBody s s' id := by
  by_cases hskip : (s.deleted id || s.disabled id) = true
  · obtain ⟨k1, k2, k3, k4, k5⟩ := platform_body_skips P s s' i h id hskip
    exact ⟨k5, k1, k2, k3, k4⟩
  · have hcount : s.count ≤ id := by
      rcases hu with (hu | hu) | hu
      · exact hu
      · simp [hu] at hskip
      · simp [hu] at hskip
    unfold platform_body at h
    split at h
    · cases h; exact sameBody_refl _ _
    · have hi : i < s.count := by
        have hlt := damper_lt _ _ _ _ h
        exact hlt
      have hne : id ≠ i := by omega
      obtain ⟨hfo, hoth⟩ := damper_forcesOnly _ _ _ _ h
      rw [hfo]
      refine ⟨?_, ?_, ?_, ?_, hoth id hne⟩
      · simp [Function.update, hne]
      · simp [Function.update, hne]
      · simp [Function.update, hne]
      · simp only
        split <;> simp [Function.update, hne]

theorem collide_with_platforms_untouched (P : Platforms) (s : RigidBodies)
    (r : RigidBodies × Int) (h : rigid_bodies_collide_with_platforms P s = .ok r) (id : Nat)
    (hu : Untouchable s id ∨ s.disabled id = true) : SameBody s r.1 id := by
  unfold rigid_bodies_collide_with_platforms at h
  simp only [bind, Except.bind, pure, Except.pure] at h
  cases hr : List.foldlM (platform_body P) s (List.range s.count) with
  | error e => rw [hr] at h; cases h
  | ok t =>
    rw [hr] at h
    cases h
    refine (foldlM_preserves (fun a : RigidBodies => Shape s a ∧ SameBody s a id)
      (platform_body P) _ ?_ s t ⟨shape_refl _, sameBody_refl _ _⟩ hr).2
    intro a b a' _ ha hf
    refine ⟨shape_trans ha.1 (platform_body_shape P a a' b hf), sameBody_trans ha.2 ?_⟩
    refine platform_body_untouched P a a' b hf id ?_
    rcases hu with hu | hu
    · exact Or.inl (untouchable_of_shape ha.1 hu)
    · exact Or.inr (by rw [ha.1.2.2.2]; exact hu)

theorem collide_with_itself_untouched (G : Geometry) (s : RigidBodies)
    (r : RigidBodies × Int) (h : rigid_bodies_collide_with_itself G s = .ok r) (id : Nat)
    (hu : Untouchable s id) : SameBody s r.1 id := by
  rw [collide_with_itself_unfold] at h
  split at h
  · cases h; exact sameBody_refl _ _
  · simp only [bind, Except.bind, pure, Except.pure] at h
    cases hr : react (scan_loop G 1000 { s with collided := hashset_clear s.collided }).1 with
    | error e => rw [hr] at h; cases h
    | ok t =>
      rw [hr] at h
      cases h
      have h0 : SameBody s { s with collided := hashset_clear s.collided } id :=
        ⟨rfl, rfl, rfl, rfl, rfl⟩
      have hu0 : Untouchable { s with collided := hashset_clear s.collided } id := hu
      have h1 := scan_loop_untouched G 1000 _ id hu0
      have hu1 := untouchable_of_shape (scanFrame_shape (scan_loop_frame G 1000
        { s with collided := hashset_clear s.collided })) hu0
      exact sameBody_trans (sameBody_trans h0 h1) (react_untouched _ _ hr id (Or.inl hu1))

theorem collide_with_itself_forces_disabled (G : Geometry) (s : RigidBodies)
    (r : RigidBodies × Int) (h : rigid_bodies_collide_with_itself G s = .ok r) (id : Nat)
    (hd : s.disabled id = true) : r.1.forces id = s.forces id := by
  rw [collide_with_itself_unfold] at h
  split at h
  · cases h; rfl
  · simp only [bind, Except.bind, pure, Except.pure] at h
    cases hr : react (scan_loop G 1000 { s with collided := hashset_clear s.collided }).1 with
    | error e => rw [hr] at h; cases h
    | ok t =>
      rw [hr] at h
      cases h
      have hfr := scan_loop_frame G 1000 { s with collided := hashset_clear s.collided }
      have h2 := react_untouched _ _ hr id (Or.inr (by rw [hfr.2.2.2.1]; exact hd))
      rw [h2.2.2.2.2, hfr.2.2.2.2]

/-- A slot that is not in use and the body of a deleted id are left alone
by `rigid_bodies_collide`, but for the grounded flag that the `memset`
clears; the forces of a disabled body are left alone as well. -/
theorem collide_untouched (G : Geometry) (P : Platforms) (s : RigidBodies)
    (r : RigidBodies × Int) (h : rigid_bodies_collide G P s = .ok r) (id : Nat) :
    (Untouchable s id →
      r.1.bodies id = s.bodies id ∧ r.1.velocities id = s.velocities id ∧
      r.1.movements id = s.movements id ∧ r.1.forces id = s.forces id ∧
      r.1.grounded id = if id < s.count then false else s.grounded id) ∧
    (s.disabled id = true → r.1.forces id = s.forces id) := by
  obtain ⟨s1, s2, h1, h2, h3⟩ := collide_eq G P s
  rw [h3] at h
  cases h
  have hsh1 := (collide_with_itself_shape G _ _ h1).1
  constructor
  · intro hu
    have hu0 : Untouchable
        { s with grounded := fun i => if i < s.count then false else s.grounded i } id := hu
    have k1 := collide_with_itself_untouched G _ _ h1 id hu0
    have k2 := collide_with_platforms_untouched P s1 _ h2 id
      (Or.inl (untouchable_of_shape hsh1 hu0))
    obtain ⟨a1, a2, a3, a4, a5⟩ := sameBody_trans k1 k2
    exact ⟨a1, a2, a3, a5, a4⟩
  · intro hd
    have k1 := collide_with_itself_forces_disabled G _ _ h1 id hd
    have k2 := collide_with_platforms_untouched P s1 _ h2 id
      (Or.inr (by rw [hsh1.2.2.2]; exact hd))
    rw [k2.2.2.2.2, k1]

/-! ## Slots that are not in use -/

theorem unusedZero_of_sameBody {s s' : RigidBodies} (hc : s'.count = s.count)
    (hd : s'.disabled = s.disabled) (h : ∀ id, s.count ≤ id → SameBody s s' id)
    (hz : UnusedZero s) : UnusedZero s' := by
  intro id hid
  rw [hc] at hid
  obtain ⟨_, a2, a3, a4, a5⟩ := h id hid
  obtain ⟨z1, z2, z3, z4, z5⟩ := hz id hid
  exact ⟨a2.trans z1, a3.trans z2, a5.trans z3, a4.trans z4, by rw [hd]; exact z5⟩

theorem apply_omniforce_untouched (s s' : RigidBodies) (force : Vec)
    (h : rigid_bodies_apply_omniforce s force = .ok s') (id : Nat) (hid : s.count ≤ id) :
    SameBody s s' id := by
  unfold rigid_bodies_apply_omniforce at h
  refine (foldlM_preserves (fun a : RigidBodies => Shape s a ∧ SameBody s a id)
    (fun acc i => rigid_bodies_apply_force acc i force) _ ?_ s s'
    ⟨shape_refl _, sameBody_refl _ _⟩ h).2
  intro a b a' _ ha hf
  refine ⟨shape_trans ha.1 (apply_force_shape a a' b force hf), sameBody_trans ha.2 ?_⟩
  exact apply_force_untouched a a' b force hf id
    (Or.inl (untouchable_of_shape ha.1 (Or.inl hid)))

theorem step_unusedZero (G : Geometry) (s s' : RigidBodies) (op : Op)
    (h : step G s op = .ok s') (hz : UnusedZero s) : UnusedZero s' := by
  cases op with
  | add rect =>
    simp only [step, rigid_bodies_add] at h
    split at h
    · cases h
    · cases h
      intro id hid
      exact hz id (by simp only at hid; omega)
  | remove id =>
    simp only [step, rigid_bodies_remove] at h
    split at h
    · cases h
    · cases h; exact hz
  | hitbox id =>
    simp only [step, rigid_bodies_hitbox] at h
    split at h
    · cases h
    · cases h; exact hz
  | move id movement =>
    simp only [step, rigid_bodies_move] at h
    split at h
    · cases h
    · rename_i hlt
      split at h
      · cases h; exact hz
      · cases h
        intro j hj
        have hne : j ≠ id := by simp only at hj; omega
        obtain ⟨z1, z2, z3, z4, z5⟩ := hz j hj
        exact ⟨z1, by simp [Function.update, hne, z2], z3, z4, z5⟩
  | touches_ground id =>
    simp only [step, rigid_bodies_touches_ground] at h
    split at h
    · cases h
    · cases h; exact hz
  | apply_omniforce force =>
    have hsh := apply_omniforce_shape s s' force h
    exact unusedZero_of_sameBody hsh.2.1 hsh.2.2.2
      (fun j hj => apply_omniforce_untouched s s' force h j hj) hz
  | apply_force id force =>
    have hsh := apply_force_shape s s' id force h
    exact unusedZero_of_sameBody hsh.2.1 hsh.2.2.2
      (fun j hj => apply_force_untouched s s' id force h j (Or.inl (Or.inl hj))) hz
  | transform_velocity id trans_mat =>
    simp only [step, rigid_bodies_transform_velocity] at h
    split at h
    · cases h
    · rename_i hlt
      split at h
      · cases h; exact hz
      · cases h
        intro j hj
        have hne : j ≠ id := by simp only at hj; omega
        obtain ⟨z1, z2, z3, z4, z5⟩ := hz j hj
        exact ⟨by simp [Function.update, hne, z1], z2, z3, z4, z5⟩
  | teleport_to id position =>
    simp only [step, rigid_bodies_teleport_to] at h
    split at h
    · cases h
    · split at h <;> (cases h; exact hz)
  | damper id v =>
    have hsh := damper_shape s s' id v h
    have hlt := damper_lt s s' id v h
    obtain ⟨hfo, hoth⟩ := damper_forcesOnly s s' id v h
    intro j hj
    rw [hsh.2.1] at hj
    obtain ⟨z1, z2, z3, z4, z5⟩ := hz j hj
    rw [hfo]
    exact ⟨z1, z2, (hoth j (by omega)).trans z3, z4, z5⟩
  | disable id disabled =>
    simp only [step, rigid_bodies_disable] at h
    split at h
    · cases h
    · rename_i hlt
      cases h
      intro j hj
      have hne : j ≠ id := by simp only at hj; omega
      obtain ⟨z1, z2, z3, z4, z5⟩ := hz j hj
      exact ⟨z1, z2, z3, z4, by simp [Function.update, hne, z5]⟩
  | update id delta_time =>
    simp only [step] at h
    split at h
    · cases h
      unfold rigid_bodies_update
      split
      · exact hz
      · intro j hj
        obtain ⟨z1, z2, z3, z4, z5⟩ := hz j hj
        by_cases hne : j = id
        · subst hne
          simp [z1, z3, z2, z4, z5, vec_sum, vec_scala_mult, vec]
        · simp [Function.update, hne, z1, z2, z3, z4, z5]
    · cases h
  | collide P =>
    simp only [step] at h
    cases hc : rigid_bodies_collide G P s with
    | error e => rw [hc] at h; cases h
    | ok r =>
      rw [hc] at h
      cases h
      have hsh := collide_shape G P s r hc
      intro j hj
      rw [hsh.2.1] at hj
      obtain ⟨z1, z2, z3, z4, z5⟩ := hz j hj
      obtain ⟨_, a2, a3, a4, a5⟩ := (collide_untouched G P s r hc j).1 (Or.inl hj)
      refine ⟨a2.trans z1, a3.trans z2, a4.trans z3, ?_, by rw [hsh.2.2.2]; exact z5⟩
      rw [a5, if_neg (by omega)]
      exact z4

theorem reachable_unusedZero (G : Geometry) (s : RigidBodies) (h : Reachable G s) :
    UnusedZero s := by
  induction h with
  | create capacity => intro id _; exact ⟨rfl, rfl, rfl, rfl, rfl⟩
  | step s s' op _ hstep ih => exact step_unusedZero G s s' op hstep ih

/-- On a reachable store with `count < capacity`, the body created by
`rigid_bodies_add` has the given rectangle, zero velocity, movement and
forces, and is neither grounded nor disabled; its deleted flag is the one
the slot held before the call. -/
theorem add_on_reachable (G : Geometry) (s : RigidBodies) (rect : Rect)
    (hr : Reachable G s) (hlt : s.count < s.capacity) :
    ∃ s', rigid_bodies_add s rect = .ok (s', s.count) ∧
      s'.bodies s.count = rect ∧ s'.velocities s.count = vec 0 0 ∧
      s'.movements s.count = vec 0 0 ∧ s'.forces s.count = vec 0 0 ∧
      s'.grounded s.count = false ∧ s'.disabled s.count = false ∧
      s'.deleted s.count = s.deleted s.count := by
  obtain ⟨z1, z2, z3, z4, z5⟩ := reachable_unusedZero G s hr s.count (Nat.le_refl _)
  refine ⟨{ s with count := s.count + 1, bodies := Function.update s.bodies s.count rect },
    ?_, ?_, z1, z2, z3, z4, z5, rfl⟩
  · simp [rigid_bodies_add, hlt]
  · simp

/-- The operations that assert `id < count` fail on every `id ≥ count`. -/
theorem asserting_operations_reject (s : RigidBodies) (id : Nat) (h : s.count ≤ id)
    (u v : Vec) (trans_mat : Vec → Vec) (flag : Bool) :
    rigid_bodies_hitbox s id = .error .assertion ∧
    rigid_bodies_move s id u = .error .assertion ∧
    rigid_bodies_touches_ground s id = .error .assertion ∧
    rigid_bodies_apply_force s id u = .error .assertion ∧
    rigid_bodies_transform_velocity s id trans_mat = .error .assertion ∧
    rigid_bodies_teleport_to s id u = .error .assertion ∧
    rigid_bodies_damper s id v = .error .assertion ∧
    rigid_bodies_disable s id flag = .error .assertion := by
  have hn : ¬ id < s.count := by omega
  refine ⟨?_, ?_, ?_, ?_, ?_, ?_, ?_, ?_⟩
  · simp [rigid_bodies_hitbox, hn]
  · simp [rigid_bodies_move, hn]
  · simp [rigid_bodies_touches_ground, hn]
  · simp [rigid_bodies_apply_force, hn]
  · simp [rigid_bodies_transform_velocity, hn]
  · simp [rigid_bodies_teleport_to, hn]
  · simp [rigid_bodies_damper, hn]
  · simp [rigid_bodies_disable, hn]

/-! ## The bound on the number of scans -/

theorem scan_loop_run (G : Geometry) (fuel : Nat) :
    ∀ s, (scan_loop G fuel s).2 ≤ fuel ∧
      (scan_loop G fuel s).1 = scan_iter G (scan_loop G fuel s).2 s ∧
      (∀ j, j + 1 < (scan_loop G fuel s).2 → (scan G (scan_iter G j s)).2 = true) ∧
      ((scan_loop G fuel s).2 < fuel →
        (scan G (scan_iter G ((scan_loop G fuel s).2 - 1) s)).2 = false) ∧
      (∀ j, j < fuel → (scan G (scan_iter G j s)).2 = false →
        (scan_loop G fuel s).2 ≤ j + 1) ∧
      (0 < fuel → 1 ≤ (scan_loop G fuel s).2) := by
  induction fuel with
  | zero =>
    intro s
    refine ⟨Nat.le_refl _, rfl, ?_, ?_, ?_, ?_⟩
    · intro j hj; simp [scan_loop] at hj
    · intro h; simp [scan_loop] at h
    · intro j hj; omega
    · intro h; omega
  | succ n ih =>
    intro s
    obtain ⟨k1, k2, k3, k4, k5, _⟩ := ih (scan G s).1
    cases hflag : (scan G s).2 with
    | false =>
      rw [scan_loop_stop G n s hflag]
      refine ⟨by simp, rfl, ?_, ?_, ?_, ?_⟩
      · intro j hj; simp at hj
      · intro _; exact hflag
      · intro j _ _; simp
      · intro _; simp
    | true =>
      rw [scan_loop_next G n s hflag]
      refine ⟨by simp only; omega, ?_, ?_, ?_, ?_, ?_⟩
      · simp only [scan_iter]
        exact k2
      · intro j hj
        simp only at hj
        cases j with
        | zero => exact hflag
        | succ j => exact k3 j (by omega)
      · intro h
        simp only at h ⊢
        have h' := k4 (by omega)
        cases hN : (scan_loop G n (scan G s).1).2 with
        | zero =>
          exfalso
          rw [hN] at k2
          cases n with
          | zero => omega
          | succ m =>
            have := (ih (scan G s).1).2.2.2.2.2 (by omega)
            omega
        | succ m =>
          rw [hN] at h'
          simpa [scan_iter] using h'
      · intro j hj hf
        simp only
        cases j with
        | zero =>
          simp only [scan_iter] at hf
          rw [hflag] at hf
          cases hf
        | succ j =>
          have := k5 j (by omega) hf
          omega
      · intro _; simp

theorem collide_pair_flag (G : Geometry) (i1 i2 : Nat)
    (st : (RigidBodies × Bool) × List Event) (h : st.1.2 = true ↔ st.2 ≠ []) :
    (collide_pair_log G i1 i2 st).1.2 = true ↔ (collide_pair_log G i1 i2 st).2 ≠ [] := by
  unfold collide_pair_log collide_pair pair_event
  simp only
  split
  · simpa using h
  · split
    · simpa using h
    · simp

theorem scan_log_flag (G : Geometry) (s : RigidBodies) :
    (scan_log G s).1.2 = true ↔ (scan_log G s).2 ≠ [] := by
  unfold scan_log
  refine foldl_preserves
    (fun acc : (RigidBodies × Bool) × List Event => acc.1.2 = true ↔ acc.2 ≠ []) _ _ ?_
    ((s, false), []) (by simp)
  intro a b _ ha
  unfold scan_row_log
  split
  · exact ha
  · exact foldl_preserves
      (fun acc : (RigidBodies × Bool) × List Event => acc.1.2 = true ↔ acc.2 ≠ []) _ _
      (fun a' c _ ha' => collide_pair_flag G b c a' ha') a ha

theorem scan_flag_events (G : Geometry) (s : RigidBodies) :
    ((scan G s).2 = true ↔ (scan_log G s).2 ≠ []) ∧
    ((scan G s).2 = false ↔ (scan_log G s).2 = []) := by
  have h := scan_log_flag G s
  rw [scan_log_fst] at h
  refine ⟨h, ?_⟩
  constructor
  · intro hf
    by_contra hne
    rw [h.mpr hne] at hf
    cases hf
  · intro he
    cases hf : (scan G s).2 with
    | false => rfl
    | true => exact absurd he (h.mp hf)

theorem scan_iter_frame (G : Geometry) (n : Nat) : ∀ s, ScanFrame s (scan_iter G n s) := by
  induction n with
  | zero => intro s; exact scanFrame_refl _
  | succ n ih =>
    intro s
    simp only [scan_iter]
    exact scanFrame_trans (scan_frame G s) (ih _)

/-- C11: for every geometry and store the body of `rigid_bodies_collide_with_itself`
returns a store together with its number of scans `N` (the final value of the loop
variable), and the pass returns that store with code 0.  `N` is at most 1000; on an
empty store no scan runs and the store is returned as it is; on a store with a body
at least one scan runs, the returned store is the reactive forces applied to the
`N`-fold scan of the store with its pair set cleared, every scan before the last one
set the collision flag (it processed an overlapping pair), a pass that ends below the
bound ends on a scan that left the flag clear (it processed no pair), and the first
scan that processes no pair is the last one.  `rigid_bodies_collide` returns code 0
as well, for every geometry. -/
theorem self_collision_scans (G : Geometry) (P : Platforms) (s : RigidBodies) :
    (∃ s' N, collide_with_itself_run G s = .ok (s', N) ∧
      rigid_bodies_collide_with_itself G s = .ok (s', 0) ∧
      N ≤ 1000 ∧
      (s.count = 0 → N = 0 ∧ s' = s) ∧
      (s.count ≠ 0 →
        1 ≤ N ∧
        react (scan_iter G N { s with collided := hashset_clear s.collided }) = .ok s' ∧
        (∀ j, j + 1 < N →
          (scan G (scan_iter G j { s with collided := hashset_clear s.collided })).2 = true ∧
          (scan_log G (scan_iter G j { s with collided := hashset_clear s.collided })).2
            ≠ []) ∧
        (N < 1000 →
          (scan G (scan_iter G (N - 1)
            { s with collided := hashset_clear s.collided })).2 = false ∧
          (scan_log G (scan_iter G (N - 1)
            { s with collided := hashset_clear s.collided })).2 = []) ∧
        (∀ j, j < 1000 →
          (scan_log G (scan_iter G j { s with collided := hashset_clear s.collided })).2
            = [] →
          N ≤ j + 1))) ∧
    (∃ r, rigid_bodies_collide G P s = .ok (r, 0)) := by
  refine ⟨?_, ?_⟩
  · by_cases hc : s.count = 0
    · obtain ⟨h1, h2⟩ := collide_with_itself_run_empty G s hc
      exact ⟨s, 0, h1, h2, by omega, fun _ => ⟨rfl, rfl⟩, fun h => absurd hc h⟩
    · obtain ⟨k1, k2, k3, k4, k5, k6⟩ :=
        scan_loop_run G 1000 { s with collided := hashset_clear s.collided }
      obtain ⟨s', hs', hrun, hpass⟩ := collide_with_itself_run_eq G s hc
      refine ⟨s', _, hrun, hpass, k1, fun h => absurd h hc, fun _ => ?_⟩
      refine ⟨k6 (by omega), ?_, ?_, ?_, ?_⟩
      · rw [← k2]
        exact hs'
      · intro j hj
        exact ⟨k3 j hj, (scan_flag_events G _).1.mp (k3 j hj)⟩
      · intro h
        exact ⟨k4 h, (scan_flag_events G _).2.mp (k4 h)⟩
      · intro j hj he
        exact k5 j hj ((scan_flag_events G _).2.mpr he)
  · obtain ⟨_, s2, _, _, h3⟩ := collide_eq G P s
    exact ⟨s2, h3⟩

theorem stuck_scan_events (t : RigidBodies) (hc : t.count = 2) (h0 : t.deleted 0 = false)
    (h1 : t.disabled 0 = false) (h2 : t.deleted 1 = false) :
    (scan_log stuckGeometry t).2 ≠ [] := by
  rw [scan_log_two stuckGeometry t hc h0 h1]
  simp [collide_pair_log, pair_event, stuckGeometry, h1, h2]

/-- Witness of `self_collision_scans`: under `stuckGeometry` the two bodies
of `twoLive` overlap after every scan; the pass runs 1000 scans, returns the
reactive forces applied to the 1000-fold scan with code 0, and
`rigid_bodies_collide` returns code 0. -/
theorem self_collision_scans_witness :
    (∃ s', collide_with_itself_run stuckGeometry twoLive = .ok (s', 1000) ∧
      rigid_bodies_collide_with_itself stuckGeometry twoLive = .ok (s', 0) ∧
      react (scan_iter stuckGeometry 1000
        { twoLive with collided := hashset_clear twoLive.collided }) = .ok s') ∧
    (∃ r, rigid_bodies_collide stuckGeometry emptyPlatforms twoLive = .ok (r, 0)) := by
  obtain ⟨⟨s', N, h1, h2, h3, _, h5⟩, h6⟩ :=
    self_collision_scans stuckGeometry emptyPlatforms twoLive
  obtain ⟨_, k2, _, k4, _⟩ := h5 (by decide)
  have hN : N = 1000 := by
    by_contra hne
    have hlt : N < 1000 := by omega
    have hfr := scan_iter_frame stuckGeometry (N - 1)
      { twoLive with collided := hashset_clear twoLive.collided }
    exact stuck_scan_events _ hfr.2.1 (by rw [hfr.2.2.1]; rfl) (by rw [hfr.2.2.2.1]; rfl)
      (by rw [hfr.2.2.1]; rfl) (k4 hlt).2
  subst hN
  exact ⟨⟨s', h1, h2, k2⟩, h6⟩

/-! ## Forces, removal and teleport -/

/-- C12: on a live body `rigid_bodies_apply_force` adds the force to
`forces[id]` and changes nothing else in the store; applying `f1` then `f2`
gives the same store as applying `f2` then `f1`, with
`forces[id] = old + f1 + f2`. -/
theorem apply_force_spec (s : RigidBodies) (id : Nat) (f1 f2 : Vec) (hid : id < s.count)
    (hdel : s.deleted id = false) (hdis : s.disabled id = false) :
    rigid_bodies_apply_force s id f1
      = .ok { s with forces := Function.update s.forces id (vec_sum (s.forces id) f1) } ∧
    (∀ j, j ≠ id →
      (Function.update s.forces id (vec_sum (s.forces id) f1)) j = s.forces j) ∧
    ∃ t12 t21,
      (rigid_bodies_apply_force s id f1).bind (fun t => rigid_bodies_apply_force t id f2)
        = .ok t12 ∧
      (rigid_bodies_apply_force s id f2).bind (fun t => rigid_bodies_apply_force t id f1)
        = .ok t21 ∧
      t12 = t21 ∧
      t12.forces id = vec ((s.forces id).x + f1.x + f2.x) ((s.forces id).y + f1.y + f2.y) ∧
      t12 = { s with forces := t12.forces } := by
  have hlive : (s.deleted id || s.disabled id) = false := by simp [hdel, hdis]
  have step1 : ∀ f, rigid_bodies_apply_force s id f
      = .ok { s with forces := Function.update s.forces id (vec_sum (s.forces id) f) } := by
    intro f
    rw [apply_force_eq s id f hid]
    simp [hlive]
  have step2 : ∀ f g,
      (rigid_bodies_apply_force s id f).bind (fun t => rigid_bodies_apply_force t id g)
        = .ok { s with
                forces := Function.update s.forces id (vec_sum (vec_sum (s.forces id) f) g) } := by
    intro f g
    rw [step1 f]
    simp only [Except.bind]
    have e := apply_force_eq
      { s with forces := Function.update s.forces id (vec_sum (s.forces id) f) } id g hid
    rw [e]
    simp [hlive]
  refine ⟨step1 f1, fun j hj => Function.update_noteq hj _ _, _, _, step2 f1 f2, step2 f2 f1,
    ?_, ?_, rfl⟩
  · have : vec_sum (vec_sum (s.forces id) f1) f2 = vec_sum (vec_sum (s.forces id) f2) f1 := by
      simp only [vec_sum, vec, Vec.mk.injEq]
      constructor <;> ring
    rw [this]
  · simp [vec_sum, vec]

/-- Witness of `apply_force_spec`: two forces on body 0 of `twoLive`. -/
theorem apply_force_spec_witness :
    rigid_bodies_apply_force twoLive 0 (vec 1 2)
      = .ok { twoLive with
              forces := Function.update twoLive.forces 0 (vec_sum (twoLive.forces 0) (vec 1 2)) } :=
  (apply_force_spec twoLive 0 (vec 1 2) (vec 3 4) (by decide) rfl rfl).1

theorem apply_force_forces (s s' : RigidBodies) (j : Nat) (force : Vec)
    (h : rigid_bodies_apply_force s j force = .ok s') (id : Nat) :
    s'.forces id =
      if id = j ∧ s.deleted id = false ∧ s.disabled id = false
      then vec_sum (s.forces id) force else s.forces id := by
  by_cases hid : id = j
  · subst hid
    by_cases hlive : s.deleted id = false ∧ s.disabled id = false
    · rw [if_pos ⟨rfl, hlive⟩, apply_force_at s s' id force h id hlive.1 hlive.2, if_pos rfl]
    · rw [if_neg (fun hc => hlive hc.2)]
      have hu : Untouchable s id ∨ s.disabled id = true := by
        cases hd : s.deleted id
        · cases he : s.disabled id
          · exact absurd ⟨hd, he⟩ hlive
          · exact Or.inr rfl
        · exact Or.inl (Or.inr hd)
      exact (apply_force_untouched s s' id force h id hu).2.2.2.2
  · rw [if_neg (fun hc => hid hc.1)]
    exact apply_force_other s s' j force h id hid

theorem apply_omniforce_fold (F : Vec) (l : List Nat) :
    l.Nodup → ∀ a a',
      l.foldlM (fun acc i => rigid_bodies_apply_force acc i F) a = .ok a' →
      ForcesOnly a a' ∧
      ∀ id, a'.forces id =
        if id ∈ l ∧ a.deleted id = false ∧ a.disabled id = false
        then vec_sum (a.forces id) F else a.forces id := by
  induction l with
  | nil =>
    intro _ a a' hr
    simp only [List.foldlM, pure, Except.pure, Except.ok.injEq] at hr
    subst hr
    exact ⟨forcesOnly_refl _, fun id => by simp⟩
  | cons b l ih =>
    intro hnd a a' hr
    rw [List.nodup_cons] at hnd
    simp only [List.foldlM_cons, bind, Except.bind] at hr
    cases hf : rigid_bodies_apply_force a b F with
    | error e => rw [hf] at hr; cases hr
    | ok t =>
      rw [hf] at hr
      obtain ⟨k1, k2⟩ := ih hnd.2 t a' hr
      have hsh := apply_force_shape a t b F hf
      refine ⟨forcesOnly_trans (apply_force_forcesOnly a t b F hf) k1, ?_⟩
      intro id
      rw [k2 id, hsh.2.2.1, hsh.2.2.2, apply_force_forces a t b F hf id]
      by_cases hid : id = b
      · subst hid
        have hnl : id ∉ l := hnd.1
        simp [hnl]
      · have hmem : id ∈ b :: l ↔ id ∈ l := by simp [hid]
        simp [hid, hmem]

/-- C13: `rigid_bodies_apply_omniforce` returns; it adds the force to the
forces of every body `id < count` that is neither deleted nor disabled,
leaves the forces of every other slot as they were and changes no other part
of the store. -/
theorem apply_omniforce_spec (s : RigidBodies) (F : Vec) :
    ∃ s', rigid_bodies_apply_omniforce s F = .ok s' ∧
      s' = { s with forces := s'.forces } ∧
      ∀ id, s'.forces id =
        if id < s.count ∧ s.deleted id = false ∧ s.disabled id = false
        then vec_sum (s.forces id) F else s.forces id := by
  have hret := foldlM_returns (fun a : RigidBodies => a.count = s.count)
    (fun acc i => rigid_bodies_apply_force acc i F) (List.range s.count)
    (fun a b hb ha => by
      rw [List.mem_range] at hb
      refine ⟨_, apply_force_eq a b F (by omega), ?_⟩
      exact ha) s rfl
  obtain ⟨s', hs', _⟩ := hret
  obtain ⟨k1, k2⟩ := apply_omniforce_fold F (List.range s.count) (List.nodup_range _) s s' hs'
  refine ⟨s', hs', k1, ?_⟩
  intro id
  rw [k2 id]
  simp only [List.mem_range]

/-- Witness of `apply_omniforce_spec`: gravity on `disabledOverlap` reaches
the live body 0 and not the disabled body 1. -/
theorem apply_omniforce_spec_witness :
    ∃ s', rigid_bodies_apply_omniforce disabledOverlap (vec 0 98) = .ok s' ∧
      s'.forces 0 = vec_sum (disabledOverlap.forces 0) (vec 0 98) ∧
      s'.forces 1 = disabledOverlap.forces 1 := by
  obtain ⟨s', h1, _, h3⟩ := apply_omniforce_spec disabledOverlap (vec 0 98)
  refine ⟨s', h1, ?_, ?_⟩
  · rw [h3 0]
    exact if_pos ⟨by decide, rfl, rfl⟩
  · rw [h3 1]
    refine if_neg ?_
    rintro ⟨_, _, h⟩
    simp [disabledOverlap] at h

/-- C14: for an id that passes the assertion of `rigid_bodies_remove`
(`id < capacity`, so every `id < count` of a store with `count ≤ capacity`),
the call sets `deleted[id]` and leaves every other part of the store and the
deleted flag of every other id as they were; a second call returns the same
store as the first. -/
theorem remove_spec (s : RigidBodies) (id : Nat) (hid : id < s.capacity) :
    rigid_bodies_remove s id = .ok { s with deleted := Function.update s.deleted id true } ∧
    Function.update s.deleted id true id = true ∧
    (∀ j, j ≠ id → Function.update s.deleted id true j = s.deleted j) ∧
    (rigid_bodies_remove s id).bind (fun t => rigid_bodies_remove t id)
      = rigid_bodies_remove s id := by
  have h1 : rigid_bodies_remove s id
      = .ok { s with deleted := Function.update s.deleted id true } := by
    simp [rigid_bodies_remove, hid]
  refine ⟨h1, Function.update_same _ _ _, fun j hj => Function.update_noteq hj _ _, ?_⟩
  rw [h1]
  simp [Except.bind, rigid_bodies_remove, hid]

/-- Witness of `remove_spec`: removing body 0 of `twoLive` twice. -/
theorem remove_spec_witness :
    (rigid_bodies_remove twoLive 0).bind (fun t => rigid_bodies_remove t 0)
      = rigid_bodies_remove twoLive 0 :=
  (remove_spec twoLive 0 (by decide)).2.2.2

/-- C15: on a live body `rigid_bodies_teleport_to` makes the hitbox the
rectangle at the given position with the old width and height, and changes
nothing else: every other rectangle and every other array of the store stay
as they were. -/
theorem teleport_spec (s : RigidBodies) (id : Nat) (p : Vec) (hid : id < s.count)
    (hdel : s.deleted id = false) (hdis : s.disabled id = false) :
    ∃ s', rigid_bodies_teleport_to s id p = .ok s' ∧
      rigid_bodies_hitbox s' id = .ok ⟨p.x, p.y, (s.bodies id).w, (s.bodies id).h⟩ ∧
      s' = { s with bodies := s'.bodies } ∧
      ∀ j, j ≠ id → s'.bodies j = s.bodies j := by
  refine ⟨{ s with bodies := Function.update s.bodies id
                      { s.bodies id with x := p.x, y := p.y } }, ?_, ?_, rfl, ?_⟩
  · simp [rigid_bodies_teleport_to, hid, hdel, hdis]
  · simp [rigid_bodies_hitbox, hid]
  · intro j hj
    exact Function.update_noteq hj _ _

/-- Witness of `teleport_spec`: body 1 of `twoLive` moved to `(7, 8)`. -/
theorem teleport_spec_witness :
    ∃ s', rigid_bodies_teleport_to twoLive 1 (vec 7 8) = .ok s' ∧
      rigid_bodies_hitbox s' 1
        = .ok ⟨(vec 7 8).x, (vec 7 8).y, (twoLive.bodies 1).w, (twoLive.bodies 1).h⟩ := by
  obtain ⟨s', h1, h2, _⟩ := teleport_spec twoLive 1 (vec 7 8) (by decide) rfl rfl
  exact ⟨s', h1, h2⟩

/-! ## The platform pass, body by body -/

theorem platform_body_other (P : Platforms) (s s' : RigidBodies) (i : Nat)
    (h : platform_body P s i = .ok s') (j : Nat) (hj : j ≠ i) : SameBody s s' j := by
  unfold platform_body at h
  split at h
  · cases h; exact sameBody_refl _ _
  · obtain ⟨hfo, hoth⟩ := damper_forcesOnly _ _ _ _ h
    rw [hfo]
    refine ⟨?_, ?_, ?_, ?_, hoth j hj⟩
    · simp [Function.update, hj]
    · simp [Function.update, hj]
    · simp [Function.update, hj]
    · simp only
      split <;> simp [Function.update, hj]

theorem platform_body_at (P : Platforms) (s s' : RigidBodies) (i : Nat)
    (h : platform_body P s i = .ok s') : PlatformEffect P s s' i := by
  unfold PlatformEffect
  unfold platform_body at h
  split at h
  · rename_i hskip
    cases h
    rw [if_pos hskip]
    exact sameBody_refl _ _
  · rename_i hlive
    rw [if_neg hlive]
    have hi : i < s.count := by
      have hlt := damper_lt _ _ _ _ h
      exact hlt
    unfold rigid_bodies_damper at h
    simp only [hi, not_true_eq_false, if_false, hlive] at h
    have h' := apply_force_at _ _ _ _ h i (by
      cases hd : s.deleted i
      · rfl
      · simp [hd] at hlive) (by
      cases hd : s.disabled i
      · rfl
      · simp [hd] at hlive)
    have hfo := apply_force_forcesOnly _ _ _ _ h
    rw [if_pos rfl] at h'
    refine ⟨?_, ?_, ?_, ?_, ?_⟩
    · rw [hfo]; simp
    · rw [hfo]; simp
    · rw [hfo]; simp
    · rw [hfo]
      simp only
      cases hb : P.touches_rect_sides (s.bodies i) RectSide.bottom <;> simp
    · rw [h']
      simp

theorem platformEffect_of_same_before (P : Platforms) {a t a' : RigidBodies} {id : Nat}
    (hs : SameBody a t id) (hsh : Shape a t) (h : PlatformEffect P t a' id) :
    PlatformEffect P a a' id := by
  unfold PlatformEffect at *
  obtain ⟨b1, b2, b3, b4, b5⟩ := hs
  rw [hsh.2.2.1, hsh.2.2.2, b1, b2, b3, b4, b5] at h
  by_cases hc : (a.deleted id || a.disabled id) = true
  · rw [if_pos hc] at h ⊢
    obtain ⟨c1, c2, c3, c4, c5⟩ := h
    exact ⟨c1.trans b1, c2.trans b2, c3.trans b3, c4.trans b4, c5.trans b5⟩
  · rw [if_neg hc] at h ⊢
    exact h

theorem platformEffect_of_same_after (P : Platforms) {a t a' : RigidBodies} {id : Nat}
    (h : PlatformEffect P a t id) (hs : SameBody t a' id) : PlatformEffect P a a' id := by
  unfold PlatformEffect at *
  obtain ⟨b1, b2, b3, b4, b5⟩ := hs
  by_cases hc : (a.deleted id || a.disabled id) = true
  · rw [if_pos hc] at h ⊢
    exact sameBody_trans h ⟨b1, b2, b3, b4, b5⟩
  · rw [if_neg hc] at h ⊢
    obtain ⟨c1, c2, c3, c4, c5⟩ := h
    exact ⟨b1.trans c1, b2.trans c2, b3.trans c3, b4.trans c4, b5.trans c5⟩

theorem platform_fold_effect (P : Platforms) (l : List Nat) :
    l.Nodup → ∀ a a', l.foldlM (platform_body P) a = .ok a' →
      ∀ id, (id ∉ l → SameBody a a' id) ∧ (id ∈ l → PlatformEffect P a a' id) := by
  induction l with
  | nil =>
    intro _ a a' hr id
    simp only [List.foldlM, pure, Except.pure, Except.ok.injEq] at hr
    subst hr
    exact ⟨fun _ => sameBody_refl _ _, fun h => by cases h⟩
  | cons b l ih =>
    intro hnd a a' hr id
    rw [List.nodup_cons] at hnd
    simp only [List.foldlM_cons, bind, Except.bind] at hr
    cases hf : platform_body P a b with
    | error e => rw [hf] at hr; cases hr
    | ok t =>
      rw [hf] at hr
      obtain ⟨k1, k2⟩ := ih hnd.2 t a' hr id
      have hsh := platform_body_shape P a t b hf
      by_cases hid : id = b
      · subst hid
        refine ⟨fun hn => absurd (List.mem_cons_self _ _) hn, fun _ => ?_⟩
        exact platformEffect_of_same_after P (platform_body_at P a t id hf) (k1 hnd.1)
      · have hsame := platform_body_other P a t b hf id hid
        constructor
        · intro hn
          exact sameBody_trans hsame (k1 (fun hm => hn (List.mem_cons_of_mem _ hm)))
        · intro hm
          have hm' : id ∈ l := by
            rcases List.mem_cons.mp hm with h | h
            · exact absurd h hid
            · exact h
          exact platformEffect_of_same_before P hsame hsh (k2 hm')

/-- C17: the platform pass returns code 0 and changes neither the sizes, the
flags for deletion and disabling nor the pair set.  For a body `id < count`
that is neither deleted nor disabled, with `snap` the vector returned by
`platforms_snap_rect` for its rectangle: velocity and movement are multiplied
component-wise by `snap`, `forces.x` grows by
`(velocity.x * snap.x) * (-16 * snap.x)`, `forces.y` is unchanged, the
rectangle is the snapped one and the grounded flag is set on a bottom touch
and kept otherwise; with `snap.x = 0` the forces are unchanged.  The slot of
a deleted or disabled body is left as it was. -/
theorem platform_pass_spec (P : Platforms) (s : RigidBodies) :
    ∃ s', rigid_bodies_collide_with_platforms P s = .ok (s', 0) ∧
      Shape s s' ∧ s'.collided = s.collided ∧
      ∀ id, id < s.count →
        (s.deleted id = false → s.disabled id = false →
          s'.velocities id
            = vec ((s.velocities id).x * (P.snap_rect (s.bodies id)).2.x)
                  ((s.velocities id).y * (P.snap_rect (s.bodies id)).2.y) ∧
          s'.movements id
            = vec ((s.movements id).x * (P.snap_rect (s.bodies id)).2.x)
                  ((s.movements id).y * (P.snap_rect (s.bodies id)).2.y) ∧
          (s'.forces id).x
            = (s.forces id).x
              + ((s.velocities id).x * (P.snap_rect (s.bodies id)).2.x)
                * (-16 * (P.snap_rect (s.bodies id)).2.x) ∧
          (s'.forces id).y = (s.forces id).y ∧
          s'.bodies id = (P.snap_rect (s.bodies id)).1 ∧
          s'.grounded id
            = (P.touches_rect_sides (s.bodies id) .bottom || s.grounded id) ∧
          ((P.snap_rect (s.bodies id)).2.x = 0 → s'.forces id = s.forces id)) ∧
        (s.deleted id = true ∨ s.disabled id = true → SameBody s s' id) := by
  obtain ⟨s', hs'⟩ := collide_with_platforms_returns P s
  have hsh := (collide_with_platforms_shape P s _ hs').1
  have hfold : (List.range s.count).foldlM (platform_body P) s = .ok s' := by
    unfold rigid_bodies_collide_with_platforms at hs'
    simp only [bind, Except.bind, pure, Except.pure] at hs'
    cases hr : List.foldlM (platform_body P) s (List.range s.count) with
    | error e => rw [hr] at hs'; cases hs'
    | ok t =>
      rw [hr] at hs'
      cases hs'
      rfl
  have hcol : s'.collided = s.collided := by
    refine foldlM_preserves (fun a : RigidBodies => a.collided = s.collided) (platform_body P)
      _ ?_ s s' rfl hfold
    intro a b a' _ ha hf
    unfold platform_body at hf
    split at hf
    · cases hf; exact ha
    · have hfo := (damper_forcesOnly _ _ _ _ hf).1
      rw [hfo]
      exact ha
  refine ⟨s', hs', hsh, hcol, ?_⟩
  intro id hid
  have heff := (platform_fold_effect P (List.range s.count) (List.nodup_range _) s s' hfold id).2
    (List.mem_range.mpr hid)
  unfold PlatformEffect at heff
  constructor
  · intro hdel hdis
    have hlive : ¬ (s.deleted id || s.disabled id) = true := by simp [hdel, hdis]
    rw [if_neg hlive] at heff
    obtain ⟨c1, c2, c3, c4, c5⟩ := heff
    refine ⟨?_, ?_, ?_, ?_, c1, c4, ?_⟩
    · rw [c2]; rfl
    · rw [c3]; rfl
    · rw [c5]
      simp only [vec_sum, vec_entry_mult, vec]
      ring
    · rw [c5]
      simp [vec_sum, vec_entry_mult, vec]
    · intro h0
      rw [c5]
      cases hf : s.forces id
      simp [vec_sum, vec_entry_mult, vec, h0]
  · intro hskip
    have hc : (s.deleted id || s.disabled id) = true := by
      rcases hskip with h | h <;> simp [h]
    rw [if_pos hc] at heff
    exact heff

/-- Witness of `platform_pass_spec`: the body of `sunkStore` is put on the
floor, keeps the velocity `(2, 0)`, is grounded and receives the braking
force `-32` along x. -/
theorem platform_pass_spec_witness :
    ∃ s', rigid_bodies_collide_with_platforms floorPlatforms sunkStore = .ok (s', 0) ∧
      s'.velocities 0 = vec 2 0 ∧ (s'.forces 0).x = -32 ∧ (s'.forces 0).y = 0 ∧
      s'.bodies 0 = ⟨0, 90, 10, 10⟩ ∧ s'.grounded 0 = true := by
  obtain ⟨s', h1, _, _, h4⟩ := platform_pass_spec floorPlatforms sunkStore
  obtain ⟨k1, _, k3, k4, k5, k6, _⟩ := (h4 0 (by decide)).1 rfl rfl
  refine ⟨s', h1, ?_, ?_, ?_, ?_, ?_⟩
  · rw [k1]; norm_num [sunkStore, create_rigid_bodies, floorPlatforms, vec]
  · rw [k3]; norm_num [sunkStore, create_rigid_bodies, floorPlatforms, vec]
  · rw [k4]; norm_num [sunkStore, create_rigid_bodies, floorPlatforms, vec]
  · rw [k5]; norm_num [sunkStore, create_rigid_bodies, floorPlatforms, vec]
  · rw [k6]; norm_num [sunkStore, create_rigid_bodies, floorPlatforms, vec]

/-! ## Ground inference of one processed pair -/

/-- C18: when the loop body processes the overlapping pair `i1 < i2`, with
the rectangles and the orientation vector as `rect_impulse` returns them: if
`orient.x > orient.y`, the grounded flag of exactly one of the two bodies is
set, the one of `i1` when `body[i1].y < body[i2].y` and the one of `i2`
otherwise (also when the two are equal), and no other flag changes; if
`orient.x ≤ orient.y` no grounded flag changes. -/
theorem ground_inference (G : Geometry) (s : RigidBodies) (i1 i2 : Nat) (flag : Bool)
    (hlt : i1 < i2) (hdel : s.deleted i2 = false) (hdis : s.disabled i1 = false)
    (hov : G.rects_overlap (s.bodies i1) (s.bodies i2) = true) :
    (collide_pair G i1 i2 (s, flag)).1.bodies i1
      = (G.rect_impulse (s.bodies i1) (s.bodies i2)).1 ∧
    (collide_pair G i1 i2 (s, flag)).1.bodies i2
      = (G.rect_impulse (s.bodies i1) (s.bodies i2)).2.1 ∧
    ((G.rect_impulse (s.bodies i1) (s.bodies i2)).2.2.x
        > (G.rect_impulse (s.bodies i1) (s.bodies i2)).2.2.y →
      ((G.rect_impulse (s.bodies i1) (s.bodies i2)).1.y
          < (G.rect_impulse (s.bodies i1) (s.bodies i2)).2.1.y →
        (collide_pair G i1 i2 (s, flag)).1.grounded = Function.update s.grounded i1 true ∧
        (collide_pair G i1 i2 (s, flag)).1.grounded i1 = true ∧
        (collide_pair G i1 i2 (s, flag)).1.grounded i2 = s.grounded i2) ∧
      (¬ (G.rect_impulse (s.bodies i1) (s.bodies i2)).1.y
          < (G.rect_impulse (s.bodies i1) (s.bodies i2)).2.1.y →
        (collide_pair G i1 i2 (s, flag)).1.grounded = Function.update s.grounded i2 true ∧
        (collide_pair G i1 i2 (s, flag)).1.grounded i2 = true ∧
        (collide_pair G i1 i2 (s, flag)).1.grounded i1 = s.grounded i1)) ∧
    ((G.rect_impulse (s.bodies i1) (s.bodies i2)).2.2.x
        ≤ (G.rect_impulse (s.bodies i1) (s.bodies i2)).2.2.y →
      (collide_pair G i1 i2 (s, flag)).1.grounded = s.grounded) := by
  have hne : i1 ≠ i2 := by omega
  have hb1 : (collide_pair G i1 i2 (s, flag)).1.bodies i1
      = (G.rect_impulse (s.bodies i1) (s.bodies i2)).1 := by
    simp [collide_pair, hdel, hdis, hov, Function.update, hne]
  have hb2 : (collide_pair G i1 i2 (s, flag)).1.bodies i2
      = (G.rect_impulse (s.bodies i1) (s.bodies i2)).2.1 := by
    simp [collide_pair, hdel, hdis, hov, Function.update]
  have hg : (collide_pair G i1 i2 (s, flag)).1.grounded
      = if (G.rect_impulse (s.bodies i1) (s.bodies i2)).2.2.x
            > (G.rect_impulse (s.bodies i1) (s.bodies i2)).2.2.y then
          if (G.rect_impulse (s.bodies i1) (s.bodies i2)).1.y
              < (G.rect_impulse (s.bodies i1) (s.bodies i2)).2.1.y
          then Function.update s.grounded i1 true
          else Function.update s.grounded i2 true
        else s.grounded := by
    simp [collide_pair, hdel, hdis, hov, Function.update, hne]
  refine ⟨hb1, hb2, ?_, ?_⟩
  · intro ho
    rw [hg, if_pos ho]
    constructor
    · intro hy
      rw [if_pos hy]
      exact ⟨rfl, Function.update_same _ _ _, Function.update_noteq (Ne.symm hne) _ _⟩
    · intro hy
      rw [if_neg hy]
      exact ⟨rfl, Function.update_same _ _ _, Function.update_noteq hne _ _⟩
  · intro ho
    rw [hg, if_neg (not_lt.mpr ho)]

/-- Witness of `ground_inference`: under `tieGeometry` the two bodies of
`twoLive` keep the same `y` and the orientation is `(1, 0)`; body 1 is
marked grounded and body 0 is not. -/
theorem ground_inference_witness :
    (collide_pair tieGeometry 0 1 (twoLive, false)).1.grounded 1 = true ∧
    (collide_pair tieGeometry 0 1 (twoLive, false)).1.grounded 0 = twoLive.grounded 0 := by
  have hov : tieGeometry.rects_overlap (twoLive.bodies 0) (twoLive.bodies 1) = true := by
    norm_num [tieGeometry, twoLive, create_rigid_bodies]
  have h := (ground_inference tieGeometry twoLive 0 1 false (by decide) rfl rfl hov).2.2.1
    (by norm_num [tieGeometry, vec])
  obtain ⟨_, k2, k3⟩ := h.2 (by norm_num [tieGeometry, twoLive, create_rigid_bodies])
  exact ⟨k2, k3⟩

/-! ## Two overlapping bodies -/

theorem collide_pair_processed (G : Geometry) (s : RigidBodies) (i1 i2 : Nat) (flag : Bool)
    (hne : i1 ≠ i2) (hdel : s.deleted i2 = false) (hdis : s.disabled i1 = false)
    (hov : G.rects_overlap (s.bodies i1) (s.bodies i2) = true) :
    (collide_pair G i1 i2 (s, flag)).2 = true ∧
    (collide_pair G i1 i2 (s, flag)).1.bodies i1
      = (G.rect_impulse (s.bodies i1) (s.bodies i2)).1 ∧
    (collide_pair G i1 i2 (s, flag)).1.bodies i2
      = (G.rect_impulse (s.bodies i1) (s.bodies i2)).2.1 := by
  refine ⟨?_, ?_, ?_⟩
  · simp [collide_pair, hdel, hdis, hov]
  · simp [collide_pair, hdel, hdis, hov, Function.update, hne]
  · simp [collide_pair, hdel, hdis, hov, Function.update]

theorem collide_pair_apart (G : Geometry) (s : RigidBodies) (i1 i2 : Nat) (flag : Bool)
    (hov : G.rects_overlap (s.bodies i1) (s.bodies i2) = false) :
    collide_pair G i1 i2 (s, flag) = (s, flag) := by
  simp [collide_pair, hov]

/-- C19: on a store with exactly two bodies, both live, whose rectangles
overlap, and with a `rect_impulse` that leaves these two rectangles apart,
the body of `rigid_bodies_collide_with_itself` ends with its loop variable at 2:
exactly two scans ran, below the bound of 1000; the first scan set the collision
flag and left the rectangles given by `rect_impulse`, the second left the flag
clear; and the pass returns code 0 with a store whose two rectangles do not
overlap. -/
theorem two_bodies_converge (G : Geometry) (s : RigidBodies) (hc : s.count = 2)
    (hdel0 : s.deleted 0 = false) (hdis0 : s.disabled 0 = false)
    (hdel1 : s.deleted 1 = false) (_hdis1 : s.disabled 1 = false)
    (hov : G.rects_overlap (s.bodies 0) (s.bodies 1) = true)
    (hsep : G.rects_overlap (G.rect_impulse (s.bodies 0) (s.bodies 1)).1
      (G.rect_impulse (s.bodies 0) (s.bodies 1)).2.1 = false) :
    ∃ s' N, collide_with_itself_run G s = .ok (s', N) ∧
      rigid_bodies_collide_with_itself G s = .ok (s', 0) ∧
      N = 2 ∧ N < 1000 ∧
      (scan G { s with collided := hashset_clear s.collided }).2 = true ∧
      (scan G { s with collided := hashset_clear s.collided }).1.bodies 0
        = (G.rect_impulse (s.bodies 0) (s.bodies 1)).1 ∧
      (scan G { s with collided := hashset_clear s.collided }).1.bodies 1
        = (G.rect_impulse (s.bodies 0) (s.bodies 1)).2.1 ∧
      (scan G (scan G { s with collided := hashset_clear s.collided }).1).2 = false ∧
      s'.bodies 0 = (G.rect_impulse (s.bodies 0) (s.bodies 1)).1 ∧
      s'.bodies 1 = (G.rect_impulse (s.bodies 0) (s.bodies 1)).2.1 ∧
      G.rects_overlap (s'.bodies 0) (s'.bodies 1) = false := by
  have hc0 : s.count ≠ 0 := by omega
  have e1 := scan_two G { s with collided := hashset_clear s.collided } hc hdel0 hdis0
  obtain ⟨p1, p2, p3⟩ := collide_pair_processed G
    { s with collided := hashset_clear s.collided } 0 1 false (by decide) hdel1 hdis0 hov
  have f1 : (scan G { s with collided := hashset_clear s.collided }).2 = true := by
    rw [e1]; exact p1
  have b0 : (scan G { s with collided := hashset_clear s.collided }).1.bodies 0
      = (G.rect_impulse (s.bodies 0) (s.bodies 1)).1 := by
    rw [e1]; exact p2
  have b1 : (scan G { s with collided := hashset_clear s.collided }).1.bodies 1
      = (G.rect_impulse (s.bodies 0) (s.bodies 1)).2.1 := by
    rw [e1]; exact p3
  have hfr := scan_frame G { s with collided := hashset_clear s.collided }
  have hsep1 : G.rects_overlap
      ((scan G { s with collided := hashset_clear s.collided }).1.bodies 0)
      ((scan G { s with collided := hashset_clear s.collided }).1.bodies 1) = false := by
    rw [b0, b1]
    exact hsep
  have e2 := scan_two G (scan G { s with collided := hashset_clear s.collided }).1
    (hfr.2.1.trans hc) (by rw [hfr.2.2.1]; exact hdel0) (by rw [hfr.2.2.2.1]; exact hdis0)
  have e3 := e2.trans (collide_pair_apart G _ 0 1 false hsep1)
  have f2 : (scan G (scan G { s with collided := hashset_clear s.collided }).1).2 = false := by
    rw [e3]
  have hloop : scan_loop G 1000 { s with collided := hashset_clear s.collided }
      = ((scan G { s with collided := hashset_clear s.collided }).1, 2) := by
    rw [show (1000 : Nat) = 998 + 1 + 1 from rfl, scan_loop_next _ _ _ f1,
      scan_loop_stop _ _ _ f2, e3]
  obtain ⟨s', hs', hrun, hpass⟩ := collide_with_itself_run_eq G s hc0
  rw [hloop] at hrun hs'
  have hfo : s'.bodies = (scan G { s with collided := hashset_clear s.collided }).1.bodies := by
    have h := react_forcesOnly _ _ hs'
    rw [h]
  have c0 : s'.bodies 0 = (G.rect_impulse (s.bodies 0) (s.bodies 1)).1 := by
    rw [hfo]; exact b0
  have c1 : s'.bodies 1 = (G.rect_impulse (s.bodies 0) (s.bodies 1)).2.1 := by
    rw [hfo]; exact b1
  refine ⟨s', 2, hrun, hpass, rfl, by omega, f1, b0, b1, f2, c0, c1, ?_⟩
  rw [c0, c1]
  exact hsep

/-- Witness of `two_bodies_converge`: under `sampleGeometry` the two bodies
of `twoLive` are apart after one impulse; the pass runs two scans. -/
theorem two_bodies_converge_witness :
    ∃ s', collide_with_itself_run sampleGeometry twoLive = .ok (s', 2) ∧
      rigid_bodies_collide_with_itself sampleGeometry twoLive = .ok (s', 0) ∧
      sampleGeometry.rects_overlap (s'.bodies 0) (s'.bodies 1) = false := by
  obtain ⟨s', N, h1, h2, h3, _, _, _, _, _, _, _, h4⟩ :=
    two_bodies_converge sampleGeometry twoLive rfl rfl rfl rfl rfl
      (by norm_num [sampleGeometry, twoLive, create_rigid_bodies])
      (by norm_num [sampleGeometry, twoLive, create_rigid_bodies, vec])
  subst h3
  exact ⟨s', h1, h2, h4⟩

/-! ## The events of a scan, pair by pair -/

theorem fold_log {σ β : Type} (Inv : σ → Prop) (F : σ × List Event → β → σ × List Event)
    (Q : β → Event → Prop) (l : List β)
    (hF : ∀ st x, x ∈ l → Inv st.1 →
      Inv (F st x).1 ∧ ∃ new, (F st x).2 = st.2 ++ new ∧ ∀ e ∈ new, Q x e) :
    ∀ st, Inv st.1 →
      Inv (l.foldl F st).1 ∧
      ∃ new, (l.foldl F st).2 = st.2 ++ new ∧ ∀ e ∈ new, ∃ x ∈ l, Q x e := by
  induction l with
  | nil =>
    intro st hI
    exact ⟨hI, [], by simp, fun e he => by cases he⟩
  | cons b l ih =>
    intro st hI
    obtain ⟨hI1, new1, h1, q1⟩ := hF st b (List.mem_cons_self _ _) hI
    obtain ⟨hI2, new2, h2, q2⟩ :=
      ih (fun st x hx => hF st x (List.mem_cons_of_mem _ hx)) (F st b) hI1
    refine ⟨hI2, new1 ++ new2, ?_, ?_⟩
    · simp only [List.foldl_cons]
      rw [h2, h1, List.append_assoc]
    · intro e he
      rcases List.mem_append.mp he with he | he
      · exact ⟨b, List.mem_cons_self _ _, q1 e he⟩
      · obtain ⟨x, hx, hq⟩ := q2 e he
        exact ⟨x, List.mem_cons_of_mem _ hx, hq⟩

theorem pair_event_indices (G : Geometry) (i1 i2 : Nat) (s : RigidBodies) (e : Event)
    (he : e ∈ pair_event G i1 i2 s) : e.i1 = i1 ∧ e.i2 = i2 := by
  unfold pair_event at he
  split at he
  · cases he
  · split at he
    · cases he
    · rw [List.mem_singleton] at he
      subst he
      exact ⟨rfl, rfl⟩

theorem collide_pair_log_frame (G : Geometry) (s : RigidBodies) (i1 i2 : Nat)
    (st : (RigidBodies × Bool) × List Event) (h : ScanFrame s st.1.1) :
    ScanFrame s (collide_pair_log G i1 i2 st).1.1 :=
  scanFrame_trans h (collide_pair_frame G i1 i2 st.1)

theorem row_part_log (G : Geometry) (s : RigidBodies) (i1 : Nat) (l : List Nat)
    (st : (RigidBodies × Bool) × List Event) (h : ScanFrame s st.1.1) :
    ScanFrame s (l.foldl (fun acc i2 => collide_pair_log G i1 i2 acc) st).1.1 ∧
    ∃ new, (l.foldl (fun acc i2 => collide_pair_log G i1 i2 acc) st).2 = st.2 ++ new ∧
      ∀ e ∈ new, ∃ x ∈ l, e.i1 = i1 ∧ e.i2 = x :=
  fold_log (fun a : RigidBodies × Bool => ScanFrame s a.1)
    (fun acc i2 => collide_pair_log G i1 i2 acc) (fun x e => e.i1 = i1 ∧ e.i2 = x) l
    (fun st x _ hI => ⟨collide_pair_log_frame G s i1 x st hI, pair_event G i1 x st.1.1, rfl,
      fun e he => pair_event_indices G i1 x st.1.1 e he⟩) st h

theorem scan_row_log_ext (G : Geometry) (s : RigidBodies) (i1 : Nat)
    (st : (RigidBodies × Bool) × List Event) (h : ScanFrame s st.1.1) :
    ScanFrame s (scan_row_log G i1 st).1.1 ∧
    ∃ new, (scan_row_log G i1 st).2 = st.2 ++ new ∧
      ∀ e ∈ new, e.i1 = i1 ∧ i1 < e.i2 ∧ e.i2 < s.count := by
  unfold scan_row_log
  split
  · exact ⟨h, [], by simp, fun e he => by cases he⟩
  · obtain ⟨hI, new, h1, q⟩ := row_part_log G s i1
      (List.range' (i1 + 1) (st.1.1.count - (i1 + 1))) st h
    refine ⟨hI, new, h1, ?_⟩
    intro e he
    obtain ⟨x, hx, e1, e2⟩ := q e he
    rw [List.mem_range'_1, h.2.1] at hx
    refine ⟨e1, ?_, ?_⟩ <;> omega

theorem rows_part_log (G : Geometry) (s : RigidBodies) (l : List Nat)
    (st : (RigidBodies × Bool) × List Event) (h : ScanFrame s st.1.1) :
    ScanFrame s (l.foldl (fun acc i1 => scan_row_log G i1 acc) st).1.1 ∧
    ∃ new, (l.foldl (fun acc i1 => scan_row_log G i1 acc) st).2 = st.2 ++ new ∧
      ∀ e ∈ new, ∃ x ∈ l, e.i1 = x ∧ x < e.i2 ∧ e.i2 < s.count :=
  fold_log (fun a : RigidBodies × Bool => ScanFrame s a.1)
    (fun acc i1 => scan_row_log G i1 acc) (fun x e => e.i1 = x ∧ x < e.i2 ∧ e.i2 < s.count) l
    (fun st x _ hI => scan_row_log_ext G s x st hI) st h

theorem scan_log_indices (G : Geometry) (s : RigidBodies) (e : Event)
    (he : e ∈ (scan_log G s).2) : e.i1 < e.i2 ∧ e.i2 < s.count := by
  obtain ⟨_, new, h1, q⟩ := rows_part_log G s (List.range (s.count - 1)) ((s, false), [])
    (scanFrame_refl s)
  unfold scan_log at he
  rw [h1, List.nil_append] at he
  obtain ⟨x, _, e1, e2, e3⟩ := q e he
  exact ⟨by omega, e3⟩

theorem scan_loop_log_indices (G : Geometry) (fuel : Nat) :
    ∀ s, ∀ evs ∈ (scan_loop_log G fuel s).2, ∀ e ∈ evs, e.i1 < e.i2 ∧ e.i2 < s.count := by
  induction fuel with
  | zero => intro s evs hevs; simp [scan_loop_log] at hevs
  | succ n ih =>
    intro s evs hevs e he
    simp only [scan_loop_log] at hevs
    have hfr := scan_frame G s
    rw [← scan_log_fst] at hfr
    split at hevs
    · rcases List.mem_cons.mp hevs with rfl | hevs
      · exact scan_log_indices G s e he
      · have := ih _ evs hevs e he
        rw [hfr.2.1] at this
        exact this
    · rw [List.mem_singleton] at hevs
      subst hevs
      exact scan_log_indices G s e he

/-! ## The pass reads the slots below `count` only -/

theorem foldl_rel {α β : Type} (R : α → α → Prop) (f : α → β → α) (l : List β)
    (h : ∀ a b x, x ∈ l → R a b → R (f a x) (f b x)) :
    ∀ a b, R a b → R (l.foldl f a) (l.foldl f b) := by
  induction l with
  | nil => intro a b hR; exact hR
  | cons x l ih =>
    intro a b hR
    simp only [List.foldl_cons]
    exact ih (fun a b y hy => h a b y (List.mem_cons_of_mem _ hy)) _ _
      (h a b x (List.mem_cons_self _ _) hR)

theorem collide_pair_agree (G : Geometry) (i1 i2 : Nat) (a b : RigidBodies × Bool)
    (hlt : i1 < i2) (h2 : i2 < a.1.count) (hR : ScanAgree a b) :
    ScanAgree (collide_pair G i1 i2 a) (collide_pair G i1 i2 b) := by
  obtain ⟨⟨hc, hag⟩, hcol, hflag⟩ := hR
  obtain ⟨a1, a2, a3, _, _, _, a7⟩ := hag i1 (by omega)
  obtain ⟨b1, b2, b3, _, _, b6, _⟩ := hag i2 h2
  have hup : ∀ (f : Nat → Vec) (X : Vec), Function.update f i1 X i2 = f i2 :=
    fun f X => Function.update_noteq (by omega) X f
  unfold collide_pair
  simp only [hup, a1, a2, a3, a7, b1, b2, b3, b6, hcol]
  by_cases c1 : (a.1.deleted i2 || a.1.disabled i1) = true
  · rw [if_pos c1, if_pos c1]
    exact ⟨⟨hc, hag⟩, hcol, hflag⟩
  · rw [if_neg c1, if_neg c1]
    by_cases c2 : (!G.rects_overlap (a.1.bodies i1) (a.1.bodies i2)) = true
    · rw [if_pos c2, if_pos c2]
      exact ⟨⟨hc, hag⟩, hcol, hflag⟩
    · rw [if_neg c2, if_neg c2]
      refine ⟨⟨hc, ?_⟩, rfl, rfl⟩
      intro i hi
      obtain ⟨d1, d2, d3, d4, d5, d6, d7⟩ := hag i hi
      refine ⟨?_, ?_, ?_, ?_, d5, d6, d7⟩
      · simp only [Function.update_apply]
        split_ifs <;> first | rfl | exact d1
      · simp only [Function.update_apply]
        split_ifs <;> first | rfl | exact d2
      · simp only [Function.update_apply]
        split_ifs <;> first | rfl | exact d3
      · have hb1 : ∀ (f : Nat → Rect) (X Y : Rect),
            Function.update (Function.update f i1 X) i2 Y i1 = X := by
          intro f X Y
          rw [Function.update_noteq (by omega), Function.update_same]
        have hb2 : ∀ (f : Nat → Rect) (X Y : Rect),
            Function.update (Function.update f i1 X) i2 Y i2 = Y := by
          intro f X Y
          rw [Function.update_same]
        simp only [hb1, hb2]
        split_ifs
        · simp only [Function.update_apply]
          split_ifs <;> first | rfl | exact d4
        · simp only [Function.update_apply]
          split_ifs <;> first | rfl | exact d4
        · exact d4

theorem scan_row_agree (G : Geometry) (i1 : Nat) (a b : RigidBodies × Bool)
    (hi1 : i1 < a.1.count) (hR : ScanAgree a b) :
    ScanAgree (scan_row G i1 a) (scan_row G i1 b) := by
  obtain ⟨_, _, _, _, _, e6, e7⟩ := hR.1.2 i1 hi1
  unfold scan_row
  rw [e6, e7, hR.1.1]
  split
  · exact hR
  · refine (foldl_rel
      (fun x y : RigidBodies × Bool => ScanAgree x y ∧ x.1.count = a.1.count) _ _ ?_ a b
      ⟨hR, rfl⟩).1
    intro x y j hj hxy
    rw [List.mem_range'_1] at hj
    exact ⟨collide_pair_agree G i1 j x y (by omega) (by rw [hxy.2]; omega) hxy.1,
      (collide_pair_frame G i1 j x).2.1.trans hxy.2⟩

theorem scan_agree (G : Geometry) (s t : RigidBodies) (h : AgreeBelow s t)
    (hcol : t.collided = s.collided) : ScanAgree (scan G s) (scan G t) := by
  unfold scan
  rw [h.1]
  refine (foldl_rel
    (fun x y : RigidBodies × Bool => ScanAgree x y ∧ x.1.count = s.count) _ _ ?_ (s, false)
    (t, false) ⟨⟨h, hcol, rfl⟩, rfl⟩).1
  intro x y j hj hxy
  rw [List.mem_range] at hj
  exact ⟨scan_row_agree G j x y (by rw [hxy.2]; omega) hxy.1,
    (scan_row_frame G j x).2.1.trans hxy.2⟩

theorem scan_loop_agree (G : Geometry) (fuel : Nat) :
    ∀ s t, AgreeBelow s t → t.collided = s.collided →
      AgreeBelow (scan_loop G fuel s).1 (scan_loop G fuel t).1 ∧
      (scan_loop G fuel t).1.collided = (scan_loop G fuel s).1.collided ∧
      (scan_loop G fuel t).2 = (scan_loop G fuel s).2 := by
  induction fuel with
  | zero => intro s t h hcol; exact ⟨h, hcol, rfl⟩
  | succ n ih =>
    intro s t h hcol
    obtain ⟨k1, k2, k3⟩ := scan_agree G s t h hcol
    simp only [scan_loop, k3]
    split
    · obtain ⟨j1, j2, j3⟩ := ih _ _ k1 k2
      exact ⟨j1, j2, by rw [j3]⟩
    · exact ⟨k1, k2, rfl⟩

theorem apply_force_agree (a b : RigidBodies) (id : Nat) (f : Vec) (hid : id < a.count)
    (hA : AgreeBelow a b) :
    ∃ a' b', rigid_bodies_apply_force a id f = .ok a' ∧
      rigid_bodies_apply_force b id f = .ok b' ∧ AgreeBelow a' b' ∧
      a'.collided = a.collided ∧ b'.collided = b.collided ∧ a'.count = a.count := by
  obtain ⟨hc, hag⟩ := hA
  refine ⟨_, _, apply_force_eq a id f hid, apply_force_eq b id f (by omega), ⟨hc, ?_⟩, rfl, rfl,
    rfl⟩
  intro i hi
  obtain ⟨d1, d2, d3, d4, d5, d6, d7⟩ := hag i hi
  obtain ⟨_, _, _, _, e5, e6, e7⟩ := hag id hid
  refine ⟨d1, d2, d3, d4, ?_, d6, d7⟩
  simp only [e5, e6, e7]
  split
  · exact d5
  · simp only [Function.update_apply]
    split_ifs <;> first | rfl | exact d5

theorem react_pair_agree (a b : RigidBodies) (p : Nat × Nat) (h1 : p.1 < a.count)
    (h2 : p.2 < a.count) (hA : AgreeBelow a b) :
    ∃ a' b', react_pair a p = .ok a' ∧ react_pair b p = .ok b' ∧ AgreeBelow a' b' ∧
      a'.collided = a.collided ∧ b'.collided = b.collided ∧ a'.count = a.count := by
  obtain ⟨_, e2, e3, _⟩ := hA.2 p.2 h2
  obtain ⟨t, u, ht, hu, hA1, c1, c2, c3⟩ :=
    apply_force_agree a b p.1 (vec_sum (a.velocities p.2) (a.movements p.2)) h1 hA
  obtain ⟨_, g2, g3, _⟩ := hA1.2 p.1 (by omega)
  obtain ⟨t', u', ht', hu', hA2, c4, c5, c6⟩ :=
    apply_force_agree t u p.2 (vec_sum (t.velocities p.1) (t.movements p.1)) (by omega) hA1
  refine ⟨t', u', ?_, ?_, hA2, c4.trans c1, c5.trans c2, c6.trans c3⟩
  · unfold react_pair
    simp only [bind, Except.bind, ht]
    exact ht'
  · unfold react_pair
    rw [e2, e3]
    simp only [bind, Except.bind, hu]
    rw [g2, g3]
    exact hu'

theorem react_fold_agree (n : Nat) (l : List (Nat × Nat))
    (hl : ∀ p ∈ l, p.1 < n ∧ p.2 < n) :
    ∀ a b, a.count = n → AgreeBelow a b →
      ∃ a' b', l.foldlM react_pair a = .ok a' ∧ l.foldlM react_pair b = .ok b' ∧
        AgreeBelow a' b' ∧ a'.collided = a.collided ∧ b'.collided = b.collided := by
  induction l with
  | nil => intro a b _ hA; exact ⟨a, b, rfl, rfl, hA, rfl, rfl⟩
  | cons p l ih =>
    intro a b hn hA
    obtain ⟨q1, q2⟩ := hl p (List.mem_cons_self _ _)
    obtain ⟨t, u, ht, hu, hA1, c1, c2, c3⟩ :=
      react_pair_agree a b p (by omega) (by omega) hA
    obtain ⟨a', b', ha', hb', hA2, c4, c5⟩ :=
      ih (fun q hq => hl q (List.mem_cons_of_mem _ hq)) t u (c3.trans hn) hA1
    refine ⟨a', b', ?_, ?_, hA2, c4.trans c1, c5.trans c2⟩
    · simp only [List.foldlM_cons, bind, Except.bind, ht]
      exact ha'
    · simp only [List.foldlM_cons, bind, Except.bind, hu]
      exact hb'

/-- The self-collision pass on two stores that agree below `count` returns
stores that agree below `count` and hold the same pair set. -/
theorem collide_with_itself_agree (G : Geometry) (s t : RigidBodies) (hc : s.count ≠ 0)
    (hA : AgreeBelow s t) :
    ∃ s' t', rigid_bodies_collide_with_itself G s = .ok (s', 0) ∧
      rigid_bodies_collide_with_itself G t = .ok (t', 0) ∧
      AgreeBelow s' t' ∧ t'.collided = s'.collided := by
  have hA0 : AgreeBelow { s with collided := hashset_clear s.collided }
      { t with collided := hashset_clear t.collided } := hA
  obtain ⟨k1, k2, _⟩ := scan_loop_agree G 1000 _ _ hA0 rfl
  have hp : PairsOk { s with collided := hashset_clear s.collided } := by
    intro p hp
    simp [hashset_clear] at hp
  have hpairs := scan_loop_pairsOk G 1000 _ hp
  have hfr := scan_loop_frame G 1000 { s with collided := hashset_clear s.collided }
  obtain ⟨s', t', hs', ht', hA', c1, c2⟩ := react_fold_agree
    (scan_loop G 1000 { s with collided := hashset_clear s.collided }).1.count
    (scan_loop G 1000 { s with collided := hashset_clear s.collided }).1.collided
    (fun p hp => by
      have := hpairs p hp
      omega) _ _ rfl k1
  refine ⟨s', t', ?_, ?_, hA', ?_⟩
  · rw [collide_with_itself_unfold]
    rw [if_neg hc]
    simp only [bind, Except.bind, pure, Except.pure]
    unfold react hashset_values
    rw [hs']
  · rw [collide_with_itself_unfold]
    rw [if_neg (by rw [hA.1]; exact hc)]
    simp only [bind, Except.bind, pure, Except.pure]
    unfold react hashset_values
    rw [k2, ht']
  · rw [c1, c2, k2]

/-- C20: with `count = 0` the self-collision pass returns at once with the
store it was given.  Otherwise every pair it processes, and so every pair it
records, has `a < b < count`; the pass writes no slot from `count` on, leaves
sizes and flags alone, and reads no slot from `count` on: on a store that
agrees with `s` below `count` it returns a store that agrees with the result
below `count` and holds the same pair set. -/
theorem self_collision_indices (G : Geometry) (s : RigidBodies) :
    (s.count = 0 → rigid_bodies_collide_with_itself G s = .ok (s, 0)) ∧
    (s.count ≠ 0 →
      (∀ evs ∈ self_history G s, ∀ e ∈ evs, e.i1 < e.i2 ∧ e.i2 < s.count) ∧
      ∃ s', rigid_bodies_collide_with_itself G s = .ok (s', 0) ∧
        (∀ p ∈ s'.collided, p.1 < p.2 ∧ p.2 < s.count) ∧
        (∀ id, s.count ≤ id → SameBody s s' id) ∧ Shape s s' ∧
        ∀ t, AgreeBelow s t →
          ∃ t', rigid_bodies_collide_with_itself G t = .ok (t', 0) ∧
            AgreeBelow s' t' ∧ t'.collided = s'.collided) := by
  constructor
  · intro hc
    rw [collide_with_itself_unfold, if_pos hc]
  · intro hc
    constructor
    · intro evs hevs e he
      exact scan_loop_log_indices G 1000 { s with collided := hashset_clear s.collided }
        evs hevs e he
    · obtain ⟨s', hs', hfo, _⟩ := collide_with_itself_forces G s hc
      have hp : PairsOk { s with collided := hashset_clear s.collided } := by
        intro p hp
        simp [hashset_clear] at hp
      have hpairs := scan_loop_pairsOk G 1000 _ hp
      have hfr := scan_loop_frame G 1000 { s with collided := hashset_clear s.collided }
      refine ⟨s', hs', ?_, ?_, (collide_with_itself_shape G s _ hs').1, ?_⟩
      · intro p hp
        rw [hfo] at hp
        have := hpairs p hp
        rw [hfr.2.1] at this
        exact this
      · intro id hid
        exact collide_with_itself_untouched G s _ hs' id (Or.inl hid)
      · intro t hA
        obtain ⟨s'', t', h1, h2, h3, h4⟩ := collide_with_itself_agree G s t hc hA
        rw [hs'] at h1
        cases h1
        exact ⟨t', h2, h3, h4⟩

/-- Witness of `self_collision_indices`: under `slowGeometry` the pass on the
two overlapping bodies of `twoLive` processes the pair `(0, 1)` in two scans and
records it once, with `0 < 1 < 2`; the slot 2, which is not in use, is left as it
was; and on a store that differs from `twoLive` in the velocity of slot 2 only,
the pass returns a store that agrees with the result below `count`, with the
same pair set. -/
theorem self_collision_indices_witness :
    twoLive.count = 2 ∧
    self_history slowGeometry twoLive = [[⟨0, 1, vec 0 1⟩], [⟨0, 1, vec 0 1⟩], []] ∧
    (∀ evs ∈ self_history slowGeometry twoLive, ∀ e ∈ evs, e.i1 < e.i2 ∧ e.i2 < 2) ∧
    ∃ s', rigid_bodies_collide_with_itself slowGeometry twoLive = .ok (s', 0) ∧
      s'.collided = [(0, 1)] ∧
      (∀ p ∈ s'.collided, p.1 < p.2 ∧ p.2 < 2) ∧
      SameBody twoLive s' 2 ∧ s'.count = 2 ∧
      ∃ t', rigid_bodies_collide_with_itself slowGeometry
          { twoLive with velocities := Function.update twoLive.velocities 2 (vec 7 7) }
            = .ok (t', 0) ∧
        AgreeBelow s' t' ∧ t'.collided = [(0, 1)] := by
  have hc : twoLive.count = 2 := rfl
  obtain ⟨hev, s', hs', hp, hsame, hshape, hagree⟩ :=
    (self_collision_indices slowGeometry twoLive).2 (by decide)
  have hcol : s'.collided = [(0, 1)] := by
    obtain ⟨s'', hs'', hfo, _⟩ := collide_with_itself_forces slowGeometry twoLive (by decide)
    rw [hs'] at hs''
    cases hs''
    rw [hfo]
    have h := twoLive_run.2.1
    rw [(scan_loop_log_fst slowGeometry 1000 _).1] at h
    exact h
  have hA : AgreeBelow twoLive
      { twoLive with velocities := Function.update twoLive.velocities 2 (vec 7 7) } := by
    refine ⟨rfl, fun i hi => ⟨rfl, ?_, rfl, rfl, rfl, rfl, rfl⟩⟩
    rw [hc] at hi
    exact Function.update_noteq (by omega) _ _
  obtain ⟨t', ht', hA', hcol'⟩ := hagree _ hA
  refine ⟨hc, twoLive_run.1, hev, s', hs', hcol, hp, hsame 2 (by decide), hshape.2.1, t', ht',
    hA', ?_⟩
  rw [hcol', hcol]

/-! ## Which pairs a scan processes -/

theorem range'_split (a n k : Nat) (h : k < n) :
    List.range' a n = List.range' a k ++ (a + k) :: List.range' (a + k + 1) (n - k - 1) := by
  have h1 : n = (n - k - 1 + 1) + k := by omega
  conv_lhs => rw [h1]
  rw [← List.range'_append_1, List.range'_succ]

theorem scan_log_split (G : Geometry) (s : RigidBodies) (i1 : Nat) (h : i1 + 1 < s.count) :
    scan_log G s
      = (List.range' (i1 + 1) (s.count - 1 - i1 - 1)).foldl
          (fun acc j => scan_row_log G j acc) (scan_row_log G i1 (rows_before G s i1)) := by
  unfold scan_log rows_before
  rw [List.range_eq_range', range'_split 0 (s.count - 1) i1 (by omega), List.foldl_append,
    List.foldl_cons, ← List.range_eq_range']
  simp only [Nat.zero_add]

theorem scan_row_log_split (G : Geometry) (n i1 i2 : Nat)
    (st : (RigidBodies × Bool) × List Event) (hn : st.1.1.count = n)
    (hdel : st.1.1.deleted i1 = false) (hdis : st.1.1.disabled i1 = false)
    (h12 : i1 < i2) (h2 : i2 < n) :
    scan_row_log G i1 st
      = (List.range' (i2 + 1) (n - i2 - 1)).foldl (fun acc j => collide_pair_log G i1 j acc)
          (collide_pair_log G i1 i2
            ((List.range' (i1 + 1) (i2 - (i1 + 1))).foldl
              (fun acc j => collide_pair_log G i1 j acc) st)) := by
  unfold scan_row_log
  simp only [hdel, hdis, Bool.or_self, Bool.false_eq_true, if_false, hn]
  rw [range'_split (i1 + 1) (n - (i1 + 1)) (i2 - (i1 + 1)) (by omega), List.foldl_append,
    List.foldl_cons]
  have e1 : i1 + 1 + (i2 - (i1 + 1)) = i2 := by omega
  have e2 : n - (i1 + 1) - (i2 - (i1 + 1)) - 1 = n - i2 - 1 := by omega
  rw [e1, e2]

theorem pair_event_mem (G : Geometry) (i1 i2 : Nat) (t : RigidBodies) (e : Event) :
    e ∈ pair_event G i1 i2 t ↔
      t.deleted i2 = false ∧ t.disabled i1 = false ∧
      G.rects_overlap (t.bodies i1) (t.bodies i2) = true ∧
      e = ⟨i1, i2, (G.rect_impulse (t.bodies i1) (t.bodies i2)).2.2⟩ := by
  unfold pair_event
  cases hd : t.deleted i2 <;> cases hs : t.disabled i1 <;>
    cases ho : G.rects_overlap (t.bodies i1) (t.bodies i2) <;> simp

theorem rows_before_log (G : Geometry) (s : RigidBodies) (i1 : Nat) :
    ScanFrame s (rows_before G s i1).1.1 ∧
    ∀ e ∈ (rows_before G s i1).2, e.i1 < i1 := by
  obtain ⟨hf, new, h1, q⟩ := rows_part_log G s (List.range i1) ((s, false), [])
    (scanFrame_refl s)
  refine ⟨hf, ?_⟩
  intro e he
  unfold rows_before at he
  rw [h1, List.nil_append] at he
  obtain ⟨x, hx, e1, _⟩ := q e he
  rw [List.mem_range] at hx
  omega

theorem visit_log (G : Geometry) (s : RigidBodies) (i1 i2 : Nat) :
    ScanFrame s (visit G s i1 i2).1.1 ∧
    ∀ e ∈ (visit G s i1 i2).2, e.i1 < i1 ∨ (e.i1 = i1 ∧ e.i2 < i2) := by
  obtain ⟨hfA, qA⟩ := rows_before_log G s i1
  obtain ⟨hf, new, h1, q⟩ := row_part_log G s i1 (List.range' (i1 + 1) (i2 - (i1 + 1)))
    (rows_before G s i1) hfA
  refine ⟨hf, ?_⟩
  intro e he
  unfold visit at he
  rw [h1] at he
  rcases List.mem_append.mp he with he | he
  · exact Or.inl (qA e he)
  · obtain ⟨x, hx, e1, e2⟩ := q e he
    rw [List.mem_range'_1] at hx
    exact Or.inr ⟨e1, by omega⟩

theorem rest_of_row_log (G : Geometry) (s : RigidBodies) (i1 i2 n : Nat)
    (st : (RigidBodies × Bool) × List Event) (h : ScanFrame s st.1.1) (e : Event) :
    e ∈ ((List.range' (i2 + 1) n).foldl (fun acc j => collide_pair_log G i1 j acc) st).2 ↔
      e ∈ st.2 ∨
      (e ∈ ((List.range' (i2 + 1) n).foldl (fun acc j => collide_pair_log G i1 j acc) st).2 ∧
        e.i1 = i1 ∧ i2 < e.i2) := by
  obtain ⟨_, new, h1, q⟩ := row_part_log G s i1 (List.range' (i2 + 1) n) st h
  constructor
  · intro he
    have he' := he
    rw [h1] at he'
    rcases List.mem_append.mp he' with h' | h'
    · exact Or.inl h'
    · obtain ⟨x, hx, e1, e2⟩ := q e h'
      rw [List.mem_range'_1] at hx
      exact Or.inr ⟨he, e1, by omega⟩
  · rintro (h' | ⟨h', _⟩)
    · rw [h1]; exact List.mem_append_left _ h'
    · exact h'

theorem rest_of_rows_log (G : Geometry) (s : RigidBodies) (i1 n : Nat)
    (st : (RigidBodies × Bool) × List Event) (h : ScanFrame s st.1.1) (e : Event) :
    e ∈ ((List.range' (i1 + 1) n).foldl (fun acc j => scan_row_log G j acc) st).2 ↔
      e ∈ st.2 ∨
      (e ∈ ((List.range' (i1 + 1) n).foldl (fun acc j => scan_row_log G j acc) st).2 ∧
        i1 < e.i1) := by
  obtain ⟨_, new, h1, q⟩ := rows_part_log G s (List.range' (i1 + 1) n) st h
  constructor
  · intro he
    have he' := he
    rw [h1] at he'
    rcases List.mem_append.mp he' with h' | h'
    · exact Or.inl h'
    · obtain ⟨x, hx, e1, _⟩ := q e h'
      rw [List.mem_range'_1] at hx
      exact Or.inr ⟨he, by omega⟩
  · rintro (h' | ⟨h', _⟩)
    · rw [h1]; exact List.mem_append_left _ h'
    · exact h'

theorem scan_events_of_pair (G : Geometry) (s : RigidBodies) (i1 i2 : Nat) (h12 : i1 < i2)
    (h2 : i2 < s.count) (e : Event) (he1 : e.i1 = i1) (he2 : e.i2 = i2) :
    e ∈ (scan_log G s).2 ↔
      s.deleted i1 = false ∧ s.disabled i1 = false ∧
      e ∈ pair_event G i1 i2 (visit G s i1 i2).1.1 := by
  obtain ⟨hfA, qA⟩ := rows_before_log G s i1
  obtain ⟨hfB, qB⟩ := visit_log G s i1 i2
  rw [scan_log_split G s i1 (by omega)]
  by_cases hlive : s.deleted i1 = false ∧ s.disabled i1 = false
  · have hsplit := scan_row_log_split G s.count i1 i2 (rows_before G s i1) hfA.2.1
      (by rw [hfA.2.2.1]; exact hlive.1) (by rw [hfA.2.2.2.1]; exact hlive.2) h12 h2
    have hf1 := collide_pair_log_frame G s i1 i2 (visit G s i1 i2) hfB
    have hfC := (row_part_log G s i1 (List.range' (i2 + 1) (s.count - i2 - 1))
      (collide_pair_log G i1 i2 (visit G s i1 i2)) hf1).1
    have hv : (List.range' (i1 + 1) (i2 - (i1 + 1))).foldl
        (fun acc j => collide_pair_log G i1 j acc) (rows_before G s i1) = visit G s i1 i2 := rfl
    rw [hv] at hsplit
    rw [hsplit, rest_of_rows_log G s i1 _ _ hfC e, rest_of_row_log G s i1 i2 _ _ hf1 e]
    have hP : (collide_pair_log G i1 i2 (visit G s i1 i2)).2
        = (visit G s i1 i2).2 ++ pair_event G i1 i2 (visit G s i1 i2).1.1 := rfl
    rw [hP, List.mem_append]
    constructor
    · rintro (((h | h) | ⟨_, _, h⟩) | ⟨_, h⟩)
      · exfalso
        rcases qB e h with h' | ⟨_, h'⟩ <;> omega
      · exact ⟨hlive.1, hlive.2, h⟩
      · omega
      · omega
    · rintro ⟨_, _, h⟩
      exact Or.inl (Or.inl (Or.inr h))
  · have hskip : ((rows_before G s i1).1.1.deleted i1
        || (rows_before G s i1).1.1.disabled i1) = true := by
      rw [hfA.2.2.1, hfA.2.2.2.1]
      cases hd : s.deleted i1
      · cases hs : s.disabled i1
        · exact absurd ⟨hd, hs⟩ hlive
        · rfl
      · rfl
    have hrow : scan_row_log G i1 (rows_before G s i1) = rows_before G s i1 := by
      unfold scan_row_log
      rw [if_pos hskip]
    rw [hrow, rest_of_rows_log G s i1 _ _ hfA e]
    constructor
    · rintro (h | ⟨_, h⟩)
      · have := qA e h
        omega
      · omega
    · rintro ⟨h1, h2', _⟩
      exact absurd ⟨h1, h2'⟩ hlive

theorem collide_pair_masks (G : Geometry) (i1 i2 : Nat) (st : RigidBodies × Bool)
    (hne : i1 ≠ i2) (hdel : st.1.deleted i2 = false) (hdis : st.1.disabled i1 = false)
    (hov : G.rects_overlap (st.1.bodies i1) (st.1.bodies i2) = true) :
    (collide_pair G i1 i2 st).1.velocities i1
      = vec ((st.1.velocities i1).x * (G.rect_impulse (st.1.bodies i1) (st.1.bodies i2)).2.2.x)
            ((st.1.velocities i1).y * (G.rect_impulse (st.1.bodies i1) (st.1.bodies i2)).2.2.y) ∧
    (collide_pair G i1 i2 st).1.velocities i2
      = vec ((st.1.velocities i2).x * (G.rect_impulse (st.1.bodies i1) (st.1.bodies i2)).2.2.x)
            ((st.1.velocities i2).y * (G.rect_impulse (st.1.bodies i1) (st.1.bodies i2)).2.2.y) ∧
    (collide_pair G i1 i2 st).1.movements i1
      = vec ((st.1.movements i1).x * (G.rect_impulse (st.1.bodies i1) (st.1.bodies i2)).2.2.x)
            ((st.1.movements i1).y * (G.rect_impulse (st.1.bodies i1) (st.1.bodies i2)).2.2.y) ∧
    (collide_pair G i1 i2 st).1.movements i2
      = vec ((st.1.movements i2).x * (G.rect_impulse (st.1.bodies i1) (st.1.bodies i2)).2.2.x)
            ((st.1.movements i2).y * (G.rect_impulse (st.1.bodies i1) (st.1.bodies i2)).2.2.y) ∧
    (i1, i2) ∈ (collide_pair G i1 i2 st).1.collided := by
  have hne' : ¬ i2 = i1 := fun h => hne h.symm
  refine ⟨?_, ?_, ?_, ?_, ?_⟩
  · simp [collide_pair, hdel, hdis, hov, Function.update, hne]
  · simp [collide_pair, hdel, hdis, hov, Function.update, hne']
  · simp [collide_pair, hdel, hdis, hov, Function.update, hne]
  · simp [collide_pair, hdel, hdis, hov, Function.update, hne']
  · simp only [collide_pair, hdel, hdis, hov, Bool.or_self, Bool.false_eq_true, if_false,
      Bool.not_true]
    exact (hashset_insert_mem _ _ _).mpr (Or.inr rfl)

theorem scan_split_live (G : Geometry) (s : RigidBodies) (i1 i2 : Nat) (h12 : i1 < i2)
    (h2 : i2 < s.count) (k1 : s.deleted i1 = false) (k2 : s.disabled i1 = false) :
    scan G s
      = (List.range' (i1 + 1) (s.count - 1 - i1 - 1)).foldl
          (fun acc j => scan_row G j acc)
          ((List.range' (i2 + 1) (s.count - i2 - 1)).foldl
            (fun acc j => collide_pair G i1 j acc)
            (collide_pair G i1 i2 (visit G s i1 i2).1)) := by
  obtain ⟨hfA, _⟩ := rows_before_log G s i1
  rw [← scan_log_fst, scan_log_split G s i1 (by omega),
    scan_row_log_split G s.count i1 i2 (rows_before G s i1) hfA.2.1
      (by rw [hfA.2.2.1]; exact k1) (by rw [hfA.2.2.2.1]; exact k2) h12 h2,
    foldl_fst (fun acc j => scan_row G j acc) _ (fun a b => scan_row_log_fst G b a),
    foldl_fst (fun acc j => collide_pair G i1 j acc) _ (fun _ _ => rfl)]
  rfl

theorem scan_split_skipped (G : Geometry) (s : RigidBodies) (i1 : Nat) (h : i1 + 1 < s.count)
    (hskip : s.deleted i1 = true ∨ s.disabled i1 = true) :
    scan_row G i1 (rows_before G s i1).1 = (rows_before G s i1).1 ∧
    scan G s
      = (List.range' (i1 + 1) (s.count - 1 - i1 - 1)).foldl
          (fun acc j => scan_row G j acc) (rows_before G s i1).1 := by
  obtain ⟨hfA, _⟩ := rows_before_log G s i1
  have hrow : scan_row G i1 (rows_before G s i1).1 = (rows_before G s i1).1 := by
    unfold scan_row
    rw [hfA.2.2.1, hfA.2.2.2.1]
    rcases hskip with hd | hd <;> simp [hd]
  refine ⟨hrow, ?_⟩
  rw [← scan_log_fst, scan_log_split G s i1 h,
    foldl_fst (fun acc j => scan_row G j acc) _ (fun a b => scan_row_log_fst G b a),
    scan_row_log_fst, hrow]

theorem collide_pair_skips (G : Geometry) (i1 i2 : Nat) (st : RigidBodies × Bool)
    (h : st.1.deleted i2 = true ∨ st.1.disabled i1 = true ∨
      G.rects_overlap (st.1.bodies i1) (st.1.bodies i2) = false) :
    collide_pair G i1 i2 st = st := by
  unfold collide_pair
  rcases h with h | h | h <;> simp [h]

theorem collide_pair_sets_flag (G : Geometry) (i1 i2 : Nat) (t : RigidBodies) :
    (collide_pair G i1 i2 (t, false)).2 = true ↔
      t.deleted i2 = false ∧ t.disabled i1 = false ∧
      G.rects_overlap (t.bodies i1) (t.bodies i2) = true := by
  unfold collide_pair
  cases h1 : t.deleted i2 <;> cases h2 : t.disabled i1 <;>
    cases h3 : G.rects_overlap (t.bodies i1) (t.bodies i2) <;> simp [h1, h2, h3]

theorem collide_pair_ignores_disabled (G : Geometry) (i1 i2 : Nat) (hne : i1 ≠ i2)
    (t : RigidBodies) (f b : Bool) :
    collide_pair G i1 i2 ({ t with disabled := Function.update t.disabled i2 b }, f)
      = ({ (collide_pair G i1 i2 (t, f)).1 with disabled := Function.update t.disabled i2 b },
          (collide_pair G i1 i2 (t, f)).2) := by
  unfold collide_pair
  simp only [Function.update_noteq hne]
  split_ifs <;> rfl

/-- C16: in one scan of `s`, take a pair `i1 < i2 < count`.  When `deleted[i1]` or
`disabled[i1]` is set, `scan_row` returns the state at the start of the row as it
is, so the scan passes from the rows before `i1` straight to the rows after it and
no pair of the row is processed.  Otherwise the scan runs `collide_pair` for the
pair in the state `visit`, the one left by the rows before `i1` and the pairs
`(i1, i1 + 1) .. (i1, i2 - 1)`.  There `collide_pair` sets the collision flag
exactly when `deleted[i2]` and `disabled[i1]` are false and the two rectangles
overlap, and it returns its state as it is when one of these fails; when they hold
the flag is set, the velocity and the movement of both bodies are multiplied
component-wise by the orientation vector, and the pair is in the pair set, also at
the end of the scan.  `disabled[i2]` is not consulted: changing it changes the
result of `collide_pair` in that one entry only, so a disabled, non-deleted second
body is processed like a live one.  The processed pairs are the events of the scan:
an event for the pair exists exactly when `deleted[i1]`, `disabled[i1]` and
`deleted[i2]` are false and the rectangles overlap in `visit`. -/
theorem scan_processes_pair (G : Geometry) (s : RigidBodies) (i1 i2 : Nat) (h12 : i1 < i2)
    (h2 : i2 < s.count) :
    ((∃ e ∈ (scan_log G s).2, e.i1 = i1 ∧ e.i2 = i2) ↔
      s.deleted i1 = false ∧ s.disabled i1 = false ∧ s.deleted i2 = false ∧
      G.rects_overlap ((visit G s i1 i2).1.1.bodies i1) ((visit G s i1 i2).1.1.bodies i2)
        = true) ∧
    (s.deleted i1 = false → s.disabled i1 = false →
      scan_log G s
        = (List.range' (i1 + 1) (s.count - 1 - i1 - 1)).foldl
            (fun acc j => scan_row_log G j acc)
            ((List.range' (i2 + 1) (s.count - i2 - 1)).foldl
              (fun acc j => collide_pair_log G i1 j acc)
              (collide_pair_log G i1 i2 (visit G s i1 i2)))) ∧
    (s.deleted i1 = false → s.disabled i1 = false → s.deleted i2 = false →
      G.rects_overlap ((visit G s i1 i2).1.1.bodies i1) ((visit G s i1 i2).1.1.bodies i2)
        = true →
      (collide_pair G i1 i2 (visit G s i1 i2).1).1.velocities i1
        = vec (((visit G s i1 i2).1.1.velocities i1).x
                * (G.rect_impulse ((visit G s i1 i2).1.1.bodies i1)
                    ((visit G s i1 i2).1.1.bodies i2)).2.2.x)
              (((visit G s i1 i2).1.1.velocities i1).y
                * (G.rect_impulse ((visit G s i1 i2).1.1.bodies i1)
                    ((visit G s i1 i2).1.1.bodies i2)).2.2.y) ∧
      (collide_pair G i1 i2 (visit G s i1 i2).1).1.velocities i2
        = vec (((visit G s i1 i2).1.1.velocities i2).x
                * (G.rect_impulse ((visit G s i1 i2).1.1.bodies i1)
                    ((visit G s i1 i2).1.1.bodies i2)).2.2.x)
              (((visit G s i1 i2).1.1.velocities i2).y
                * (G.rect_impulse ((visit G s i1 i2).1.1.bodies i1)
                    ((visit G s i1 i2).1.1.bodies i2)).2.2.y) ∧
      (collide_pair G i1 i2 (visit G s i1 i2).1).1.movements i1
        = vec (((visit G s i1 i2).1.1.movements i1).x
                * (G.rect_impulse ((visit G s i1 i2).1.1.bodies i1)
                    ((visit G s i1 i2).1.1.bodies i2)).2.2.x)
              (((visit G s i1 i2).1.1.movements i1).y
                * (G.rect_impulse ((visit G s i1 i2).1.1.bodies i1)
                    ((visit G s i1 i2).1.1.bodies i2)).2.2.y) ∧
      (collide_pair G i1 i2 (visit G s i1 i2).1).1.movements i2
        = vec (((visit G s i1 i2).1.1.movements i2).x
                * (G.rect_impulse ((visit G s i1 i2).1.1.bodies i1)
                    ((visit G s i1 i2).1.1.bodies i2)).2.2.x)
              (((visit G s i1 i2).1.1.movements i2).y
                * (G.rect_impulse ((visit G s i1 i2).1.1.bodies i1)
                    ((visit G s i1 i2).1.1.bodies i2)).2.2.y) ∧
      (i1, i2) ∈ (collide_pair G i1 i2 (visit G s i1 i2).1).1.collided ∧
      (i1, i2) ∈ (scan G s).1.collided ∧
      (collide_pair G i1 i2 (visit G s i1 i2).1).2 = true) ∧
    (s.deleted i1 = false → s.disabled i1 = false →
      scan G s
        = (List.range' (i1 + 1) (s.count - 1 - i1 - 1)).foldl
            (fun acc j => scan_row G j acc)
            ((List.range' (i2 + 1) (s.count - i2 - 1)).foldl
              (fun acc j => collide_pair G i1 j acc)
              (collide_pair G i1 i2 (visit G s i1 i2).1))) ∧
    ((s.deleted i1 = true ∨ s.disabled i1 = true) →
      scan_row G i1 (rows_before G s i1).1 = (rows_before G s i1).1 ∧
      scan G s
        = (List.range' (i1 + 1) (s.count - 1 - i1 - 1)).foldl
            (fun acc j => scan_row G j acc) (rows_before G s i1).1) ∧
    ((collide_pair G i1 i2 ((visit G s i1 i2).1.1, false)).2 = true ↔
      s.deleted i2 = false ∧ s.disabled i1 = false ∧
      G.rects_overlap ((visit G s i1 i2).1.1.bodies i1) ((visit G s i1 i2).1.1.bodies i2)
        = true) ∧
    ((s.deleted i2 = true ∨ s.disabled i1 = true ∨
        G.rects_overlap ((visit G s i1 i2).1.1.bodies i1) ((visit G s i1 i2).1.1.bodies i2)
          = false) →
      collide_pair G i1 i2 (visit G s i1 i2).1 = (visit G s i1 i2).1) ∧
    (∀ (t : RigidBodies) (f b : Bool),
      collide_pair G i1 i2 ({ t with disabled := Function.update t.disabled i2 b }, f)
        = ({ (collide_pair G i1 i2 (t, f)).1 with
              disabled := Function.update t.disabled i2 b },
            (collide_pair G i1 i2 (t, f)).2)) := by
  obtain ⟨hfA, _⟩ := rows_before_log G s i1
  obtain ⟨hfB, _⟩ := visit_log G s i1 i2
  have hdel2 : (visit G s i1 i2).1.1.deleted i2 = s.deleted i2 := by rw [hfB.2.2.1]
  have hdis1 : (visit G s i1 i2).1.1.disabled i1 = s.disabled i1 := by rw [hfB.2.2.2.1]
  have hiff : (∃ e ∈ (scan_log G s).2, e.i1 = i1 ∧ e.i2 = i2) ↔
      s.deleted i1 = false ∧ s.disabled i1 = false ∧ s.deleted i2 = false ∧
      G.rects_overlap ((visit G s i1 i2).1.1.bodies i1) ((visit G s i1 i2).1.1.bodies i2)
        = true := by
    constructor
    · rintro ⟨e, he, e1, e2⟩
      obtain ⟨k1, k2, k3⟩ := (scan_events_of_pair G s i1 i2 h12 h2 e e1 e2).mp he
      obtain ⟨m1, _, m3, _⟩ := (pair_event_mem G i1 i2 _ e).mp k3
      exact ⟨k1, k2, hdel2 ▸ m1, m3⟩
    · rintro ⟨k1, k2, k3, k4⟩
      refine ⟨⟨i1, i2, (G.rect_impulse ((visit G s i1 i2).1.1.bodies i1)
        ((visit G s i1 i2).1.1.bodies i2)).2.2⟩, ?_, rfl, rfl⟩
      refine (scan_events_of_pair G s i1 i2 h12 h2 _ rfl rfl).mpr ⟨k1, k2, ?_⟩
      exact (pair_event_mem G i1 i2 _ _).mpr ⟨hdel2.trans k3, hdis1.trans k2, k4, rfl⟩
  refine ⟨hiff, ?_, ?_, ?_, ?_, ?_, ?_, ?_⟩
  · intro k1 k2
    rw [scan_log_split G s i1 (by omega),
      scan_row_log_split G s.count i1 i2 (rows_before G s i1) hfA.2.1
        (by rw [hfA.2.2.1]; exact k1) (by rw [hfA.2.2.2.1]; exact k2) h12 h2]
    rfl
  · intro k1 k2 k3 k4
    obtain ⟨m1, m2, m3, m4, m5⟩ := collide_pair_masks G i1 i2 (visit G s i1 i2).1 (by omega)
      (hdel2.trans k3) (hdis1.trans k2) k4
    refine ⟨m1, m2, m3, m4, m5, ?_, ?_⟩
    · obtain ⟨e, he, e1, e2⟩ := hiff.mpr ⟨k1, k2, k3, k4⟩
      have := (scan_log_recorded G s).2 e he
      rw [e1, e2, scan_log_fst] at this
      exact this
    · exact (collide_pair_processed G (visit G s i1 i2).1.1 i1 i2 (visit G s i1 i2).1.2
        (by omega) (hdel2.trans k3) (hdis1.trans k2) k4).1
  · intro k1 k2
    exact scan_split_live G s i1 i2 h12 h2 k1 k2
  · intro hskip
    exact scan_split_skipped G s i1 (by omega) hskip
  · rw [collide_pair_sets_flag, hdel2, hdis1]
  · intro h
    refine collide_pair_skips G i1 i2 _ ?_
    rw [hdel2, hdis1]
    exact h
  · intro t f b
    exact collide_pair_ignores_disabled G i1 i2 (by omega) t f b

/-- Witness of `scan_processes_pair`: in `disabledOverlap` the disabled,
non-deleted body 1 overlaps the live body 0; the scan runs `collide_pair` for the
pair, which sets the flag, masks the velocity of body 1 with the orientation
`(1, 0)` and records the pair. -/
theorem scan_processes_pair_witness :
    disabledOverlap.disabled 1 = true ∧
    (∃ e ∈ (scan_log sampleGeometry disabledOverlap).2, e.i1 = 0 ∧ e.i2 = 1) ∧
    (collide_pair sampleGeometry 0 1 (visit sampleGeometry disabledOverlap 0 1).1).1.velocities 1
      = vec (3 * 1) (4 * 0) ∧
    (0, 1) ∈ (scan sampleGeometry disabledOverlap).1.collided ∧
    (collide_pair sampleGeometry 0 1 (disabledOverlap, false)).2 = true := by
  have hv : (visit sampleGeometry disabledOverlap 0 1).1.1 = disabledOverlap := rfl
  have hov : sampleGeometry.rects_overlap
      ((visit sampleGeometry disabledOverlap 0 1).1.1.bodies 0)
      ((visit sampleGeometry disabledOverlap 0 1).1.1.bodies 1) = true := by
    rw [hv]
    norm_num [sampleGeometry, disabledOverlap, create_rigid_bodies]
  obtain ⟨h1, _, h3, _, _, h6, _⟩ :=
    scan_processes_pair sampleGeometry disabledOverlap 0 1 (by decide) (by decide)
  obtain ⟨_, m2, _, _, _, m6, _⟩ := h3 rfl rfl rfl hov
  refine ⟨rfl, h1.mpr ⟨rfl, rfl, rfl, hov⟩, ?_, m6, ?_⟩
  · rw [m2, hv]
    norm_num [sampleGeometry, disabledOverlap, create_rigid_bodies, vec, Function.update]
  · rw [hv] at h6
    exact h6.mpr ⟨rfl, rfl, by rw [← hv]; exact hov⟩

/-! ## A disabled second body: the reaction is one-sided -/

theorem recorded_of_detection (G : Geometry) (s : RigidBodies) (a b : Nat)
    (hk : 1 ≤ detections (self_history G s) a b) :
    (a, b) ∈ (after_scans G s).collided ∧ (after_scans G s).collided.Nodup ∧
    a < b ∧ b < s.count := by
  obtain ⟨evs, hevs, e, he, h1, h2⟩ := detections_pos _ a b hk
  have hmem := (scan_loop_log_recorded G 1000
    { s with collided := hashset_clear s.collided }).2 evs hevs e he
  rw [h1, h2, (scan_loop_log_fst G 1000 _).1] at hmem
  have hp : PairsOk { s with collided := hashset_clear s.collided } := by
    intro p hp
    simp [hashset_clear] at hp
  have hpair := scan_loop_pairsOk G 1000 _ hp (a, b) hmem
  have hfr := scan_loop_frame G 1000 { s with collided := hashset_clear s.collided }
  rw [hfr.2.1] at hpair
  exact ⟨hmem, scan_loop_nodup G 1000 _ (by simp [hashset_clear]), hpair.1, hpair.2⟩

/-- C21: when the live body `i1` and the disabled, non-deleted body `i2`
(`i1 < i2`) were processed as an overlapping pair in a scan of the
self-collision pass, the pair is in the pair set and the reactive loop adds
`velocity[i2] + movement[i2]` (values after the scan loop) to `forces[i1]`,
next to the pushes of the other recorded pairs, while `forces[i2]` is left as
it was: `rigid_bodies_apply_force` returns the store unchanged for the
disabled body. -/
theorem one_sided_reaction (G : Geometry) (s : RigidBodies) (i1 i2 : Nat) (h12 : i1 < i2)
    (hdel1 : s.deleted i1 = false) (hdis1 : s.disabled i1 = false)
    (_hdel2 : s.deleted i2 = false) (hdis2 : s.disabled i2 = true)
    (hk : 1 ≤ detections (self_history G s) i1 i2) :
    ∃ s', rigid_bodies_collide_with_itself G s = .ok (s', 0) ∧
      s'.velocities = (after_scans G s).velocities ∧
      s'.movements = (after_scans G s).movements ∧
      (i1, i2) ∈ s'.collided ∧
      (s'.forces i1).x = (s.forces i1).x + ((s'.velocities i2).x + (s'.movements i2).x)
        + ((s'.collided.filter fun q => decide (q ≠ (i1, i2))).map
            fun p => (pair_push s' i1 p).x).sum ∧
      (s'.forces i1).y = (s.forces i1).y + ((s'.velocities i2).y + (s'.movements i2).y)
        + ((s'.collided.filter fun q => decide (q ≠ (i1, i2))).map
            fun p => (pair_push s' i1 p).y).sum ∧
      s'.forces i2 = s.forces i2 ∧
      ∀ f, rigid_bodies_apply_force (after_scans G s) i2 f = .ok (after_scans G s) := by
  obtain ⟨hmem, hnd, _, hlt2⟩ := recorded_of_detection G s i1 i2 hk
  have hc : s.count ≠ 0 := by omega
  obtain ⟨s', hs', hfo, hforces⟩ := collide_with_itself_forces G s hc
  have hv : s'.velocities = (after_scans G s).velocities := by rw [hfo]
  have hm : s'.movements = (after_scans G s).movements := by rw [hfo]
  have hcol : s'.collided = (after_scans G s).collided := by rw [hfo]
  have hpush : ∀ id q, pair_push s' id q = pair_push (after_scans G s) id q := by
    intro id q
    unfold pair_push
    rw [hv, hm]
  have hfr := scan_loop_frame G 1000 { s with collided := hashset_clear s.collided }
  obtain ⟨fx, fy⟩ := hforces i1 hdel1 hdis1
  refine ⟨s', hs', hv, hm, hcol ▸ hmem, ?_, ?_,
    collide_with_itself_forces_disabled G s _ hs' i2 hdis2, ?_⟩
  · rw [fx, sum_split_pair _ _ (i1, i2) hnd hmem, pair_push_first _ i1 i2 h12]
    simp only [hpush, hcol, hv, hm, vec]
    ring
  · rw [fy, sum_split_pair _ _ (i1, i2) hnd hmem, pair_push_first _ i1 i2 h12]
    simp only [hpush, hcol, hv, hm, vec]
    ring
  · intro f
    have hd : (after_scans G s).disabled i2 = true := by
      unfold after_scans
      rw [hfr.2.2.2.1]
      exact hdis2
    have hcnt : i2 < (after_scans G s).count := by
      unfold after_scans
      rw [hfr.2.1]
      exact hlt2
    rw [apply_force_eq _ i2 f hcnt]
    simp [hd]

theorem disabledOverlap_run :
    (scan_loop_log sampleGeometry 1000
      { disabledOverlap with collided := hashset_clear disabledOverlap.collided }).2
      = [[⟨0, 1, vec 1 0⟩], []] ∧
    (scan_loop_log sampleGeometry 1000
      { disabledOverlap with collided := hashset_clear disabledOverlap.collided }).1.collided
      = [(0, 1)] ∧
    (scan_loop_log sampleGeometry 1000
      { disabledOverlap with collided := hashset_clear disabledOverlap.collided }).1.velocities 1
      = vec 3 0 ∧
    (scan_loop_log sampleGeometry 1000
      { disabledOverlap with collided := hashset_clear disabledOverlap.collided }).1.movements 1
      = vec 5 0 := by
  have e1 := scan_log_two sampleGeometry
    { disabledOverlap with collided := hashset_clear disabledOverlap.collided } rfl rfl rfl
  have f1 : (scan_log sampleGeometry
      { disabledOverlap with collided := hashset_clear disabledOverlap.collided }).1.2
      = true := by
    rw [e1]
    norm_num [collide_pair_log, collide_pair, disabledOverlap, create_rigid_bodies,
      sampleGeometry, vec, Function.update]
  rw [show (1000 : Nat) = 999 + 1 from rfl, scan_loop_log_next _ _ _ f1]
  have hfr1 := scan_frame sampleGeometry
    { disabledOverlap with collided := hashset_clear disabledOverlap.collided }
  rw [← scan_log_fst] at hfr1
  have e2 := scan_log_two sampleGeometry _ hfr1.2.1 (by rw [hfr1.2.2.1]; rfl)
    (by rw [hfr1.2.2.2.1]; rfl)
  have f2 : (scan_log sampleGeometry (scan_log sampleGeometry
      { disabledOverlap with collided := hashset_clear disabledOverlap.collided }).1.1).1.2
      = false := by
    rw [e2, e1]
    norm_num [collide_pair_log, collide_pair, disabledOverlap, create_rigid_bodies,
      sampleGeometry, vec, Function.update]
  rw [show (999 : Nat) = 998 + 1 from rfl, scan_loop_log_stop _ _ _ f2]
  simp only
  rw [e2, e1]
  refine ⟨?_, ?_, ?_, ?_⟩ <;>
    norm_num [collide_pair_log, collide_pair, pair_event, disabledOverlap, create_rigid_bodies,
      sampleGeometry, vec, Function.update, hashset_insert, hashset_clear]

/-- Witness of `one_sided_reaction`: in `disabledOverlap` the live body 0
and the disabled body 1 are processed as a pair in the first scan; the pass
adds `(3, 0) + (5, 0)` to `forces[0]` and leaves `forces[1]` at `(0, 0)`. -/
theorem one_sided_reaction_witness :
    detections (self_history sampleGeometry disabledOverlap) 0 1 = 1 ∧
    ∃ s', rigid_bodies_collide_with_itself sampleGeometry disabledOverlap = .ok (s', 0) ∧
      (s'.forces 0).x = 8 ∧ (s'.forces 0).y = 0 ∧
      s'.forces 1 = disabledOverlap.forces 1 := by
  obtain ⟨hh, hcol, hv1, hm1⟩ := disabledOverlap_run
  have hk : detections (self_history sampleGeometry disabledOverlap) 0 1 = 1 := by
    unfold self_history
    rw [hh]
    simp [detections]
  rw [(scan_loop_log_fst sampleGeometry 1000 _).1] at hcol hv1 hm1
  obtain ⟨s', hs', hv, hm, _, fx, fy, f2, _⟩ :=
    one_sided_reaction sampleGeometry disabledOverlap 0 1 (by decide) rfl rfl rfl rfl
      (by rw [hk])
  have hfo : s'.collided = [(0, 1)] := by
    obtain ⟨t, ht, hfo', _⟩ := collide_with_itself_forces sampleGeometry disabledOverlap
      (by decide)
    rw [hs'] at ht
    cases ht
    rw [hfo']
    exact hcol
  have w1 : s'.velocities 1 = vec 3 0 := by rw [hv]; exact hv1
  have w2 : s'.movements 1 = vec 5 0 := by rw [hm]; exact hm1
  refine ⟨hk, s', hs', ?_, ?_, f2⟩
  · rw [fx, hfo, w1, w2]; norm_num [disabledOverlap, create_rigid_bodies, vec]
  · rw [fy, hfo, w1, w2]; norm_num [disabledOverlap, create_rigid_bodies, vec]

end RigidBodies
